import Mathlib

/-!
# ArtifactBuild reconciler of jvm-build-service

A shallow embedding of `pkg/reconciler/artifactbuild/artifactbuildrequest.go`: the
`ArtifactBuild` state machine (`Reconcile` and its four state handlers), the
content hash used as de-duplication key (`hashString`, `ABRLabelForGAV`) and the
resource-name generator (`CreateABRName`).

The object store, the event recorder and the library routines the handlers call
(`crypto/md5`, `crypto/sha1`, `encoding/hex`, `unicode`, `controllerutil`) are modelled
next to the handlers; every handler threads an explicit `World` that holds the stored
objects, the calls issued so far and the scripted outcome of the calls to come.
-/

namespace Artifactbuild

/-! ## Constants of the package (lines 27-40) -/

def TaskRunLabel : String := "jvmbuildservice.io/taskrun"

/-- The constant `DependencyBuildContaminatedBy`: the annotation prefix that marks a
dependency build contaminated by this artifact. -/
def DependencyBuildContaminatedBy : String := "jvmbuildservice.io/contaminated-"

def DependencyBuildIdLabel : String := "jvmbuildservice.io/dependencybuild-id"

def ArtifactBuildIdLabel : String := "jvmbuildservice.io/abr-id"

def TaskResultScmUrl : String := "scm-url"

def TaskResultScmTag : String := "scm-tag"

def TaskResultScmType : String := "scm-type"

def TaskResultContextPath : String := "context"

def TaskResultMessage : String := "message"

/-! ## Constants of `v1alpha1`

The package `pkg/apis/jvmbuildservice/v1alpha1` declares the state names. The handlers
only compare them, so what matters is that they are pairwise different (the `switch`
statements of the source would not compile otherwise) and non-empty. -/

/-- Modelled from the spec: `v1alpha1.ArtifactBuildStateNew` is declared in the `v1alpha1`
package; the spec calls the state `New`. -/
def ArtifactBuildStateNew : String := "ArtifactBuildNew"

/-- Modelled from the spec: `v1alpha1.ArtifactBuildStateDiscovering` is declared in the
`v1alpha1` package; the spec calls the state `Discovering`. -/
def ArtifactBuildStateDiscovering : String := "ArtifactBuildDiscovering"

/-- Modelled from the spec: `v1alpha1.ArtifactBuildStateMissing` is declared in the
`v1alpha1` package; the spec calls the state `Missing`. -/
def ArtifactBuildStateMissing : String := "ArtifactBuildMissing"

/-- Modelled from the spec: `v1alpha1.ArtifactBuildStateBuilding` is declared in the
`v1alpha1` package; the spec calls the state `Building`. -/
def ArtifactBuildStateBuilding : String := "ArtifactBuildBuilding"

/-- Modelled from the spec: `v1alpha1.ArtifactBuildStateFailed` is declared in the
`v1alpha1` package; the spec calls the state `Failed`. -/
def ArtifactBuildStateFailed : String := "ArtifactBuildFailed"

/-- Modelled from the spec: `v1alpha1.ArtifactBuildStateComplete` is declared in the
`v1alpha1` package; the spec calls the state `Complete`. -/
def ArtifactBuildStateComplete : String := "ArtifactBuildComplete"

/-- Modelled from the spec: `v1alpha1.DependencyBuildStateComplete` is declared in the
`v1alpha1` package; the spec calls the build state `Complete`. -/
def DependencyBuildStateComplete : String := "DependencyBuildStateComplete"

/-- Modelled from the spec: `v1alpha1.DependencyBuildStateFailed` is declared in the
`v1alpha1` package; the spec calls the build state `Failed`. -/
def DependencyBuildStateFailed : String := "DependencyBuildStateFailed"

/-- Modelled from the spec: `v1alpha1.DependencyBuildStateContaminated` is declared in the
`v1alpha1` package; the spec calls the build state `Contaminated`. It is a state name,
not the annotation prefix `DependencyBuildContaminatedBy`. -/
def DependencyBuildStateContaminated : String := "DependencyBuildStateContaminated"

/-! ## Data model -/

/-- The type `v1alpha1.SCMInfo`. -/
structure SCMInfo where
  SCMURL : String := ""
  SCMType : String := ""
  Tag : String := ""
  Path : String := ""
deriving DecidableEq, Repr

/-- The type `metav1.OwnerReference` (the fields `SetOwnerReference` fills in). -/
structure OwnerReference where
  APIVersion : String
  Kind : String
  Name : String
  UID : String
deriving DecidableEq, Repr

/-- The type `v1alpha1.ArtifactBuildSpec`. -/
structure ArtifactBuildSpec where
  GAV : String := ""
deriving DecidableEq, Repr

/-- The type `v1alpha1.ArtifactBuildStatus`. -/
structure ArtifactBuildStatus where
  State : String := ""
  SCMInfo : SCMInfo := {}
  Message : String := ""
deriving DecidableEq, Repr

/-- The type `v1alpha1.ArtifactBuild`. `Annotations` is a Go map; the list is the order in
which one `range` over it happens to visit the entries. -/
structure ArtifactBuild where
  Name : String := ""
  Namespace : String := ""
  UID : String := ""
  Annotations : List (String × String) := []
  Spec : ArtifactBuildSpec := {}
  Status : ArtifactBuildStatus := {}
deriving DecidableEq, Repr

/-- The type `v1alpha1.DependencyBuildSpec`. -/
structure DependencyBuildSpec where
  ScmInfo : SCMInfo := {}
deriving DecidableEq, Repr

/-- The type `v1alpha1.DependencyBuildStatus`. -/
structure DependencyBuildStatus where
  State : String := ""
  Contaminants : List String := []
deriving DecidableEq, Repr

/-- The type `v1alpha1.DependencyBuild`. Creation timestamps are seconds. -/
structure DependencyBuild where
  Name : String := ""
  GenerateName : String := ""
  Namespace : String := ""
  Labels : List (String × String) := []
  OwnerReferences : List OwnerReference := []
  CreationTimestamp : Nat := 0
  Spec : DependencyBuildSpec := {}
  Status : DependencyBuildStatus := {}
deriving DecidableEq, Repr

/-- One entry of `TaskRunStatus.TaskRunResults`. -/
structure TaskRunResult where
  Name : String
  Value : String
deriving DecidableEq, Repr

/-- The part of `pipelinev1beta1.TaskRunStatus` the reconciler reads. -/
structure TaskRunStatus where
  CompletionTime : Option Nat := none
  TaskRunResults : List TaskRunResult := []
deriving DecidableEq, Repr

/-- The part of `pipelinev1beta1.TaskRunSpec` the reconciler writes: the task reference
(name and kind) and the string parameters. -/
structure TaskRunSpec where
  TaskRefName : String := ""
  TaskRefKind : String := ""
  Params : List (String × String) := []
deriving DecidableEq, Repr

/-- The type `pipelinev1beta1.TaskRun`. -/
structure TaskRun where
  Name : String := ""
  GenerateName : String := ""
  Namespace : String := ""
  Labels : List (String × String) := []
  OwnerReferences : List OwnerReference := []
  CreationTimestamp : Nat := 0
  Spec : TaskRunSpec := {}
  Status : TaskRunStatus := {}
deriving DecidableEq, Repr

/-- The type `reconcile.Result`; `RequeueAfter` in seconds, `0` for no requeue. -/
structure Result where
  RequeueAfter : Nat := 0
deriving DecidableEq, Repr

/-- Errors a handler can return. -/
inductive Err where
  /-- the store has no object of that name -/
  | notFound
  /-- a transient store error (network, conflict) -/
  | transient
  /-- `SetOwnerReference` rejected the owner -/
  | invalidOwner
  /-- a nil pointer was dereferenced -/
  | nilDereference
deriving DecidableEq, Repr

/-- Equality of handler outcomes is decidable. -/
instance instDecidableEqExcept {ε α : Type} [DecidableEq ε] [DecidableEq α] :
    DecidableEq (Except ε α)
  | .ok a, .ok b =>
    if h : a = b then isTrue (by rw [h]) else isFalse (fun h' => h (by cases h'; rfl))
  | .error a, .error b =>
    if h : a = b then isTrue (by rw [h]) else isFalse (fun h' => h (by cases h'; rfl))
  | .ok _, .error _ => isFalse (fun h => by cases h)
  | .error _, .ok _ => isFalse (fun h => by cases h)

/-! ## Library routines: `encoding/hex`, `crypto/sha1`, `crypto/md5`

Go's standard library, written out after FIPS 180-1 and RFC 1321. Words are natural
numbers below `2 ^ 32`; every addition is reduced modulo `2 ^ 32`. -/

/-- The bytes of a Go string: its UTF-8 encoding (`[]byte(s)`). -/
def utf8Bytes (s : String) : List Nat :=
  s.data.flatMap fun c => (String.utf8EncodeChar c).map UInt8.toNat

/-- Rotate a 32-bit word to the left (`bits.RotateLeft32`). -/
def rotl32 (x n : Nat) : Nat := ((x <<< n) ||| (x >>> (32 - n))) % 4294967296

/-- Number of zero bytes of the padding: after the `0x80` byte the length is `56`
modulo `64`. -/
def padZeros (len : Nat) : Nat := (119 - len % 64) % 64

/-- The `k` low bytes of `n`, most significant first. -/
def beBytes : Nat → Nat → List Nat
  | 0, _ => []
  | k + 1, n => (n >>> (8 * k)) % 256 :: beBytes k n

/-- The `k` low bytes of `n`, least significant first. -/
def leBytes : Nat → Nat → List Nat
  | 0, _ => []
  | k + 1, n => n % 256 :: leBytes k (n >>> 8)

/-- Bytes to 32-bit words, big endian. -/
def beWords : List Nat → List Nat
  | a :: b :: c :: d :: rest => (((a * 256 + b) * 256 + c) * 256 + d) :: beWords rest
  | _ => []

/-- Bytes to 32-bit words, little endian. -/
def leWords : List Nat → List Nat
  | a :: b :: c :: d :: rest => (((d * 256 + c) * 256 + b) * 256 + a) :: leWords rest
  | _ => []

/-- The first `k` blocks of sixteen words. -/
def chunks16 : Nat → List Nat → List (List Nat)
  | 0, _ => []
  | k + 1, ws => ws.take 16 :: chunks16 k (ws.drop 16)

/-- One hexadecimal digit, lower case (`hextable` of `encoding/hex`). -/
def hexDigit (n : Nat) : Char := "0123456789abcdef".data.getD n '0'

/-- The two digits of one byte. -/
def hexByte (b : Nat) : List Char := [hexDigit (b / 16 % 16), hexDigit (b % 16)]

/-- The function `hex.EncodeToString`. -/
def hexEncodeToString (bs : List Nat) : String := ⟨bs.flatMap hexByte⟩

/-- The SHA-1 message schedule: extend sixteen words by `k` more. -/
def sha1Schedule : Nat → List Nat → List Nat
  | 0, w => w
  | k + 1, w =>
    let t := w.length
    sha1Schedule k (w ++ [rotl32 (w.getD (t - 3) 0 ^^^ w.getD (t - 8) 0 ^^^
      w.getD (t - 14) 0 ^^^ w.getD (t - 16) 0) 1])

/-- The five chaining words of SHA-1. -/
structure Sha1State where
  a : Nat
  b : Nat
  c : Nat
  d : Nat
  e : Nat
deriving DecidableEq, Repr

/-- Round `t` of SHA-1 on schedule word `tw.2`. -/
def sha1Round (s : Sha1State) (tw : Nat × Nat) : Sha1State :=
  let t := tw.1
  let fk : Nat × Nat :=
    if t < 20 then ((s.b &&& s.c) ||| ((s.b ^^^ 4294967295) &&& s.d), 0x5A827999)
    else if t < 40 then (s.b ^^^ s.c ^^^ s.d, 0x6ED9EBA1)
    else if t < 60 then ((s.b &&& s.c) ||| (s.b &&& s.d) ||| (s.c &&& s.d), 0x8F1BBCDC)
    else (s.b ^^^ s.c ^^^ s.d, 0xCA62C1D6)
  { a := (rotl32 s.a 5 + fk.1 + s.e + fk.2 + tw.2) % 4294967296,
    b := s.a, c := rotl32 s.b 30, d := s.c, e := s.d }

/-- The SHA-1 compression of one block. -/
def sha1Block (h : Sha1State) (block : List Nat) : Sha1State :=
  let r := (sha1Schedule 64 block).enum.foldl sha1Round h
  { a := (h.a + r.a) % 4294967296, b := (h.b + r.b) % 4294967296,
    c := (h.c + r.c) % 4294967296, d := (h.d + r.d) % 4294967296,
    e := (h.e + r.e) % 4294967296 }

/-- The function `sha1.Sum`: the twenty bytes of the digest. -/
def sha1Sum (bytes : List Nat) : List Nat :=
  let padded := bytes ++ [128] ++ List.replicate (padZeros bytes.length) 0 ++
    beBytes 8 (8 * bytes.length)
  let ws := beWords padded
  let h := (chunks16 (ws.length / 16) ws).foldl sha1Block
    ⟨0x67452301, 0xEFCDAB89, 0x98BADCFE, 0x10325476, 0xC3D2E1F0⟩
  beBytes 4 h.a ++ beBytes 4 h.b ++ beBytes 4 h.c ++ beBytes 4 h.d ++ beBytes 4 h.e

/-- The sine table of MD5. -/
def md5K : List Nat :=
  [0xd76aa478, 0xe8c7b756, 0x242070db, 0xc1bdceee,
   0xf57c0faf, 0x4787c62a, 0xa8304613, 0xfd469501,
   0x698098d8, 0x8b44f7af, 0xffff5bb1, 0x895cd7be,
   0x6b901122, 0xfd987193, 0xa679438e, 0x49b40821,
   0xf61e2562, 0xc040b340, 0x265e5a51, 0xe9b6c7aa,
   0xd62f105d, 0x02441453, 0xd8a1e681, 0xe7d3fbc8,
   0x21e1cde6, 0xc33707d6, 0xf4d50d87, 0x455a14ed,
   0xa9e3e905, 0xfcefa3f8, 0x676f02d9, 0x8d2a4c8a,
   0xfffa3942, 0x8771f681, 0x6d9d6122, 0xfde5380c,
   0xa4beea44, 0x4bdecfa9, 0xf6bb4b60, 0xbebfbc70,
   0x289b7ec6, 0xeaa127fa, 0xd4ef3085, 0x04881d05,
   0xd9d4d039, 0xe6db99e5, 0x1fa27cf8, 0xc4ac5665,
   0xf4292244, 0x432aff97, 0xab9423a7, 0xfc93a039,
   0x655b59c3, 0x8f0ccc92, 0xffeff47d, 0x85845dd1,
   0x6fa87e4f, 0xfe2ce6e0, 0xa3014314, 0x4e0811a1,
   0xf7537e82, 0xbd3af235, 0x2ad7d2bb, 0xeb86d391]

/-- The per-round shift amounts of MD5. -/
def md5S : List Nat :=
  [7, 12, 17, 22, 7, 12, 17, 22, 7, 12, 17, 22, 7, 12, 17, 22,
   5, 9, 14, 20, 5, 9, 14, 20, 5, 9, 14, 20, 5, 9, 14, 20,
   4, 11, 16, 23, 4, 11, 16, 23, 4, 11, 16, 23, 4, 11, 16, 23,
   6, 10, 15, 21, 6, 10, 15, 21, 6, 10, 15, 21, 6, 10, 15, 21]

/-- The four chaining words of MD5. -/
structure Md5State where
  a : Nat
  b : Nat
  c : Nat
  d : Nat
deriving DecidableEq, Repr

/-- Round `i` of MD5 on the block `m`. -/
def md5Round (m : List Nat) (s : Md5State) (i : Nat) : Md5State :=
  let nb := s.b ^^^ 4294967295
  let nd := s.d ^^^ 4294967295
  let fg : Nat × Nat :=
    if i < 16 then ((s.b &&& s.c) ||| (nb &&& s.d), i)
    else if i < 32 then ((s.d &&& s.b) ||| (nd &&& s.c), (5 * i + 1) % 16)
    else if i < 48 then (s.b ^^^ s.c ^^^ s.d, (3 * i + 5) % 16)
    else (s.c ^^^ (s.b ||| nd), (7 * i) % 16)
  let f := (fg.1 + s.a + md5K.getD i 0 + m.getD fg.2 0) % 4294967296
  { a := s.d, d := s.c, c := s.b, b := (s.b + rotl32 f (md5S.getD i 0)) % 4294967296 }

/-- The MD5 compression of one block. -/
def md5Block (h : Md5State) (block : List Nat) : Md5State :=
  let r := (List.range 64).foldl (md5Round block) h
  { a := (h.a + r.a) % 4294967296, b := (h.b + r.b) % 4294967296,
    c := (h.c + r.c) % 4294967296, d := (h.d + r.d) % 4294967296 }

/-- The function `md5.Sum`: the sixteen bytes of the digest. -/
def md5Sum (bytes : List Nat) : List Nat :=
  let padded := bytes ++ [128] ++ List.replicate (padZeros bytes.length) 0 ++
    leBytes 8 (8 * bytes.length)
  let ws := leWords padded
  let h := (chunks16 (ws.length / 16) ws).foldl md5Block
    ⟨0x67452301, 0xefcdab89, 0x98badcfe, 0x10325476⟩
  leBytes 4 h.a ++ leBytes 4 h.b ++ leBytes 4 h.c ++ leBytes 4 h.d

/-! ## Hashing (lines 238-245) -/

/-- The function `hashString`: the MD5 digest of the input, in hexadecimal. -/
def hashString (hashInput : String) : String :=
  let hash := md5Sum (utf8Bytes hashInput)
  let depId := hexEncodeToString hash
  depId

/-- The function `ABRLabelForGAV`. -/
def ABRLabelForGAV (hashInput : String) : String :=
  hashString hashInput

/-! ## Library routines: `unicode`, `strings`

`unicode.IsLetter`, `unicode.IsDigit` and `unicode.ToLower` decide the Latin-1 (ASCII for
`ToLower`) range by explicit comparisons and consult the range tables of the Unicode
character database above it. The tables are a parameter. -/

/-- The range tables of Go's `unicode` package, consulted above Latin-1 (`Letter`,
`Digit`) and above ASCII (`LowerCase`). -/
structure UnicodeTables where
  Letter : Char → Bool
  Digit : Char → Bool
  LowerCase : Char → Char

/-- A table set without entries: no letters or digits above Latin-1, no case mapping
above ASCII. -/
def noTables : UnicodeTables := ⟨fun _ => false, fun _ => false, fun c => c⟩

/-- The letters of Latin-1 (`properties[r] & pLmask != 0`). -/
def latin1Letter (n : Nat) : Bool :=
  (65 ≤ n && n ≤ 90) || (97 ≤ n && n ≤ 122) || n == 170 || n == 181 || n == 186 ||
  (192 ≤ n && n ≤ 214) || (216 ≤ n && n ≤ 246) || (248 ≤ n && n ≤ 255)

/-- The function `unicode.IsLetter`. -/
def IsLetter (u : UnicodeTables) (r : Char) : Bool :=
  if r.toNat ≤ 255 then latin1Letter r.toNat else u.Letter r

/-- The function `unicode.IsDigit`. -/
def IsDigit (u : UnicodeTables) (r : Char) : Bool :=
  if r.toNat ≤ 255 then 48 ≤ r.toNat && r.toNat ≤ 57 else u.Digit r

/-- The function `unicode.ToLower`. -/
def ToLower (u : UnicodeTables) (r : Char) : Char :=
  if r.toNat ≤ 127 then
    if 65 ≤ r.toNat && r.toNat ≤ 90 then Char.ofNat (r.toNat + 32) else r
  else u.LowerCase r

/-- The function `strings.ToLower`, rune by rune. -/
def stringsToLower (u : UnicodeTables) (s : List Char) : List Char :=
  s.map (ToLower u)

/-- The function `strings.Index` for a one-character separator: the position of its
first occurrence, `-1` when there is none. The separator used is ASCII, so byte and
rune positions cut the string at the same place. -/
def stringsIndex (sep : Char) : List Char → Int
  | [] => -1
  | c :: rest =>
    if c = sep then 0
    else if stringsIndex sep rest < 0 then -1 else stringsIndex sep rest + 1

/-! ## Resource names (lines 332-355) -/

/-- One pass of the loop body of `CreateABRName`: the builder `newName` and the flag
`lastDot`. -/
def nameStep (u : UnicodeTables) (st : List Char × Bool) (i : Char) : List Char × Bool :=
  if IsLetter u i || IsDigit u i then
    (st.1 ++ [i], false)
  else
    (if !st.2 then st.1 ++ ['.'] else st.1, true)

/-- The function `CreateABRName`. -/
def CreateABRName (u : UnicodeTables) (gav : String) : String :=
  let hashedBytes := sha1Sum (utf8Bytes gav)
  let hash := (hexEncodeToString hashedBytes).data.take 8
  let namePart := gav.data.drop (stringsIndex ':' gav.data + 1).toNat
  let newName := (namePart.foldl (nameStep u) ([], false)).1
  let newName := newName ++ ['-']
  let newName := newName ++ hash
  ⟨stringsToLower u newName⟩

/-- The characters the loop of `CreateABRName` writes for `s` when it starts with the
flag `lastDot`. -/
def sanitizeFrom (u : UnicodeTables) (lastDot : Bool) (s : List Char) : List Char :=
  (s.foldl (nameStep u) ([], lastDot)).1

/-- The first eight hexadecimal digits of the SHA-1 digest of `gav`
(`hex.EncodeToString(hashedBytes[:])[0:8]`). -/
def hashPart (gav : String) : List Char :=
  (hexEncodeToString (sha1Sum (utf8Bytes gav))).data.take 8

/-! ### The naming rule in the words of the specification -/

/-- The substring after the first colon (empty when there is no colon). -/
def afterFirstColon : List Char → List Char
  | [] => []
  | c :: rest => if c = ':' then rest else afterFirstColon rest

/-- A letter or a digit. -/
def isAlnum (u : UnicodeTables) (c : Char) : Bool := IsLetter u c || IsDigit u c

/-- The maximal runs of a string: it is cut wherever a letter or digit meets a
character that is neither. -/
def maximalRuns (u : UnicodeTables) (s : List Char) : List (List Char) :=
  s.splitBy fun a b => isAlnum u a == isAlnum u b

/-- A run of letters and digits is kept, a run of other characters becomes one dot. -/
def replaceRun (u : UnicodeTables) (run : List Char) : List Char :=
  match run with
  | [] => []
  | c :: _ => if isAlnum u c then run else ['.']

/-- Every maximal run of characters that are neither letters nor digits is replaced by
a single dot. -/
def replaceRuns (u : UnicodeTables) (s : List Char) : List Char :=
  (maximalRuns u s).flatMap (replaceRun u)

/-- The generated name as the specification words it. -/
def generateResourceName (u : UnicodeTables) (gav : String) : String :=
  ⟨(replaceRuns u (afterFirstColon gav.data)).map (ToLower u) ++ ['-'] ++ hashPart gav⟩

/-- Two consecutive dots occur in the string. -/
def hasTwoDots : List Char → Bool
  | a :: b :: rest => (a == '.' && b == '.') || hasTwoDots (b :: rest)
  | _ => false

/-- A lower-case hexadecimal digit. -/
def isLowerHex (c : Char) : Bool :=
  (48 ≤ c.toNat && c.toNat ≤ 57) || (97 ≤ c.toNat && c.toNat ≤ 102)

/-! ### Store-name safety -/

/-- A lower-case ASCII letter or a digit. -/
def isLowerAlnum (c : Char) : Bool :=
  (97 ≤ c.toNat && c.toNat ≤ 122) || (48 ≤ c.toNat && c.toNat ≤ 57)

/-- A character a store name may hold: lower-case ASCII letter, digit, dot or dash. -/
def isNameChar (c : Char) : Bool := isLowerAlnum c || c == '.' || c == '-'

/-- The first character is a lower-case ASCII letter or a digit. -/
def beginsAlnum (s : List Char) : Bool :=
  match s.head? with
  | some c => isLowerAlnum c
  | none => false

/-- The last character is a lower-case ASCII letter or a digit. -/
def endsAlnum (s : List Char) : Bool :=
  match s.getLast? with
  | some c => isLowerAlnum c
  | none => false

/-- A store-name-safe string: only lower-case ASCII letters, digits, dots and dashes,
beginning and ending with a letter or digit. -/
def storeNameSafe (s : List Char) : Bool :=
  s.all isNameChar && beginsAlnum s && endsAlnum s

/-- The slice `namePart` of `CreateABRName`: `gav[strings.Index(gav, ":")+1:]`. -/
def namePartOf (gav : String) : List Char :=
  gav.data.drop (stringsIndex ':' gav.data + 1).toNat

/-! ## The object store

The store is the only shared state. Both clients of the reconciler (`client` and
`nonCachingClient`) read and write the same `Store`. Every client call is recorded, and
the head of `faults` decides whether the call fails with a transient error (and then
leaves the store as it is). -/

/-- A call on one of the store clients. -/
inductive Call where
  | GetArtifactBuild (ns name : String)
  | GetDependencyBuild (ns name : String)
  | ListTaskRuns (ns label value : String)
  | ListDependencyBuilds (ns label value : String)
  | StatusUpdateArtifactBuild (abr : ArtifactBuild)
  | StatusUpdateDependencyBuild (db : DependencyBuild)
  | UpdateDependencyBuild (db : DependencyBuild)
  | CreateDependencyBuild (db : DependencyBuild)
  | CreateTaskRun (tr : TaskRun)
deriving DecidableEq, Repr

/-- The call writes a `DependencyBuild` (create, update or status update). -/
def Call.isDependencyBuildWrite : Call → Bool
  | .StatusUpdateDependencyBuild _ => true
  | .UpdateDependencyBuild _ => true
  | .CreateDependencyBuild _ => true
  | _ => false

/-- The call creates a `DependencyBuild`. -/
def Call.isDependencyBuildCreate : Call → Bool
  | .CreateDependencyBuild _ => true
  | _ => false

/-- The call updates a `DependencyBuild` (object or status). -/
def Call.isDependencyBuildUpdate : Call → Bool
  | .StatusUpdateDependencyBuild _ => true
  | .UpdateDependencyBuild _ => true
  | _ => false

/-- The call reads `DependencyBuild`s (list or get). -/
def Call.isDependencyBuildLookup : Call → Bool
  | .ListDependencyBuilds _ _ _ => true
  | .GetDependencyBuild _ _ => true
  | _ => false

/-- The call writes to the store. -/
def Call.isWrite : Call → Bool
  | .StatusUpdateArtifactBuild _ => true
  | .StatusUpdateDependencyBuild _ => true
  | .UpdateDependencyBuild _ => true
  | .CreateDependencyBuild _ => true
  | .CreateTaskRun _ => true
  | _ => false

/-- The call is a status update of an `ArtifactBuild`. -/
def Call.isArtifactBuildStatusUpdate : Call → Bool
  | .StatusUpdateArtifactBuild _ => true
  | _ => false

/-- The stored objects. `clock` stamps created objects. -/
structure Store where
  ArtifactBuilds : List ArtifactBuild := []
  DependencyBuilds : List DependencyBuild := []
  TaskRuns : List TaskRun := []
  clock : Nat := 0
deriving DecidableEq, Repr

/-- An event handed to the recorder: type and reason. -/
structure Event where
  eventtype : String
  reason : String
deriving DecidableEq, Repr

/-- The world a handler runs in. -/
structure World where
  store : Store := {}
  faults : List Bool := []
  calls : List Call := []
  events : List Event := []
deriving DecidableEq, Repr

/-- Record a call and take the next scripted outcome: `true` when the call fails. -/
def World.issue (w : World) (c : Call) : Bool × World :=
  match w.faults with
  | [] => (false, { w with calls := w.calls ++ [c] })
  | f :: rest => (f, { w with calls := w.calls ++ [c], faults := rest })

/-- The method `eventRecorder.Eventf`. -/
def World.Eventf (w : World) (eventtype reason : String) : World :=
  { w with events := w.events ++ [⟨eventtype, reason⟩] }

def EventTypeNormal : String := "Normal"

def EventTypeWarning : String := "Warning"

/-- A list restricted to a namespace; the empty namespace selects all. -/
def inNamespace (ns objNs : String) : Bool := ns == "" || objNs == ns

/-- The selector `labels.SelectorFromSet` of one label. -/
def matchesLabel (labels : List (String × String)) (label value : String) : Bool :=
  labels.lookup label == some value

/-- The stored `ArtifactBuild` of a namespace and name (the read behind `client.Get`). -/
def Store.artifactBuild (s : Store) (ns name : String) : Option ArtifactBuild :=
  s.ArtifactBuilds.find? fun a => a.Namespace == ns && a.Name == name

/-- The stored `DependencyBuild` of a namespace and name (the read behind `client.Get`). -/
def Store.dependencyBuild (s : Store) (ns name : String) : Option DependencyBuild :=
  s.DependencyBuilds.find? fun d => d.Namespace == ns && d.Name == name

/-- The stored dependency builds a lookup by namespace and source identity returns. -/
def Store.lookup (s : Store) (ns depId : String) : List DependencyBuild :=
  s.DependencyBuilds.filter fun d =>
    inNamespace ns d.Namespace && matchesLabel d.Labels DependencyBuildIdLabel depId

/-- The call `client.Get` of an `ArtifactBuild`. -/
def getArtifactBuild (w : World) (ns name : String) : Except Err ArtifactBuild × World :=
  match w.issue (.GetArtifactBuild ns name) with
  | (true, w) => (.error .transient, w)
  | (false, w) =>
    match w.store.artifactBuild ns name with
    | none => (.error .notFound, w)
    | some a => (.ok a, w)

/-- The call `client.Get` of a `DependencyBuild`. -/
def getDependencyBuild (w : World) (ns name : String) : Except Err DependencyBuild × World :=
  match w.issue (.GetDependencyBuild ns name) with
  | (true, w) => (.error .transient, w)
  | (false, w) =>
    match w.store.dependencyBuild ns name with
    | none => (.error .notFound, w)
    | some d => (.ok d, w)

/-- The call `nonCachingClient.List` of task runs by namespace and label, in store
order. -/
def listTaskRuns (w : World) (ns label value : String) : Except Err (List TaskRun) × World :=
  match w.issue (.ListTaskRuns ns label value) with
  | (true, w) => (.error .transient, w)
  | (false, w) =>
    (.ok (w.store.TaskRuns.filter fun t =>
      inNamespace ns t.Namespace && matchesLabel t.Labels label value), w)

/-- The call `nonCachingClient.List` of dependency builds by namespace and label, in
store order. -/
def listDependencyBuilds (w : World) (ns label value : String) :
    Except Err (List DependencyBuild) × World :=
  match w.issue (.ListDependencyBuilds ns label value) with
  | (true, w) => (.error .transient, w)
  | (false, w) =>
    (.ok (w.store.DependencyBuilds.filter fun d =>
      inNamespace ns d.Namespace && matchesLabel d.Labels label value), w)

/-- The store has an `ArtifactBuild` of that namespace and name. -/
def Store.hasArtifactBuild (s : Store) (ns name : String) : Bool :=
  s.ArtifactBuilds.any fun a => a.Namespace == ns && a.Name == name

/-- The store has a `DependencyBuild` of that namespace and name. -/
def Store.hasDependencyBuild (s : Store) (ns name : String) : Bool :=
  s.DependencyBuilds.any fun d => d.Namespace == ns && d.Name == name

/-- The status of the stored `ArtifactBuild` of that namespace and name is replaced. -/
def Store.putArtifactBuildStatus (s : Store) (abr : ArtifactBuild) : Store :=
  { s with ArtifactBuilds := s.ArtifactBuilds.map fun a =>
      if a.Namespace == abr.Namespace && a.Name == abr.Name then
        { a with Status := abr.Status } else a }

/-- The status of the stored `DependencyBuild` of that namespace and name is replaced. -/
def Store.putDependencyBuildStatus (s : Store) (db : DependencyBuild) : Store :=
  { s with DependencyBuilds := s.DependencyBuilds.map fun d =>
      if d.Namespace == db.Namespace && d.Name == db.Name then
        { d with Status := db.Status } else d }

/-- The stored object `d` after an update with `db`: labels, owner references and spec are
taken from `db`. -/
def DependencyBuild.updatedBy (d db : DependencyBuild) : DependencyBuild :=
  { d with Labels := db.Labels, OwnerReferences := db.OwnerReferences, Spec := db.Spec }

/-- Labels, owner references and spec of the stored `DependencyBuild` of that namespace
and name are replaced; its status is kept. -/
def Store.putDependencyBuild (s : Store) (db : DependencyBuild) : Store :=
  { s with DependencyBuilds := s.DependencyBuilds.map fun d =>
      if d.Namespace == db.Namespace && d.Name == db.Name then d.updatedBy db else d }

/-- The name the store gives a created object. -/
def assignName (name generateName : String) (clock : Nat) : String :=
  if name = "" then generateName ++ Nat.repr clock else name

/-- The `DependencyBuild` as the store keeps it once created: named and stamped. -/
def Store.stamped (s : Store) (db : DependencyBuild) : DependencyBuild :=
  { db with Name := assignName db.Name db.GenerateName s.clock,
            CreationTimestamp := s.clock }

/-- The created `DependencyBuild` is appended. -/
def Store.addDependencyBuild (s : Store) (db : DependencyBuild) : Store :=
  { s with DependencyBuilds := s.DependencyBuilds ++ [s.stamped db], clock := s.clock + 1 }

/-- The created `TaskRun` is named, stamped and appended. -/
def Store.addTaskRun (s : Store) (tr : TaskRun) : Store :=
  { s with
    TaskRuns := s.TaskRuns ++
      [{ tr with Name := assignName tr.Name tr.GenerateName s.clock,
                 CreationTimestamp := s.clock }],
    clock := s.clock + 1 }

/-- The call `client.Status().Update` of an `ArtifactBuild`. -/
def statusUpdateArtifactBuild (w : World) (abr : ArtifactBuild) : Except Err Unit × World :=
  match w.issue (.StatusUpdateArtifactBuild abr) with
  | (true, w) => (.error .transient, w)
  | (false, w) =>
    if w.store.hasArtifactBuild abr.Namespace abr.Name then
      (.ok (), { w with store := w.store.putArtifactBuildStatus abr })
    else (.error .notFound, w)

/-- The call `client.Status().Update` of a `DependencyBuild`. -/
def statusUpdateDependencyBuild (w : World) (db : DependencyBuild) : Except Err Unit × World :=
  match w.issue (.StatusUpdateDependencyBuild db) with
  | (true, w) => (.error .transient, w)
  | (false, w) =>
    if w.store.hasDependencyBuild db.Namespace db.Name then
      (.ok (), { w with store := w.store.putDependencyBuildStatus db })
    else (.error .notFound, w)

/-- The call `client.Update` of a `DependencyBuild`. -/
def updateDependencyBuild (w : World) (db : DependencyBuild) : Except Err Unit × World :=
  match w.issue (.UpdateDependencyBuild db) with
  | (true, w) => (.error .transient, w)
  | (false, w) =>
    if w.store.hasDependencyBuild db.Namespace db.Name then
      (.ok (), { w with store := w.store.putDependencyBuild db })
    else (.error .notFound, w)

/-- The call `client.Create` of a `DependencyBuild`. -/
def createDependencyBuild (w : World) (db : DependencyBuild) : Except Err Unit × World :=
  match w.issue (.CreateDependencyBuild db) with
  | (true, w) => (.error .transient, w)
  | (false, w) => (.ok (), { w with store := w.store.addDependencyBuild db })

/-- The call `client.Create` of a `TaskRun`. -/
def createTaskRun (w : World) (tr : TaskRun) : Except Err Unit × World :=
  match w.issue (.CreateTaskRun tr) with
  | (true, w) => (.error .transient, w)
  | (false, w) => (.ok (), { w with store := w.store.addTaskRun tr })

/-! ## Library routines: `controllerutil.SetOwnerReference` -/

/-- The group of an API version (`schema.ParseGroupVersion`): the part before the
slash; no group without a slash; an error with more than one slash. -/
def parseGroup (gv : String) : Option (List Char) :=
  match gv.data.count '/' with
  | 0 => some []
  | 1 => some (gv.data.takeWhile fun c => c != '/')
  | _ => none

/-- The function `referSameObject`: same group, kind and name. -/
def referSameObject (a b : OwnerReference) : Bool :=
  match parseGroup a.APIVersion, parseGroup b.APIVersion with
  | some ga, some gb => ga == gb && a.Kind == b.Kind && a.Name == b.Name
  | _, _ => false

/-- The function `upsertOwnerRef`: the first reference to the same object is replaced,
otherwise the reference is appended. -/
def upsertOwnerRef (ref : OwnerReference) : List OwnerReference → List OwnerReference
  | [] => [ref]
  | r :: rest => if referSameObject r ref then ref :: rest else r :: upsertOwnerRef ref rest

/-- The function `validateOwner`. -/
def validateOwner (ownerNs objNs : String) : Except Err Unit :=
  if ownerNs ≠ "" then
    if objNs = "" then .error .invalidOwner
    else if ownerNs ≠ objNs then .error .invalidOwner
    else .ok ()
  else .ok ()

/-- The group, version and kind the scheme gives an `ArtifactBuild`. The reconciler's
scheme is the one of the client that read the object, so the lookup succeeds. -/
def artifactBuildAPIVersion : String := "jvmbuildservice.io/v1alpha1"

def artifactBuildKind : String := "ArtifactBuild"

/-- The owner reference `SetOwnerReference` builds for an `ArtifactBuild`. -/
def ownerRefOf (abr : ArtifactBuild) : OwnerReference :=
  { APIVersion := artifactBuildAPIVersion, Kind := artifactBuildKind,
    UID := abr.UID, Name := abr.Name }

/-- The function `controllerutil.SetOwnerReference` with an `ArtifactBuild` as owner:
the new owner references of the object. -/
def SetOwnerReference (abr : ArtifactBuild) (objNs : String) (owners : List OwnerReference) :
    Except Err (List OwnerReference) :=
  match validateOwner abr.Namespace objNs with
  | .error err => .error err
  | .ok _ => .ok (upsertOwnerRef (ownerRefOf abr) owners)

/-! ## Picking the most recent object

The handlers pick among listed objects with the loop

    var recent *T
    for _, db := range list.Items {
        if recent == nil || recent.CreationTimestamp.Before(&db.CreationTimestamp) {
            recent = &db
        }
    }

The source is written for Go before 1.22, where a `range` loop has one variable `db`
for all its iterations: `&db` is the address of that one variable, and every iteration
overwrites its content with the next element. -/

/-- The state of the loop: the content of the loop variable, and whether the pointer
has been set (it then holds the address of the loop variable). -/
structure RangeLoop (α : Type) where
  current : Option α := none
  assigned : Bool := false

/-- The object the pointer refers to. -/
def RangeLoop.deref {α : Type} (s : RangeLoop α) : Option α :=
  if s.assigned then s.current else none

/-- One iteration: the element is copied into the loop variable, then the pointer is
compared (through the loop variable it points at) and set. -/
def RangeLoop.step {α : Type} (ts : α → Nat) (s : RangeLoop α) (item : α) : RangeLoop α :=
  let s : RangeLoop α := { s with current := some item }
  match s.deref with
  | none => { s with assigned := true }
  | some pointee => if ts pointee < ts item then { s with assigned := true } else s

/-- The object the pointer refers to after the loop (`none` for a nil pointer). -/
def mostRecent {α : Type} (ts : α → Nat) (items : List α) : Option α :=
  (items.foldl (RangeLoop.step ts) {}).deref

/-! ## The state handlers -/

/-- The statement `abr.Status.State = state`. -/
def ArtifactBuild.setState (abr : ArtifactBuild) (state : String) : ArtifactBuild :=
  { abr with Status := { abr.Status with State := state } }

/-- The function `handleStateNew` (lines 83-103). -/
def handleStateNew (w : World) (abr : ArtifactBuild) : Except Err Result × World :=
  let tr : TaskRun :=
    { Spec := { TaskRefName := "lookup-artifact-location", TaskRefKind := "ClusterTask",
                Params := [("GAV", abr.Spec.GAV)] },
      Namespace := abr.Namespace,
      GenerateName := abr.Name ++ "-scm-discovery-",
      Labels := [(ArtifactBuildIdLabel, ABRLabelForGAV abr.Spec.GAV), (TaskRunLabel, "")] }
  match SetOwnerReference abr tr.Namespace tr.OwnerReferences with
  | .error err => (.error err, w)
  | .ok owners =>
    let tr := { tr with OwnerReferences := owners }
    let abr := abr.setState ArtifactBuildStateDiscovering
    match statusUpdateArtifactBuild w abr with
    | (.error err, w) => (.error err, w)
    | (.ok _, w) =>
      match createTaskRun w tr with
      | (.error err, w) => (.error err, w)
      | (.ok _, w) => (.ok {}, w)

/-- The body of the loop over `tr.Status.TaskRunResults` (lines 136-149). -/
def applyResult (abr : ArtifactBuild) (res : TaskRunResult) : ArtifactBuild :=
  if res.Name = TaskResultScmUrl then
    { abr with Status := { abr.Status with SCMInfo := { abr.Status.SCMInfo with SCMURL := res.Value } } }
  else if res.Name = TaskResultScmTag then
    { abr with Status := { abr.Status with SCMInfo := { abr.Status.SCMInfo with Tag := res.Value } } }
  else if res.Name = TaskResultScmType then
    { abr with Status := { abr.Status with SCMInfo := { abr.Status.SCMInfo with SCMType := res.Value } } }
  else if res.Name = TaskResultMessage then
    { abr with Status := { abr.Status with Message := res.Value } }
  else if res.Name = TaskResultContextPath then
    { abr with Status := { abr.Status with SCMInfo := { abr.Status.SCMInfo with Path := res.Value } } }
  else abr

/-- The owner attach, the same statements in `handleStateDiscovering` (lines 209-223)
and `handleStateBuilding` (lines 305-319): returns `recent` as it is afterwards. -/
def attachOwner (w : World) (abr : ArtifactBuild) (recent : DependencyBuild) :
    Except Err DependencyBuild × World :=
  let found := recent.OwnerReferences.any fun owner => owner.UID == abr.UID
  if !found then
    match SetOwnerReference abr recent.Namespace recent.OwnerReferences with
    | .error err => (.error err, w)
    | .ok owners =>
      let recent := { recent with OwnerReferences := owners }
      match updateDependencyBuild w recent with
      | (.error err, w) => (.error err, w)
      | (.ok _, w) => (.ok recent, w)
  else (.ok recent, w)

/-- The source identity of an `ArtifactBuild`:
`hashString(abr.Status.SCMInfo.SCMURL + abr.Status.SCMInfo.Tag + abr.Status.SCMInfo.Path)`. -/
def depIdOf (abr : ArtifactBuild) : String :=
  hashString (abr.Status.SCMInfo.SCMURL ++ abr.Status.SCMInfo.Tag ++ abr.Status.SCMInfo.Path)

/-- The function `handleStateDiscovering` (lines 105-236). -/
def handleStateDiscovering (w : World) (abr : ArtifactBuild) : Except Err Result × World :=
  let hash := ABRLabelForGAV abr.Spec.GAV
  match listTaskRuns w abr.Namespace ArtifactBuildIdLabel hash with
  | (.error err, w) => (.error err, w)
  | (.ok trl, w) =>
    match mostRecent TaskRun.CreationTimestamp trl with
    | none => (.ok { RequeueAfter := 60 }, w.Eventf EventTypeWarning "NoTaskRun")
    | some tr =>
      if tr.Status.CompletionTime = none then (.ok {}, w)
      else
        let abr := tr.Status.TaskRunResults.foldl applyResult abr
        if abr.Status.SCMInfo.Tag = "" then
          let w := w.Eventf EventTypeWarning "MissingTag"
          let abr := abr.setState ArtifactBuildStateMissing
          match statusUpdateArtifactBuild w abr with
          | (.error err, w) => (.error err, w)
          | (.ok _, w) => (.ok {}, w)
        else
          let depId := depIdOf abr
          match listDependencyBuilds w abr.Namespace DependencyBuildIdLabel depId with
          | (.error err, w) => (.error err, w)
          | (.ok list, w) =>
            let abr := abr.setState ArtifactBuildStateBuilding
            if list.length = 0 then
              let db : DependencyBuild :=
                { Namespace := abr.Namespace, Labels := [(DependencyBuildIdLabel, depId)],
                  GenerateName := abr.Name ++ "-" }
              match SetOwnerReference abr db.Namespace db.OwnerReferences with
              | .error err => (.error err, w)
              | .ok owners =>
                let db := { db with
                  OwnerReferences := owners,
                  Spec := { ScmInfo := { SCMURL := abr.Status.SCMInfo.SCMURL,
                                         SCMType := abr.Status.SCMInfo.SCMType,
                                         Tag := abr.Status.SCMInfo.Tag,
                                         Path := abr.Status.SCMInfo.Path } } }
                match statusUpdateArtifactBuild w abr with
                | (.error err, w) => (.error err, w)
                | (.ok _, w) =>
                  match createDependencyBuild w db with
                  | (.error err, w) => (.error err, w)
                  | (.ok _, w) => (.ok {}, w)
            else
              match mostRecent DependencyBuild.CreationTimestamp list with
              | none => (.error .nilDereference, w)
              | some recent =>
                match attachOwner w abr recent with
                | (.error err, w) => (.error err, w)
                | (.ok recent, w) =>
                  let abr :=
                    if recent.Status.State = DependencyBuildStateComplete then
                      abr.setState ArtifactBuildStateComplete
                    else if recent.Status.State = DependencyBuildContaminatedBy ∨
                        recent.Status.State = DependencyBuildStateFailed then
                      abr.setState ArtifactBuildStateFailed
                    else abr
                  match statusUpdateArtifactBuild w abr with
                  | (.error err, w) => (.error err, w)
                  | (.ok _, w) => (.ok {}, w)

/-- The function `strings.HasPrefix`. -/
def stringsHasPrefix (s pre : String) : Bool := pre.data.isPrefixOf s.data

/-- The inner loop of `handleStateComplete` (lines 259-264). -/
def newContaminates (contaminants : List String) (value : String) : List String :=
  contaminants.foldl (fun acc contaminant =>
    if contaminant ≠ value then acc ++ [contaminant] else acc) []

/-- The loop of `handleStateComplete` over the annotations still to visit. -/
def handleStateCompleteLoop (abr : ArtifactBuild) :
    World → List (String × String) → Except Err Result × World
  | w, [] => (.ok {}, w)
  | w, (key, value) :: rest =>
    if stringsHasPrefix key DependencyBuildContaminatedBy then
      match getDependencyBuild w abr.Namespace value with
      | (.error _, w) =>
        handleStateCompleteLoop abr (w.Eventf EventTypeNormal "CannotGetDependencyBuild") rest
      | (.ok db, w) =>
        if db.Status.State ≠ DependencyBuildStateContaminated then
          handleStateCompleteLoop abr w rest
        else
          let db := { db with Status := { db.Status with
            Contaminants := newContaminates db.Status.Contaminants value } }
          match statusUpdateDependencyBuild w db with
          | (.error err, w) => (.error err, w)
          | (.ok _, w) => handleStateCompleteLoop abr w rest
    else handleStateCompleteLoop abr w rest

/-- The function `handleStateComplete` (lines 247-272). -/
def handleStateComplete (w : World) (abr : ArtifactBuild) : Except Err Result × World :=
  handleStateCompleteLoop abr w abr.Annotations

/-- The function `handleStateBuilding` (lines 274-330). -/
def handleStateBuilding (w : World) (abr : ArtifactBuild) : Except Err Result × World :=
  let depId := depIdOf abr
  match listDependencyBuilds w abr.Namespace DependencyBuildIdLabel depId with
  | (.error err, w) => (.error err, w)
  | (.ok list, w) =>
    if list.length = 0 then
      let w := w.Eventf EventTypeWarning "MissingDependencyBuild"
      let abr := abr.setState ArtifactBuildStateNew
      match statusUpdateArtifactBuild w abr with
      | (.error err, w) => (.error err, w)
      | (.ok _, w) => (.ok {}, w)
    else
      match mostRecent DependencyBuild.CreationTimestamp list with
      | none => (.error .nilDereference, w)
      | some recent =>
        match attachOwner w abr recent with
        | (.error err, w) => (.error err, w)
        | (.ok recent, w) =>
          if recent.Status.State = DependencyBuildStateComplete then
            match statusUpdateArtifactBuild w (abr.setState ArtifactBuildStateComplete) with
            | (.error err, w) => (.error err, w)
            | (.ok _, w) => (.ok {}, w)
          else if recent.Status.State = DependencyBuildStateContaminated ∨
              recent.Status.State = DependencyBuildStateFailed then
            match statusUpdateArtifactBuild w (abr.setState ArtifactBuildStateFailed) with
            | (.error err, w) => (.error err, w)
            | (.ok _, w) => (.ok {}, w)
          else (.ok {}, w)

/-- The function `Reconcile` (lines 58-81). -/
def Reconcile (w : World) (ns name : String) : Except Err Result × World :=
  match getArtifactBuild w ns name with
  | (.error err, w) => if err = .notFound then (.ok {}, w) else (.error err, w)
  | (.ok abr, w) =>
    if abr.Status.State = ArtifactBuildStateNew ∨ abr.Status.State = "" then
      handleStateNew w abr
    else if abr.Status.State = ArtifactBuildStateDiscovering then
      handleStateDiscovering w abr
    else if abr.Status.State = ArtifactBuildStateComplete then
      handleStateComplete w abr
    else if abr.Status.State = ArtifactBuildStateBuilding then
      handleStateBuilding w abr
    else (.ok {}, w)

/-! ## Auxiliary definitions for the statements -/

/-- The world after a call has been recorded. -/
def World.logged (w : World) (c : Call) : World := { w with calls := w.calls ++ [c] }

/-- The results of the completed task written onto the `ArtifactBuild` (the loop of
lines 136-149). -/
def withResults (abr : ArtifactBuild) (tr : TaskRun) : ArtifactBuild :=
  tr.Status.TaskRunResults.foldl applyResult abr

/-- The task runs the discovery lookup of an `ArtifactBuild` returns. -/
def Store.discoveryTasks (s : Store) (abr : ArtifactBuild) : List TaskRun :=
  s.TaskRuns.filter fun t =>
    inNamespace abr.Namespace t.Namespace &&
      matchesLabel t.Labels ArtifactBuildIdLabel (ABRLabelForGAV abr.Spec.GAV)

/-- The calls a handler issued: those recorded after the first `n`. -/
def World.callsSince (w : World) (n : Nat) : List Call := w.calls.drop n

/-- The world after further calls were recorded and the store has become `s`. -/
def World.after (w : World) (cs : List Call) (s : Store) : World :=
  { w with calls := w.calls ++ cs, store := s }

/-- The `DependencyBuild` that `handleStateDiscovering` hands to `Create` for the
`ArtifactBuild` as it is after the task results were written onto it (lines 180-194). -/
def newDependencyBuild (abr : ArtifactBuild) : DependencyBuild :=
  { Namespace := abr.Namespace,
    Labels := [(DependencyBuildIdLabel, depIdOf abr)],
    GenerateName := abr.Name ++ "-",
    OwnerReferences := [ownerRefOf abr],
    Spec := { ScmInfo := { SCMURL := abr.Status.SCMInfo.SCMURL,
                           SCMType := abr.Status.SCMInfo.SCMType,
                           Tag := abr.Status.SCMInfo.Tag,
                           Path := abr.Status.SCMInfo.Path } } }

/-- The test of lines 209-215 and 305-311: some owner reference has the UID of the
`ArtifactBuild`. -/
def hasOwner (abr : ArtifactBuild) (recent : DependencyBuild) : Bool :=
  recent.OwnerReferences.any fun owner => owner.UID == abr.UID

/-- The build with the `ArtifactBuild` set as an owner, as `SetOwnerReference` leaves it. -/
def attached (abr : ArtifactBuild) (recent : DependencyBuild) : DependencyBuild :=
  { recent with OwnerReferences := upsertOwnerRef (ownerRefOf abr) recent.OwnerReferences }

/-- The store calls of the owner attach: one update unless the owner is there. -/
def attachCalls (abr : ArtifactBuild) (recent : DependencyBuild) : List Call :=
  if hasOwner abr recent then [] else [.UpdateDependencyBuild (attached abr recent)]

/-- The store after the owner attach. -/
def attachStore (s : Store) (abr : ArtifactBuild) (recent : DependencyBuild) : Store :=
  if hasOwner abr recent then s else s.putDependencyBuild (attached abr recent)

/-- The state `handleStateDiscovering` leaves the `ArtifactBuild` in for the state of the
existing build (line 177 and the `switch` of lines 225-230). -/
def discoveringState (buildState : String) : String :=
  if buildState = DependencyBuildStateComplete then ArtifactBuildStateComplete
  else if buildState = DependencyBuildContaminatedBy ∨
      buildState = DependencyBuildStateFailed then ArtifactBuildStateFailed
  else ArtifactBuildStateBuilding

/-- The state `handleStateBuilding` moves the `ArtifactBuild` to for the state of the
existing build, `none` when it issues no status update (the `switch` of lines 321-328). -/
def buildingState (buildState : String) : Option String :=
  if buildState = DependencyBuildStateComplete then some ArtifactBuildStateComplete
  else if buildState = DependencyBuildStateContaminated ∨
      buildState = DependencyBuildStateFailed then some ArtifactBuildStateFailed
  else none

/-- The status update `handleStateBuilding` issues for the new state, if there is one. -/
def statusCalls (abr : ArtifactBuild) : Option String → List Call
  | none => []
  | some st => [.StatusUpdateArtifactBuild (abr.setState st)]

/-- The store after that status update. -/
def Store.putStateIf (s : Store) (abr : ArtifactBuild) : Option String → Store
  | none => s
  | some st => s.putArtifactBuildStatus (abr.setState st)

/-- The two handlers that look up the `DependencyBuild` of an `ArtifactBuild`. -/
inductive Handler where
  | discovering
  | building
deriving DecidableEq, Repr

/-- The handler function. -/
def Handler.run : Handler → World → ArtifactBuild → Except Err Result × World
  | .discovering => handleStateDiscovering
  | .building => handleStateBuilding

/-- The `ArtifactBuild` as the handler holds it when it looks up the builds; `none` when
the handler returns before the lookup. `handleStateDiscovering` gets there with the task
results written onto the object, if the selected task has completed with a non-empty
tag; `handleStateBuilding` starts with the lookup. -/
def Handler.atLookup : Handler → World → ArtifactBuild → Option ArtifactBuild
  | .building, _, abr => some abr
  | .discovering, w, abr =>
    match mostRecent TaskRun.CreationTimestamp (w.store.discoveryTasks abr) with
    | none => none
    | some tr =>
      if tr.Status.CompletionTime = none then none
      else if (withResults abr tr).Status.SCMInfo.Tag = "" then none
      else some (withResults abr tr)

/-- The build the handler selects among the builds its lookup returns. -/
def Handler.selected (h : Handler) (w : World) (abr : ArtifactBuild) : Option DependencyBuild :=
  match h.atLookup w abr with
  | none => none
  | some a =>
    mostRecent DependencyBuild.CreationTimestamp (w.store.lookup a.Namespace (depIdOf a))

/-! ## Runs under failing store calls -/

/-- What a store call does to the store when it does not fail by a scripted fault. -/
def Store.apply (s : Store) : Call → Store
  | .StatusUpdateArtifactBuild abr =>
    if s.hasArtifactBuild abr.Namespace abr.Name then s.putArtifactBuildStatus abr else s
  | .StatusUpdateDependencyBuild db =>
    if s.hasDependencyBuild db.Namespace db.Name then s.putDependencyBuildStatus db else s
  | .UpdateDependencyBuild db =>
    if s.hasDependencyBuild db.Namespace db.Name then s.putDependencyBuild db else s
  | .CreateDependencyBuild db => s.addDependencyBuild db
  | .CreateTaskRun tr => s.addTaskRun tr
  | _ => s

/-- The store after a sequence of calls none of which failed by a scripted fault. -/
def Store.applyAll (s : Store) (cs : List Call) : Store := cs.foldl Store.apply s

/-- The outcome of one client call `c` issued in the world `w1`: the call is recorded;
either the script makes it fail, then the result is the transient error and the store is
kept, or it runs, then the result is not the transient error, the store is the one the
call produces and the script moves on. -/
def StepSpec {α : Type} (w1 : World) (c : Call) (out : Except Err α × World) : Prop :=
  out.2.calls = w1.calls ++ [c] ∧
  ((w1.faults.head? = some true ∧ out.1 = .error .transient ∧ out.2.store = w1.store) ∨
   (w1.faults.head? ≠ some true ∧ out.1 ≠ .error .transient ∧
     out.2.store = w1.store.apply c ∧ out.2.faults = w1.faults.tail))

/-- The world `w1` is reached from `w` by calls that all satisfy `P` and none of which
failed by a scripted fault. -/
def Reached (P : Call → Prop) (w w1 : World) : Prop :=
  ∃ cs, w1.calls = w.calls ++ cs ∧ w1.faults = w.faults.drop cs.length ∧
    w1.store = w.store.applyAll cs ∧ true ∉ w.faults.take cs.length ∧ ∀ c ∈ cs, P c

/-- The outcome `out` of a run started in `w`, its calls all satisfying `P`: either no
call failed by a scripted fault, the result is not the transient error and the store is
the one the calls produce; or the last call issued is the first to fail, the result is
the transient error and the store is the one the calls before it produced. -/
def Stopped (P : Call → Prop) (w : World) (out : Except Err Result × World) : Prop :=
  ∃ cs, out.2.calls = w.calls ++ cs ∧ (∀ c ∈ cs, P c) ∧
    ((true ∉ w.faults.take cs.length ∧ out.1 ≠ .error .transient ∧
        out.2.store = w.store.applyAll cs) ∨
     (∃ cs0 c, cs = cs0 ++ [c] ∧ true ∉ w.faults.take cs0.length ∧
        w.faults.get? cs0.length = some true ∧ out.1 = .error .transient ∧
        out.2.store = w.store.applyAll cs0))

/-- A call that is a status update of an `ArtifactBuild` sets one of the listed states;
any other call is allowed. -/
def allowsStates (states : List String) (c : Call) : Prop :=
  ∀ a, c = .StatusUpdateArtifactBuild a → a.Status.State ∈ states

/-- The three state handlers that return the error of a failed store call. -/
inductive StateHandler where
  | new
  | discovering
  | building
deriving DecidableEq, Repr

/-- The handler function. -/
def StateHandler.run : StateHandler → World → ArtifactBuild → Except Err Result × World
  | .new => handleStateNew
  | .discovering => handleStateDiscovering
  | .building => handleStateBuilding

/-- The states a handler may write to the `ArtifactBuild`. -/
def StateHandler.targets : StateHandler → List String
  | .new => [ArtifactBuildStateDiscovering]
  | .discovering => [ArtifactBuildStateMissing, ArtifactBuildStateBuilding,
      ArtifactBuildStateComplete, ArtifactBuildStateFailed]
  | .building => [ArtifactBuildStateNew, ArtifactBuildStateComplete, ArtifactBuildStateFailed]

/-- The position of a state in the order the states are passed through: new (or unset),
discovering, building, then the terminal states. -/
def stateRank (state : String) : Nat :=
  if state = ArtifactBuildStateNew ∨ state = "" then 0
  else if state = ArtifactBuildStateDiscovering then 1
  else if state = ArtifactBuildStateBuilding then 2
  else 3

/-! ## Example objects -/

/-- An `ArtifactBuild` for `org.foo:bar:1.2.3`, discovery under way. -/
def exampleAbr : ArtifactBuild :=
  { Name := "bar.1.2.3-2db6de0c", Namespace := "ns", UID := "uid-a",
    Spec := { GAV := "org.foo:bar:1.2.3" },
    Status := { State := ArtifactBuildStateDiscovering } }

/-- The completed discovery task of `exampleAbr`. -/
def exampleTask : TaskRun :=
  { Name := "bar.1.2.3-2db6de0c-scm-discovery-0", Namespace := "ns",
    Labels := [(ArtifactBuildIdLabel, ABRLabelForGAV "org.foo:bar:1.2.3"), (TaskRunLabel, "")],
    Status := { CompletionTime := some 5,
                TaskRunResults := [⟨TaskResultScmUrl, "https://example/repo"⟩,
                  ⟨TaskResultScmTag, "v1"⟩, ⟨TaskResultScmType, "git"⟩,
                  ⟨TaskResultContextPath, ""⟩, ⟨TaskResultMessage, ""⟩] } }

/-- A world with `exampleAbr`, its task and no `DependencyBuild`. -/
def exampleWorld : World :=
  { store := { ArtifactBuilds := [exampleAbr], TaskRuns := [exampleTask], clock := 1 } }

/-- Another `ArtifactBuild` that resolved to the same source. -/
def otherOwner : OwnerReference :=
  { APIVersion := artifactBuildAPIVersion, Kind := artifactBuildKind,
    Name := "baz.1.0-1234abcd", UID := "uid-b" }

/-- A complete build of `https://example/repo` at tag `v1`, owned by `otherOwner`. -/
def exampleBuild : DependencyBuild :=
  { Name := "baz.1.0-1234abcd-0", Namespace := "ns",
    Labels := [(DependencyBuildIdLabel, hashString "https://example/repov1")],
    OwnerReferences := [otherOwner],
    CreationTimestamp := 3,
    Spec := { ScmInfo := { SCMURL := "https://example/repo", SCMType := "git", Tag := "v1" } },
    Status := { State := DependencyBuildStateComplete } }

/-- A world with `exampleAbr`, its completed task and `exampleBuild`. -/
def sharedWorld : World :=
  { store := { ArtifactBuilds := [exampleAbr], TaskRuns := [exampleTask],
               DependencyBuilds := [exampleBuild], clock := 4 } }

/-- The build of `exampleBuild`'s source, contaminated. -/
def contaminatedBuild : DependencyBuild :=
  { exampleBuild with
    Status := { State := DependencyBuildStateContaminated, Contaminants := ["org.foo:baz:1.0"] } }

/-- A world with `exampleAbr`, its completed task and `contaminatedBuild`. -/
def contaminatedWorld : World :=
  { store := { ArtifactBuilds := [exampleAbr], TaskRuns := [exampleTask],
               DependencyBuilds := [contaminatedBuild], clock := 4 } }

/-- The `ArtifactBuild` of `exampleAbr` in state `Building`, its source resolved. -/
def buildingAbr : ArtifactBuild :=
  { exampleAbr with
    Status := { State := ArtifactBuildStateBuilding,
                SCMInfo := { SCMURL := "https://example/repo", SCMType := "git", Tag := "v1" } } }

/-- A world with `buildingAbr` and `contaminatedBuild`. -/
def contaminatedBuildingWorld : World :=
  { store := { ArtifactBuilds := [buildingAbr], TaskRuns := [exampleTask],
               DependencyBuilds := [contaminatedBuild], clock := 4 } }

/-- The state of the stored `ArtifactBuild` of a namespace and name. -/
def Store.stateOf (s : Store) (ns name : String) : Option String :=
  (s.artifactBuild ns name).map fun a => a.Status.State

/-- A world with `buildingAbr` and the complete `exampleBuild`. -/
def completeBuildingWorld : World :=
  { store := { ArtifactBuilds := [buildingAbr], TaskRuns := [exampleTask],
               DependencyBuilds := [exampleBuild], clock := 4 } }

/-- A later build of the same source, complete. -/
def laterBuild : DependencyBuild :=
  { exampleBuild with Name := "later", CreationTimestamp := 9, OwnerReferences := [],
                      Status := { State := DependencyBuildStateComplete } }

/-- An earlier build of the same source, failed. -/
def earlierBuild : DependencyBuild :=
  { exampleBuild with Name := "earlier", CreationTimestamp := 3, OwnerReferences := [],
                      Status := { State := DependencyBuildStateFailed } }

/-- Two builds share the source of `buildingAbr`; the store lists the later one first. -/
def raceWorld : World :=
  { store := { ArtifactBuilds := [buildingAbr], TaskRuns := [exampleTask],
               DependencyBuilds := [laterBuild, earlierBuild], clock := 10 } }

/-- The same two builds, with `exampleAbr` still discovering. -/
def raceDiscoveringWorld : World :=
  { store := { ArtifactBuilds := [exampleAbr], TaskRuns := [exampleTask],
               DependencyBuilds := [laterBuild, earlierBuild], clock := 10 } }

/-- A complete `ArtifactBuild` named `a` holding a contamination annotation that names the
build `db1`. -/
def completeAbr : ArtifactBuild :=
  { Name := "a", Namespace := "ns", UID := "uid-a",
    Annotations := [(DependencyBuildContaminatedBy ++ "0123", "db1")],
    Spec := { GAV := "org.foo:a:1.0" },
    Status := { State := ArtifactBuildStateComplete } }

/-- The contaminated build `db1` with the contaminants `a` and `b`. -/
def db1 : DependencyBuild :=
  { Name := "db1", Namespace := "ns", CreationTimestamp := 2,
    Status := { State := DependencyBuildStateContaminated, Contaminants := ["a", "b"] } }

/-- A world with `completeAbr` and `db1`. -/
def cleanupWorld : World :=
  { store := { ArtifactBuilds := [completeAbr], DependencyBuilds := [db1], clock := 3 } }

/-- The build `db1` with its own name among the contaminants. -/
def db1Self : DependencyBuild :=
  { db1 with Status := { db1.Status with Contaminants := ["a", "db1", "b"] } }

/-- A world with `completeAbr` and `db1Self`. -/
def cleanupSelfWorld : World :=
  { store := { ArtifactBuilds := [completeAbr], DependencyBuilds := [db1Self], clock := 3 } }

/-- The contaminants of the stored build of a namespace and name. -/
def Store.contaminantsOf (s : Store) (ns name : String) : Option (List String) :=
  (s.dependencyBuild ns name).map fun d => d.Status.Contaminants

/-- The complete build `db2`, never contaminated. -/
def db2 : DependencyBuild :=
  { Name := "db2", Namespace := "ns", CreationTimestamp := 2,
    Status := { State := DependencyBuildStateComplete } }

/-- A complete `ArtifactBuild` with an unrelated annotation, an annotation naming a build
that is not stored and an annotation naming the complete build `db2`. -/
def quietAbr : ArtifactBuild :=
  { Name := "a", Namespace := "ns", UID := "uid-a",
    Annotations := [("example.io/note", "db1"),
                    (DependencyBuildContaminatedBy ++ "0123", "gone"),
                    (DependencyBuildContaminatedBy ++ "4567", "db2")],
    Spec := { GAV := "org.foo:a:1.0" },
    Status := { State := ArtifactBuildStateComplete } }

/-- A world with `quietAbr`, the contaminated `db1` and the complete `db2`. -/
def quietWorld : World :=
  { store := { ArtifactBuilds := [quietAbr], DependencyBuilds := [db1, db2], clock := 3 } }

/-- The discovery task of `exampleAbr` completed without finding a tag. -/
def untaggedTask : TaskRun :=
  { exampleTask with
    Status := { CompletionTime := some 5,
                TaskRunResults := [⟨TaskResultScmUrl, "https://example/repo"⟩,
                  ⟨TaskResultScmTag, ""⟩, ⟨TaskResultMessage, "no tag found"⟩] } }

/-- A world with `exampleAbr`, `untaggedTask` and the build `exampleBuild`. -/
def untaggedWorld : World :=
  { store := { ArtifactBuilds := [exampleAbr], TaskRuns := [untaggedTask],
               DependencyBuilds := [exampleBuild], clock := 4 } }

/-- A world with `buildingAbr` and no build at all. -/
def orphanWorld : World :=
  { store := { ArtifactBuilds := [buildingAbr], TaskRuns := [exampleTask], clock := 4 } }

/-- The `ArtifactBuild` for `org.foo:bar:1.2.3`, just created. -/
def newAbr : ArtifactBuild :=
  { exampleAbr with Status := { State := ArtifactBuildStateNew } }

/-- A world with `newAbr` in which the second store call fails. -/
def failingCreateWorld : World :=
  { store := { ArtifactBuilds := [newAbr] }, faults := [false, true] }

/-- The world `sharedWorld` in which the fourth store call fails. -/
def failingStatusWorld : World :=
  { sharedWorld with faults := [false, false, false, true] }

/-- The world `cleanupWorld` in which the first store call fails. -/
def failingGetWorld : World :=
  { cleanupWorld with faults := [true] }

/-- The owner references of the stored build of a namespace and name. -/
def Store.ownersOf (s : Store) (ns name : String) : Option (List OwnerReference) :=
  (s.dependencyBuild ns name).map fun d => d.OwnerReferences

/-! ## Lemmas on the model -/

theorem step_deref {α : Type} (ts : α → Nat) (s : RangeLoop α) (x : α) :
    (RangeLoop.step ts s x).deref = some x := by
  unfold RangeLoop.step
  by_cases h : s.assigned <;> simp [RangeLoop.deref, h]

/-- The loop leaves the pointer on the loop variable, whose content is the last element
of the list. -/
theorem mostRecent_eq_getLast? {α : Type} (ts : α → Nat) (items : List α) :
    mostRecent ts items = items.getLast? := by
  unfold mostRecent
  induction items using List.reverseRecOn with
  | nil => simp [RangeLoop.deref]
  | append_singleton l a _ => simp [List.foldl_append, step_deref]

theorem issue_of_no_faults (w : World) (c : Call) (h : w.faults = []) :
    w.issue c = (false, w.logged c) := by
  simp [World.issue, h, World.logged]

@[simp] theorem logged_faults (w : World) (c : Call) : (w.logged c).faults = w.faults := rfl

@[simp] theorem logged_store (w : World) (c : Call) : (w.logged c).store = w.store := rfl

@[simp] theorem logged_calls (w : World) (c : Call) : (w.logged c).calls = w.calls ++ [c] := rfl

@[simp] theorem logged_events (w : World) (c : Call) : (w.logged c).events = w.events := rfl

@[simp] theorem eventf_faults (w : World) (a b : String) : (w.Eventf a b).faults = w.faults := rfl

@[simp] theorem eventf_store (w : World) (a b : String) : (w.Eventf a b).store = w.store := rfl

@[simp] theorem eventf_calls (w : World) (a b : String) : (w.Eventf a b).calls = w.calls := rfl

theorem listTaskRuns_of_no_faults (w : World) (abr : ArtifactBuild) (h : w.faults = []) :
    listTaskRuns w abr.Namespace ArtifactBuildIdLabel (ABRLabelForGAV abr.Spec.GAV) =
      (.ok (w.store.discoveryTasks abr),
       w.logged (.ListTaskRuns abr.Namespace ArtifactBuildIdLabel (ABRLabelForGAV abr.Spec.GAV))) := by
  simp [listTaskRuns, issue_of_no_faults w _ h, Store.discoveryTasks]

theorem listDependencyBuilds_of_no_faults (w : World) (ns value : String) (h : w.faults = []) :
    listDependencyBuilds w ns DependencyBuildIdLabel value =
      (.ok (w.store.lookup ns value),
       w.logged (.ListDependencyBuilds ns DependencyBuildIdLabel value)) := by
  simp [listDependencyBuilds, issue_of_no_faults w _ h, Store.lookup]

theorem statusUpdateArtifactBuild_of_no_faults (w : World) (abr : ArtifactBuild)
    (h : w.faults = []) (hs : w.store.hasArtifactBuild abr.Namespace abr.Name = true) :
    statusUpdateArtifactBuild w abr =
      (.ok (), { w.logged (.StatusUpdateArtifactBuild abr) with
                 store := w.store.putArtifactBuildStatus abr }) := by
  simp [statusUpdateArtifactBuild, issue_of_no_faults w _ h, hs]

theorem createDependencyBuild_of_no_faults (w : World) (db : DependencyBuild)
    (h : w.faults = []) :
    createDependencyBuild w db =
      (.ok (), { w.logged (.CreateDependencyBuild db) with
                 store := w.store.addDependencyBuild db }) := by
  simp [createDependencyBuild, issue_of_no_faults w _ h]

theorem updateDependencyBuild_of_no_faults (w : World) (db : DependencyBuild)
    (h : w.faults = []) (hs : w.store.hasDependencyBuild db.Namespace db.Name = true) :
    updateDependencyBuild w db =
      (.ok (), { w.logged (.UpdateDependencyBuild db) with
                 store := w.store.putDependencyBuild db }) := by
  simp [updateDependencyBuild, issue_of_no_faults w _ h, hs]

theorem hasArtifactBuild_of_stored (s : Store) (ns name : String) (a : ArtifactBuild)
    (h : s.artifactBuild ns name = some a) : s.hasArtifactBuild ns name = true := by
  unfold Store.artifactBuild at h
  unfold Store.hasArtifactBuild
  rw [List.any_eq_true]
  exact ⟨a, List.mem_of_find?_eq_some h, by simpa using List.find?_some h⟩

/-- Reading back after a status update: the stored object with the new status. -/
theorem artifactBuild_putArtifactBuildStatus (s : Store) (abr a : ArtifactBuild)
    (ns name : String) (hns : abr.Namespace = ns) (hn : abr.Name = name)
    (h : s.artifactBuild ns name = some a) :
    (s.putArtifactBuildStatus abr).artifactBuild ns name =
      some { a with Status := abr.Status } := by
  subst hns hn
  unfold Store.artifactBuild at h ⊢
  unfold Store.putArtifactBuildStatus
  simp only
  generalize s.ArtifactBuilds = l at h
  induction l with
  | nil => simp at h
  | cons x xs ih =>
    by_cases hx : (x.Namespace == abr.Namespace && x.Name == abr.Name) = true
    · simp [List.find?, hx] at h
      subst h
      simp [List.find?, hx]
    · simp [List.find?, hx] at h
      simp [List.find?, hx]
      simpa using ih h

theorem applyResult_meta (abr : ArtifactBuild) (res : TaskRunResult) :
    (applyResult abr res).Name = abr.Name ∧ (applyResult abr res).Namespace = abr.Namespace ∧
    (applyResult abr res).UID = abr.UID ∧ (applyResult abr res).Spec = abr.Spec ∧
    (applyResult abr res).Annotations = abr.Annotations := by
  unfold applyResult
  split_ifs <;> simp

theorem withResults_meta (abr : ArtifactBuild) (tr : TaskRun) :
    (withResults abr tr).Name = abr.Name ∧ (withResults abr tr).Namespace = abr.Namespace ∧
    (withResults abr tr).UID = abr.UID ∧ (withResults abr tr).Spec = abr.Spec ∧
    (withResults abr tr).Annotations = abr.Annotations := by
  unfold withResults
  generalize tr.Status.TaskRunResults = rs
  induction rs generalizing abr with
  | nil => simp
  | cons r rs ih =>
    have h1 := applyResult_meta abr r
    have h2 := ih (applyResult abr r)
    simp only [List.foldl_cons]
    refine ⟨h2.1.trans h1.1, h2.2.1.trans h1.2.1, h2.2.2.1.trans h1.2.2.1,
      h2.2.2.2.1.trans h1.2.2.2.1, h2.2.2.2.2.trans h1.2.2.2.2⟩

theorem validateOwner_same (ns : String) : validateOwner ns ns = .ok () := by
  unfold validateOwner
  by_cases h : ns = "" <;> simp [h]

@[simp] theorem after_store (w : World) (cs : List Call) (s : Store) : (w.after cs s).store = s := rfl

@[simp] theorem after_calls (w : World) (cs : List Call) (s : Store) :
    (w.after cs s).calls = w.calls ++ cs := rfl

@[simp] theorem after_faults (w : World) (cs : List Call) (s : Store) :
    (w.after cs s).faults = w.faults := rfl

@[simp] theorem after_events (w : World) (cs : List Call) (s : Store) :
    (w.after cs s).events = w.events := rfl

theorem callsSince_after (w : World) (cs : List Call) (s : Store) :
    (w.after cs s).callsSince w.calls.length = cs := by
  simp [World.callsSince]

/-- The run of `handleStateDiscovering` when the lookup finds no build. -/
theorem handleStateDiscovering_create
    (w : World) (abr : ArtifactBuild) (tr : TaskRun)
    (hfaults : w.faults = [])
    (hstored : w.store.artifactBuild abr.Namespace abr.Name = some abr)
    (htask : mostRecent TaskRun.CreationTimestamp (w.store.discoveryTasks abr) = some tr)
    (hdone : tr.Status.CompletionTime ≠ none)
    (htag : (withResults abr tr).Status.SCMInfo.Tag ≠ "")
    (hnone : w.store.lookup abr.Namespace (depIdOf (withResults abr tr)) = []) :
    handleStateDiscovering w abr =
      (.ok {}, w.after
        [.ListTaskRuns abr.Namespace ArtifactBuildIdLabel (ABRLabelForGAV abr.Spec.GAV),
         .ListDependencyBuilds abr.Namespace DependencyBuildIdLabel (depIdOf (withResults abr tr)),
         .StatusUpdateArtifactBuild ((withResults abr tr).setState ArtifactBuildStateBuilding),
         .CreateDependencyBuild
           (newDependencyBuild ((withResults abr tr).setState ArtifactBuildStateBuilding))]
        ((w.store.putArtifactBuildStatus
            ((withResults abr tr).setState ArtifactBuildStateBuilding)).addDependencyBuild
          (newDependencyBuild ((withResults abr tr).setState ArtifactBuildStateBuilding)))) := by
  obtain ⟨hn, hns, hu, hsp, ha⟩ := withResults_meta abr tr
  have hhas : w.store.hasArtifactBuild abr.Namespace abr.Name = true :=
    hasArtifactBuild_of_stored _ _ _ _ hstored
  generalize hx : withResults abr tr = abr' at *
  have hres : List.foldl applyResult abr tr.Status.TaskRunResults = abr' := hx
  simp only [handleStateDiscovering, listTaskRuns_of_no_faults w abr hfaults, htask, if_neg hdone,
    hres, if_neg htag, hns, hn, hu, listDependencyBuilds_of_no_faults, logged_faults, hfaults,
    logged_store, hnone, List.length_nil, if_true,
    SetOwnerReference, ArtifactBuild.setState, validateOwner_same, upsertOwnerRef,
    statusUpdateArtifactBuild_of_no_faults, hhas, createDependencyBuild_of_no_faults]
  simp [World.after, World.logged, newDependencyBuild, hns, hn, depIdOf, ownerRefOf, hu, hfaults]

/-- C1: an `ArtifactBuild` whose selected discovery task has completed with a non-empty
tag, whose lookup finds no `DependencyBuild`, with every store call succeeding: the handler
issues exactly one `DependencyBuild` write, a create; the created object is in the
`ArtifactBuild`'s namespace, carries the label `dependencybuild-id` with
`hashString(SCMURL + Tag + Path)`, is owned by the `ArtifactBuild`, copies its `SCMInfo`;
the stored `ArtifactBuild` ends in state `Building`. -/
theorem discovering_creates_one_dependency_build
    (w : World) (abr : ArtifactBuild) (tr : TaskRun)
    (hfaults : w.faults = [])
    (hstored : w.store.artifactBuild abr.Namespace abr.Name = some abr)
    (htask : mostRecent TaskRun.CreationTimestamp (w.store.discoveryTasks abr) = some tr)
    (hdone : tr.Status.CompletionTime ≠ none)
    (htag : (withResults abr tr).Status.SCMInfo.Tag ≠ "")
    (hnone : w.store.lookup abr.Namespace (depIdOf (withResults abr tr)) = []) :
    ∃ (db : DependencyBuild) (stored : ArtifactBuild),
      (handleStateDiscovering w abr).1 = .ok {} ∧
      ((handleStateDiscovering w abr).2.callsSince w.calls.length).filter
          Call.isDependencyBuildWrite = [.CreateDependencyBuild db] ∧
      (handleStateDiscovering w abr).2.store.DependencyBuilds =
          w.store.DependencyBuilds ++ [w.store.stamped db] ∧
      (handleStateDiscovering w abr).2.store.artifactBuild abr.Namespace abr.Name =
          some stored ∧
      stored.Status.State = ArtifactBuildStateBuilding ∧
      stored.Status.SCMInfo = (withResults abr tr).Status.SCMInfo ∧
      db.Namespace = abr.Namespace ∧
      db.Labels = [(DependencyBuildIdLabel,
        hashString (stored.Status.SCMInfo.SCMURL ++ stored.Status.SCMInfo.Tag ++
          stored.Status.SCMInfo.Path))] ∧
      db.OwnerReferences = [ownerRefOf abr] ∧
      (ownerRefOf abr).UID = abr.UID ∧ (ownerRefOf abr).Name = abr.Name ∧
      db.Spec.ScmInfo = stored.Status.SCMInfo := by
  obtain ⟨hn, hns, hu, _, _⟩ := withResults_meta abr tr
  rw [handleStateDiscovering_create w abr tr hfaults hstored htask hdone htag hnone]
  have hput := artifactBuild_putArtifactBuildStatus w.store
    ((withResults abr tr).setState ArtifactBuildStateBuilding) abr abr.Namespace abr.Name
    hns hn hstored
  refine ⟨newDependencyBuild ((withResults abr tr).setState ArtifactBuildStateBuilding),
    { abr with Status := { (withResults abr tr).Status with State := ArtifactBuildStateBuilding } },
    rfl, ?_, rfl, ?_, rfl, rfl, ?_, ?_, ?_, rfl, rfl, rfl⟩
  · rw [callsSince_after]; rfl
  · exact hput
  · simp [newDependencyBuild, ArtifactBuild.setState, hns]
  · simp [newDependencyBuild, ArtifactBuild.setState, depIdOf]
  · simp [newDependencyBuild, ArtifactBuild.setState, ownerRefOf, hn, hu]
theorem discovering_creates_one_dependency_build_witness :
    ∃ (db : DependencyBuild) (stored : ArtifactBuild),
      (handleStateDiscovering exampleWorld exampleAbr).1 = .ok {} ∧
      ((handleStateDiscovering exampleWorld exampleAbr).2.callsSince
          exampleWorld.calls.length).filter
          Call.isDependencyBuildWrite = [.CreateDependencyBuild db] ∧
      (handleStateDiscovering exampleWorld exampleAbr).2.store.DependencyBuilds =
          exampleWorld.store.DependencyBuilds ++ [exampleWorld.store.stamped db] ∧
      (handleStateDiscovering exampleWorld exampleAbr).2.store.artifactBuild
          exampleAbr.Namespace exampleAbr.Name = some stored ∧
      stored.Status.State = ArtifactBuildStateBuilding ∧
      stored.Status.SCMInfo = (withResults exampleAbr exampleTask).Status.SCMInfo ∧
      db.Namespace = exampleAbr.Namespace ∧
      db.Labels = [(DependencyBuildIdLabel,
        hashString (stored.Status.SCMInfo.SCMURL ++ stored.Status.SCMInfo.Tag ++
          stored.Status.SCMInfo.Path))] ∧
      db.OwnerReferences = [ownerRefOf exampleAbr] ∧
      (ownerRefOf exampleAbr).UID = exampleAbr.UID ∧
      (ownerRefOf exampleAbr).Name = exampleAbr.Name ∧
      db.Spec.ScmInfo = stored.Status.SCMInfo :=
  discovering_creates_one_dependency_build exampleWorld exampleAbr exampleTask
    (by decide) (by decide) (by decide!) (by decide) (by decide) (by decide)

theorem setState_setState (abr : ArtifactBuild) (s t : String) :
    (abr.setState s).setState t = abr.setState t := rfl

theorem hasDependencyBuild_of_mem (s : Store) (d : DependencyBuild)
    (h : d ∈ s.DependencyBuilds) : s.hasDependencyBuild d.Namespace d.Name = true := by
  unfold Store.hasDependencyBuild
  rw [List.any_eq_true]
  exact ⟨d, h, by simp⟩

theorem mem_of_mostRecent {α : Type} (ts : α → Nat) (items : List α) (x : α)
    (h : mostRecent ts items = some x) : x ∈ items := by
  rw [mostRecent_eq_getLast?] at h
  exact List.mem_of_getLast?_eq_some h

theorem validateOwner_of_inNamespace (ns objNs : String) (h : inNamespace ns objNs = true) :
    validateOwner ns objNs = .ok () := by
  unfold validateOwner
  unfold inNamespace at h
  by_cases h1 : ns = ""
  · simp [h1]
  · simp [h1] at h
    simp [h1, h]

/-- The owner attach on a build the lookup returned, no store call failing. -/
theorem attachOwner_of_no_faults (w : World) (abr : ArtifactBuild) (recent : DependencyBuild)
    (hfaults : w.faults = []) (hmem : recent ∈ w.store.DependencyBuilds)
    (hns : inNamespace abr.Namespace recent.Namespace = true) :
    attachOwner w abr recent =
      (.ok (if hasOwner abr recent then recent else attached abr recent),
       w.after (attachCalls abr recent) (attachStore w.store abr recent)) := by
  unfold attachOwner attachCalls attachStore
  by_cases hf : hasOwner abr recent = true
  · have hf' : (recent.OwnerReferences.any fun owner => owner.UID == abr.UID) = true := hf
    simp [hf, hf', World.after]
  · have hf' : (recent.OwnerReferences.any fun owner => owner.UID == abr.UID) = false := by
      simpa [hasOwner] using hf
    have hhas := hasDependencyBuild_of_mem w.store recent hmem
    simp only [hf', Bool.not_false, if_true, SetOwnerReference,
      validateOwner_of_inNamespace _ _ hns]
    rw [updateDependencyBuild_of_no_faults _ _ hfaults (by simpa using hhas)]
    simp [hf, World.after, World.logged, attached]

@[simp] theorem attachStore_ArtifactBuilds (s : Store) (abr : ArtifactBuild)
    (recent : DependencyBuild) : (attachStore s abr recent).ArtifactBuilds = s.ArtifactBuilds := by
  unfold attachStore Store.putDependencyBuild
  split_ifs <;> rfl

@[simp] theorem attachStore_TaskRuns (s : Store) (abr : ArtifactBuild)
    (recent : DependencyBuild) : (attachStore s abr recent).TaskRuns = s.TaskRuns := by
  unfold attachStore Store.putDependencyBuild
  split_ifs <;> rfl

theorem attachStore_hasArtifactBuild (s : Store) (abr : ArtifactBuild)
    (recent : DependencyBuild) (ns name : String) :
    (attachStore s abr recent).hasArtifactBuild ns name = s.hasArtifactBuild ns name := by
  simp [Store.hasArtifactBuild]

theorem attachStore_artifactBuild (s : Store) (abr : ArtifactBuild)
    (recent : DependencyBuild) (ns name : String) :
    (attachStore s abr recent).artifactBuild ns name = s.artifactBuild ns name := by
  simp [Store.artifactBuild]

theorem attached_state (abr : ArtifactBuild) (recent : DependencyBuild) :
    (if hasOwner abr recent then recent else attached abr recent).Status = recent.Status := by
  split_ifs <;> rfl

theorem lookup_mem (s : Store) (ns depId : String) (d : DependencyBuild)
    (h : d ∈ s.lookup ns depId) :
    d ∈ s.DependencyBuilds ∧ inNamespace ns d.Namespace = true ∧
      matchesLabel d.Labels DependencyBuildIdLabel depId = true := by
  unfold Store.lookup at h
  rw [List.mem_filter] at h
  simpa using h

/-- The run of `handleStateBuilding` when the lookup finds a build. -/
theorem handleStateBuilding_existing (w : World) (abr : ArtifactBuild)
    (recent : DependencyBuild)
    (hfaults : w.faults = [])
    (hstored : w.store.artifactBuild abr.Namespace abr.Name = some abr)
    (hsel : mostRecent DependencyBuild.CreationTimestamp
      (w.store.lookup abr.Namespace (depIdOf abr)) = some recent) :
    handleStateBuilding w abr =
      (.ok {}, w.after
        ([.ListDependencyBuilds abr.Namespace DependencyBuildIdLabel (depIdOf abr)] ++
          attachCalls abr recent ++ statusCalls abr (buildingState recent.Status.State))
        ((attachStore w.store abr recent).putStateIf abr
          (buildingState recent.Status.State))) := by
  have hmem := mem_of_mostRecent _ _ _ hsel
  obtain ⟨hmem1, hns, _⟩ := lookup_mem _ _ _ _ hmem
  have hlen : (w.store.lookup abr.Namespace (depIdOf abr)).length ≠ 0 := by
    intro h0
    rw [List.length_eq_zero] at h0
    rw [h0] at hmem
    simp at hmem
  have hhas : w.store.hasArtifactBuild abr.Namespace abr.Name = true :=
    hasArtifactBuild_of_stored _ _ _ _ hstored
  have hatt := attachOwner_of_no_faults
    (w.logged (.ListDependencyBuilds abr.Namespace DependencyBuildIdLabel (depIdOf abr)))
    abr recent (by simpa using hfaults) (by simpa using hmem1) hns
  simp only [handleStateBuilding, listDependencyBuilds_of_no_faults _ _ _ hfaults, if_neg hlen,
    logged_store, hsel, hatt, attached_state]
  unfold buildingState statusCalls Store.putStateIf
  by_cases h1 : recent.Status.State = DependencyBuildStateComplete
  · simp only [h1, if_true]
    rw [statusUpdateArtifactBuild_of_no_faults _ _ (by simpa using hfaults)
      (by simpa [ArtifactBuild.setState, attachStore_hasArtifactBuild] using hhas)]
    simp [World.after, World.logged]
  · by_cases h2 : recent.Status.State = DependencyBuildStateContaminated ∨
        recent.Status.State = DependencyBuildStateFailed
    · simp only [h1, h2, if_true, if_false]
      rw [statusUpdateArtifactBuild_of_no_faults _ _ (by simpa using hfaults)
        (by simpa [ArtifactBuild.setState, attachStore_hasArtifactBuild] using hhas)]
      simp [World.after, World.logged]
    · simp only [h1, h2, if_false]
      simp [World.after, World.logged]

theorem hasOwner_congr (a abr : ArtifactBuild) (recent : DependencyBuild)
    (hu : a.UID = abr.UID) : hasOwner a recent = hasOwner abr recent := by
  simp [hasOwner, hu]

theorem attached_congr (a abr : ArtifactBuild) (recent : DependencyBuild)
    (hu : a.UID = abr.UID) (hn : a.Name = abr.Name) : attached a recent = attached abr recent := by
  simp [attached, ownerRefOf, hu, hn]

theorem attachCalls_congr (a abr : ArtifactBuild) (recent : DependencyBuild)
    (hu : a.UID = abr.UID) (hn : a.Name = abr.Name) :
    attachCalls a recent = attachCalls abr recent := by
  simp [attachCalls, hasOwner_congr a abr recent hu, attached_congr a abr recent hu hn]

theorem attachStore_congr (s : Store) (a abr : ArtifactBuild) (recent : DependencyBuild)
    (hu : a.UID = abr.UID) (hn : a.Name = abr.Name) :
    attachStore s a recent = attachStore s abr recent := by
  simp [attachStore, hasOwner_congr a abr recent hu, attached_congr a abr recent hu hn]

/-- The run of `handleStateDiscovering` when the lookup finds a build. -/
theorem handleStateDiscovering_existing (w : World) (abr : ArtifactBuild) (tr : TaskRun)
    (recent : DependencyBuild)
    (hfaults : w.faults = [])
    (hstored : w.store.artifactBuild abr.Namespace abr.Name = some abr)
    (htask : mostRecent TaskRun.CreationTimestamp (w.store.discoveryTasks abr) = some tr)
    (hdone : tr.Status.CompletionTime ≠ none)
    (htag : (withResults abr tr).Status.SCMInfo.Tag ≠ "")
    (hsel : mostRecent DependencyBuild.CreationTimestamp
      (w.store.lookup abr.Namespace (depIdOf (withResults abr tr))) = some recent) :
    handleStateDiscovering w abr =
      (.ok {}, w.after
        ([.ListTaskRuns abr.Namespace ArtifactBuildIdLabel (ABRLabelForGAV abr.Spec.GAV),
          .ListDependencyBuilds abr.Namespace DependencyBuildIdLabel
            (depIdOf (withResults abr tr))] ++
          attachCalls abr recent ++
          [.StatusUpdateArtifactBuild
            ((withResults abr tr).setState (discoveringState recent.Status.State))])
        ((attachStore w.store abr recent).putArtifactBuildStatus
          ((withResults abr tr).setState (discoveringState recent.Status.State)))) := by
  obtain ⟨hn, hns, hu, hsp, ha⟩ := withResults_meta abr tr
  have hmem := mem_of_mostRecent _ _ _ hsel
  obtain ⟨hmem1, hins, _⟩ := lookup_mem _ _ _ _ hmem
  have hlen : (w.store.lookup abr.Namespace (depIdOf (withResults abr tr))).length ≠ 0 := by
    intro h0
    rw [List.length_eq_zero] at h0
    rw [h0] at hmem
    simp at hmem
  have hhas : w.store.hasArtifactBuild abr.Namespace abr.Name = true :=
    hasArtifactBuild_of_stored _ _ _ _ hstored
  generalize hx : withResults abr tr = abr' at *
  have hres : List.foldl applyResult abr tr.Status.TaskRunResults = abr' := hx
  have hatt := attachOwner_of_no_faults
    ((w.logged (.ListTaskRuns abr.Namespace ArtifactBuildIdLabel
      (ABRLabelForGAV abr.Spec.GAV))).logged
      (.ListDependencyBuilds abr.Namespace DependencyBuildIdLabel (depIdOf abr')))
    (abr'.setState ArtifactBuildStateBuilding) recent (by simpa using hfaults)
    (by simpa using hmem1) (by simpa [ArtifactBuild.setState, hns] using hins)
  rw [attachCalls_congr (abr'.setState ArtifactBuildStateBuilding) abr recent hu hn,
    attachStore_congr _ (abr'.setState ArtifactBuildStateBuilding) abr recent hu hn,
    hasOwner_congr (abr'.setState ArtifactBuildStateBuilding) abr recent hu,
    attached_congr (abr'.setState ArtifactBuildStateBuilding) abr recent hu hn] at hatt
  simp only [handleStateDiscovering, listTaskRuns_of_no_faults w abr hfaults, htask, if_neg hdone,
    hres, if_neg htag, hns, listDependencyBuilds_of_no_faults, logged_faults, hfaults,
    logged_store, if_neg hlen, hsel, hatt, attached_state]
  have hfin : (if recent.Status.State = DependencyBuildStateComplete then
        (abr'.setState ArtifactBuildStateBuilding).setState ArtifactBuildStateComplete
      else if recent.Status.State = DependencyBuildContaminatedBy ∨
          recent.Status.State = DependencyBuildStateFailed then
        (abr'.setState ArtifactBuildStateBuilding).setState ArtifactBuildStateFailed
      else abr'.setState ArtifactBuildStateBuilding) =
      abr'.setState (discoveringState recent.Status.State) := by
    unfold discoveringState
    split_ifs <;> rfl
  rw [hfin]
  rw [statusUpdateArtifactBuild_of_no_faults _ _ (by simpa using hfaults)
    (by simpa [ArtifactBuild.setState, attachStore_hasArtifactBuild, hn, hns] using hhas)]
  simp [World.after, World.logged]

theorem mem_upsertOwnerRef (ref : OwnerReference) (owners : List OwnerReference) :
    ref ∈ upsertOwnerRef ref owners := by
  induction owners with
  | nil => simp [upsertOwnerRef]
  | cons r rest ih =>
    unfold upsertOwnerRef
    split_ifs
    · simp
    · simp [ih]

theorem hasOwner_attached (abr : ArtifactBuild) (recent : DependencyBuild) :
    hasOwner abr (attached abr recent) = true := by
  unfold hasOwner attached
  rw [List.any_eq_true]
  exact ⟨ownerRefOf abr, mem_upsertOwnerRef _ _, by simp [ownerRefOf]⟩

/-- After the update of the selected build, the lookup selects a build that has the
owner. -/
theorem selected_after_put (l : List DependencyBuild) (ns depId : String)
    (abr : ArtifactBuild) (recent : DependencyBuild)
    (hsel : (l.filter fun d =>
      inNamespace ns d.Namespace && matchesLabel d.Labels DependencyBuildIdLabel depId).getLast?
        = some recent) :
    ∃ r1, ((l.map fun d =>
        if d.Namespace == (attached abr recent).Namespace && d.Name == (attached abr recent).Name
        then d.updatedBy (attached abr recent) else d).filter fun d =>
      inNamespace ns d.Namespace && matchesLabel d.Labels DependencyBuildIdLabel depId).getLast?
        = some r1 ∧ hasOwner abr r1 = true := by
  have hrec : inNamespace ns recent.Namespace = true ∧
      matchesLabel recent.Labels DependencyBuildIdLabel depId = true := by
    have := List.mem_of_getLast?_eq_some hsel
    rw [List.mem_filter] at this
    simpa using this.2
  have hupd : ∀ d : DependencyBuild, d.Namespace = recent.Namespace →
      (inNamespace ns (d.updatedBy (attached abr recent)).Namespace &&
        matchesLabel (d.updatedBy (attached abr recent)).Labels DependencyBuildIdLabel depId)
        = true := by
    intro d hd
    simp [DependencyBuild.updatedBy, attached, hd, hrec.1, hrec.2]
  induction l using List.reverseRecOn with
  | nil => simp at hsel
  | append_singleton l e ih =>
    rw [List.map_append, List.filter_append]
    rw [List.filter_append] at hsel
    simp only [List.map_cons, List.map_nil, List.filter_cons, List.filter_nil] at hsel ⊢
    by_cases hk : (e.Namespace == (attached abr recent).Namespace &&
        e.Name == (attached abr recent).Name) = true
    · have hens : e.Namespace = recent.Namespace := by
        simp [attached] at hk
        exact hk.1
      refine ⟨e.updatedBy (attached abr recent), ?_, hasOwner_attached abr recent⟩
      rw [if_pos hk, if_pos (hupd e hens)]
      simp
    · rw [if_neg hk]
      by_cases hp : (inNamespace ns e.Namespace &&
          matchesLabel e.Labels DependencyBuildIdLabel depId) = true
      · exfalso
        rw [if_pos hp] at hsel
        simp at hsel
        subst hsel
        simp [attached] at hk
      · rw [if_neg hp] at hsel ⊢
        simp only [List.append_nil] at hsel ⊢
        exact ih hsel

/-- After the owner attach the lookup selects a build that has the owner. -/
theorem selected_after_attach (s : Store) (ns depId : String) (abr : ArtifactBuild)
    (recent : DependencyBuild)
    (hsel : mostRecent DependencyBuild.CreationTimestamp (s.lookup ns depId) = some recent) :
    ∃ r1, mostRecent DependencyBuild.CreationTimestamp
        ((attachStore s abr recent).lookup ns depId) = some r1 ∧ hasOwner abr r1 = true := by
  unfold attachStore
  by_cases hf : hasOwner abr recent = true
  · exact ⟨recent, by simpa [hf] using hsel, hf⟩
  · rw [if_neg hf]
    rw [mostRecent_eq_getLast?] at hsel
    obtain ⟨r1, h1, h2⟩ := selected_after_put s.DependencyBuilds ns depId abr recent hsel
    exact ⟨r1, by rw [mostRecent_eq_getLast?]; exact h1, h2⟩

/-- One field written by the result loop: a fold that keeps the last value. -/
theorem foldl_last_idem {α β : Type} (p : β → Prop) [DecidablePred p] (v : β → α)
    (rs : List β) (x : α) :
    rs.foldl (fun acc r => if p r then v r else acc)
      (rs.foldl (fun acc r => if p r then v r else acc) x) =
    rs.foldl (fun acc r => if p r then v r else acc) x := by
  induction rs using List.reverseRecOn generalizing x with
  | nil => rfl
  | append_singleton l r ih =>
    simp only [List.foldl_append, List.foldl_cons, List.foldl_nil]
    by_cases hp : p r
    · simp [hp]
    · simp only [hp, if_false]
      exact ih x

/-- The five result names are pairwise different. -/
theorem resultNames_ne :
    TaskResultScmUrl ≠ TaskResultScmTag ∧
    TaskResultScmUrl ≠ TaskResultScmType ∧
    TaskResultScmUrl ≠ TaskResultMessage ∧
    TaskResultScmUrl ≠ TaskResultContextPath ∧
    TaskResultScmTag ≠ TaskResultScmUrl ∧
    TaskResultScmTag ≠ TaskResultScmType ∧
    TaskResultScmTag ≠ TaskResultMessage ∧
    TaskResultScmTag ≠ TaskResultContextPath ∧
    TaskResultScmType ≠ TaskResultScmUrl ∧
    TaskResultScmType ≠ TaskResultScmTag ∧
    TaskResultScmType ≠ TaskResultMessage ∧
    TaskResultScmType ≠ TaskResultContextPath ∧
    TaskResultMessage ≠ TaskResultScmUrl ∧
    TaskResultMessage ≠ TaskResultScmTag ∧
    TaskResultMessage ≠ TaskResultScmType ∧
    TaskResultMessage ≠ TaskResultContextPath ∧
    TaskResultContextPath ≠ TaskResultScmUrl ∧
    TaskResultContextPath ≠ TaskResultScmTag ∧
    TaskResultContextPath ≠ TaskResultScmType ∧
    TaskResultContextPath ≠ TaskResultMessage := by
  decide

theorem applyResult_scm (abr : ArtifactBuild) (r : TaskRunResult) :
    (applyResult abr r).Status.SCMInfo.SCMURL =
      (if r.Name = TaskResultScmUrl then r.Value else abr.Status.SCMInfo.SCMURL) ∧
    (applyResult abr r).Status.SCMInfo.Tag =
      (if r.Name = TaskResultScmTag then r.Value else abr.Status.SCMInfo.Tag) ∧
    (applyResult abr r).Status.SCMInfo.SCMType =
      (if r.Name = TaskResultScmType then r.Value else abr.Status.SCMInfo.SCMType) ∧
    (applyResult abr r).Status.SCMInfo.Path =
      (if r.Name = TaskResultContextPath then r.Value else abr.Status.SCMInfo.Path) := by
  have hne := resultNames_ne
  unfold applyResult
  by_cases h1 : r.Name = TaskResultScmUrl
  · simp [h1, hne]
  · by_cases h2 : r.Name = TaskResultScmTag
    · simp [h2, hne]
    · by_cases h3 : r.Name = TaskResultScmType
      · simp [h3, hne]
      · by_cases h4 : r.Name = TaskResultMessage
        · simp [h4, hne]
        · by_cases h5 : r.Name = TaskResultContextPath
          · simp [h5, hne]
          · simp [h1, h2, h3, h4, h5]

/-- The four fields of `SCMInfo` after the result loop: each keeps the value of the last
result of its name. -/
theorem withResults_scm (abr : ArtifactBuild) (tr : TaskRun) :
    (withResults abr tr).Status.SCMInfo.SCMURL =
      tr.Status.TaskRunResults.foldl
        (fun acc r => if r.Name = TaskResultScmUrl then r.Value else acc)
        abr.Status.SCMInfo.SCMURL ∧
    (withResults abr tr).Status.SCMInfo.Tag =
      tr.Status.TaskRunResults.foldl
        (fun acc r => if r.Name = TaskResultScmTag then r.Value else acc)
        abr.Status.SCMInfo.Tag ∧
    (withResults abr tr).Status.SCMInfo.SCMType =
      tr.Status.TaskRunResults.foldl
        (fun acc r => if r.Name = TaskResultScmType then r.Value else acc)
        abr.Status.SCMInfo.SCMType ∧
    (withResults abr tr).Status.SCMInfo.Path =
      tr.Status.TaskRunResults.foldl
        (fun acc r => if r.Name = TaskResultContextPath then r.Value else acc)
        abr.Status.SCMInfo.Path := by
  unfold withResults
  generalize tr.Status.TaskRunResults = rs
  induction rs generalizing abr with
  | nil => simp
  | cons r rs ih =>
    obtain ⟨h1, h2, h3, h4⟩ := applyResult_scm abr r
    obtain ⟨i1, i2, i3, i4⟩ := ih (applyResult abr r)
    simp only [List.foldl_cons]
    rw [i1, i2, i3, i4, h1, h2, h3, h4]
    exact ⟨rfl, rfl, rfl, rfl⟩

/-- Writing the task results a second time changes nothing in `SCMInfo`. -/
theorem withResults_scm_idem (abr abr1 : ArtifactBuild) (tr : TaskRun)
    (h : abr1.Status.SCMInfo = (withResults abr tr).Status.SCMInfo) :
    (withResults abr1 tr).Status.SCMInfo = (withResults abr tr).Status.SCMInfo := by
  obtain ⟨a1, a2, a3, a4⟩ := withResults_scm abr tr
  obtain ⟨b1, b2, b3, b4⟩ := withResults_scm abr1 tr
  have e1 : (withResults abr1 tr).Status.SCMInfo.SCMURL =
      (withResults abr tr).Status.SCMInfo.SCMURL := by
    rw [b1, h, a1]; exact foldl_last_idem _ _ _ _
  have e2 : (withResults abr1 tr).Status.SCMInfo.Tag =
      (withResults abr tr).Status.SCMInfo.Tag := by
    rw [b2, h, a2]; exact foldl_last_idem _ _ _ _
  have e3 : (withResults abr1 tr).Status.SCMInfo.SCMType =
      (withResults abr tr).Status.SCMInfo.SCMType := by
    rw [b3, h, a3]; exact foldl_last_idem _ _ _ _
  have e4 : (withResults abr1 tr).Status.SCMInfo.Path =
      (withResults abr tr).Status.SCMInfo.Path := by
    rw [b4, h, a4]; exact foldl_last_idem _ _ _ _
  cases hx : (withResults abr1 tr).Status.SCMInfo
  cases hy : (withResults abr tr).Status.SCMInfo
  simp only [hx, hy] at e1 e2 e3 e4
  simp [e1, e2, e3, e4]

theorem attachCalls_filter_write (abr : ArtifactBuild) (recent : DependencyBuild) :
    (attachCalls abr recent).filter Call.isDependencyBuildWrite = attachCalls abr recent := by
  unfold attachCalls
  split_ifs <;> simp [Call.isDependencyBuildWrite]

theorem attachCalls_filter_create (abr : ArtifactBuild) (recent : DependencyBuild) :
    (attachCalls abr recent).filter Call.isDependencyBuildCreate = [] := by
  unfold attachCalls
  split_ifs <;> simp [Call.isDependencyBuildCreate]

theorem attachCalls_of_hasOwner (abr : ArtifactBuild) (recent : DependencyBuild)
    (h : hasOwner abr recent = true) : attachCalls abr recent = [] := by
  simp [attachCalls, h]

theorem attachStore_of_hasOwner (s : Store) (abr : ArtifactBuild) (recent : DependencyBuild)
    (h : hasOwner abr recent = true) : attachStore s abr recent = s := by
  simp [attachStore, h]

@[simp] theorem putArtifactBuildStatus_DependencyBuilds (s : Store) (abr : ArtifactBuild) :
    (s.putArtifactBuildStatus abr).DependencyBuilds = s.DependencyBuilds := rfl

@[simp] theorem putArtifactBuildStatus_TaskRuns (s : Store) (abr : ArtifactBuild) :
    (s.putArtifactBuildStatus abr).TaskRuns = s.TaskRuns := rfl

@[simp] theorem putArtifactBuildStatus_lookup (s : Store) (abr : ArtifactBuild)
    (ns depId : String) :
    (s.putArtifactBuildStatus abr).lookup ns depId = s.lookup ns depId := rfl

/-- Reading back the updated build: its owner references are the new ones. -/
theorem dependencyBuild_putDependencyBuild (s : Store) (db : DependencyBuild)
    (h : s.hasDependencyBuild db.Namespace db.Name = true) :
    ∃ d, (s.putDependencyBuild db).dependencyBuild db.Namespace db.Name = some d ∧
      d.OwnerReferences = db.OwnerReferences := by
  unfold Store.hasDependencyBuild at h
  unfold Store.dependencyBuild Store.putDependencyBuild
  simp only
  generalize s.DependencyBuilds = l at h
  induction l with
  | nil => simp at h
  | cons x xs ih =>
    by_cases hx : (x.Namespace == db.Namespace && x.Name == db.Name) = true
    · refine ⟨x.updatedBy db, ?_, rfl⟩
      have hx' : ((x.updatedBy db).Namespace == db.Namespace &&
          (x.updatedBy db).Name == db.Name) = true := hx
      rw [List.map_cons, if_pos hx, List.find?_cons, hx']
    · have hxs : (xs.any fun d => d.Namespace == db.Namespace && d.Name == db.Name) = true := by
        rw [List.any_cons] at h
        simpa [hx] using h
      obtain ⟨d, h1, h2⟩ := ih hxs
      refine ⟨d, ?_, h2⟩
      have hx' : (x.Namespace == db.Namespace && x.Name == db.Name) = false := by
        simpa using hx
      rw [List.map_cons, if_neg hx, List.find?_cons, hx']
      exact h1

/-- The stored build of the selected build's name after the owner attach. -/
theorem dependencyBuild_attachStore (s : Store) (abr : ArtifactBuild)
    (recent : DependencyBuild) (hmem : recent ∈ s.DependencyBuilds) :
    hasOwner abr recent = true ∨
    ∃ d, (attachStore s abr recent).dependencyBuild recent.Namespace recent.Name = some d ∧
      d.OwnerReferences = upsertOwnerRef (ownerRefOf abr) recent.OwnerReferences := by
  by_cases hf : hasOwner abr recent = true
  · exact Or.inl hf
  · right
    unfold attachStore
    rw [if_neg hf]
    exact dependencyBuild_putDependencyBuild s (attached abr recent)
      (hasDependencyBuild_of_mem s recent hmem)

/-- The stored `ArtifactBuild` after `handleStateBuilding` found a build: it keeps name,
namespace, UID and `SCMInfo`. -/
theorem building_stored_after (s : Store) (abr : ArtifactBuild) (st : Option String)
    (hstored : s.artifactBuild abr.Namespace abr.Name = some abr) :
    ∃ abr1, (s.putStateIf abr st).artifactBuild abr.Namespace abr.Name = some abr1 ∧
      abr1.Namespace = abr.Namespace ∧ abr1.Name = abr.Name ∧ abr1.UID = abr.UID ∧
      abr1.Status.SCMInfo = abr.Status.SCMInfo := by
  cases st with
  | none => exact ⟨abr, hstored, rfl, rfl, rfl, rfl⟩
  | some x =>
    exact ⟨_, artifactBuild_putArtifactBuildStatus s (abr.setState x) abr _ _ rfl rfl hstored,
      rfl, rfl, rfl, rfl⟩

@[simp] theorem putStateIf_DependencyBuilds (s : Store) (abr : ArtifactBuild)
    (st : Option String) : (s.putStateIf abr st).DependencyBuilds = s.DependencyBuilds := by
  cases st <;> rfl

theorem statusCalls_filter_write (abr : ArtifactBuild) (st : Option String) :
    (statusCalls abr st).filter Call.isDependencyBuildWrite = [] := by
  cases st <;> simp [statusCalls, Call.isDependencyBuildWrite]

theorem statusCalls_filter_create (abr : ArtifactBuild) (st : Option String) :
    (statusCalls abr st).filter Call.isDependencyBuildCreate = [] := by
  cases st <;> simp [statusCalls, Call.isDependencyBuildCreate]

theorem depIdOf_congr (a b : ArtifactBuild) (h : a.Status.SCMInfo = b.Status.SCMInfo) :
    depIdOf a = depIdOf b := by
  simp [depIdOf, h]

/-- The owner attach of `handleStateBuilding` and its second run. -/
theorem building_attach (w : World) (abr : ArtifactBuild) (recent : DependencyBuild)
    (hfaults : w.faults = [])
    (hstored : w.store.artifactBuild abr.Namespace abr.Name = some abr)
    (hsel : mostRecent DependencyBuild.CreationTimestamp
      (w.store.lookup abr.Namespace (depIdOf abr)) = some recent) :
    ((handleStateBuilding w abr).2.callsSince w.calls.length).filter
        Call.isDependencyBuildCreate = [] ∧
    ((handleStateBuilding w abr).2.callsSince w.calls.length).filter
        Call.isDependencyBuildWrite =
      (if hasOwner abr recent then []
       else [.UpdateDependencyBuild (attached abr recent)]) ∧
    (handleStateBuilding w abr).2.store.DependencyBuilds =
      (if hasOwner abr recent then w.store.DependencyBuilds
       else (w.store.putDependencyBuild (attached abr recent)).DependencyBuilds) ∧
    (hasOwner abr recent = true ∨
      ∃ d, (handleStateBuilding w abr).2.store.dependencyBuild
          recent.Namespace recent.Name = some d ∧
        d.OwnerReferences = upsertOwnerRef (ownerRefOf abr) recent.OwnerReferences) ∧
    ∃ abr1, (handleStateBuilding w abr).2.store.artifactBuild abr.Namespace abr.Name
        = some abr1 ∧
      ((handleStateBuilding (handleStateBuilding w abr).2 abr1).2.callsSince
          (handleStateBuilding w abr).2.calls.length).filter
          Call.isDependencyBuildWrite = [] ∧
      (handleStateBuilding (handleStateBuilding w abr).2 abr1).2.store.DependencyBuilds =
        (handleStateBuilding w abr).2.store.DependencyBuilds := by
  have hmem := (lookup_mem _ _ _ _ (mem_of_mostRecent _ _ _ hsel)).1
  rw [handleStateBuilding_existing w abr recent hfaults hstored hsel]
  simp only [callsSince_after, after_store]
  refine ⟨?_, ?_, ?_, ?_, ?_⟩
  · simp [List.filter_append, attachCalls_filter_create, statusCalls_filter_create,
      Call.isDependencyBuildCreate]
  · simp only [List.filter_append, attachCalls_filter_write, statusCalls_filter_write,
      List.append_nil]
    simp [Call.isDependencyBuildWrite, attachCalls]
  · rw [putStateIf_DependencyBuilds]
    unfold attachStore
    split_ifs <;> rfl
  · rcases dependencyBuild_attachStore w.store abr recent hmem with h | ⟨d, h1, h2⟩
    · exact Or.inl h
    · refine Or.inr ⟨d, ?_, h2⟩
      unfold Store.dependencyBuild at h1 ⊢
      rw [putStateIf_DependencyBuilds]
      exact h1
  · obtain ⟨abr1, h1, hns1, hn1, hu1, hscm1⟩ := building_stored_after
      (attachStore w.store abr recent) abr (buildingState recent.Status.State)
      (by rw [attachStore_artifactBuild]; exact hstored)
    refine ⟨abr1, h1, ?_⟩
    obtain ⟨r1, hr1, ho1⟩ := selected_after_attach w.store abr.Namespace (depIdOf abr) abr
      recent hsel
    generalize hw1 : w.after
      ([Call.ListDependencyBuilds abr.Namespace DependencyBuildIdLabel (depIdOf abr)] ++
          attachCalls abr recent ++ statusCalls abr (buildingState recent.Status.State))
      ((attachStore w.store abr recent).putStateIf abr (buildingState recent.Status.State))
      = w1 at *
    have hf1 : w1.faults = [] := by rw [← hw1]; exact hfaults
    have hst1 : w1.store.artifactBuild abr1.Namespace abr1.Name = some abr1 := by
      rw [hns1, hn1, ← hw1]; exact h1
    have hlook : w1.store.lookup abr1.Namespace (depIdOf abr1) =
        (attachStore w.store abr recent).lookup abr.Namespace (depIdOf abr) := by
      rw [hns1, depIdOf_congr abr1 abr hscm1, ← hw1]
      simp only [after_store, Store.lookup, putStateIf_DependencyBuilds]
    have ho1' : hasOwner abr1 r1 = true := by rw [hasOwner_congr abr1 abr r1 hu1]; exact ho1
    rw [handleStateBuilding_existing w1 abr1 r1 hf1 hst1 (by rw [hlook]; exact hr1)]
    simp only [callsSince_after, after_store, attachCalls_of_hasOwner _ _ ho1',
      attachStore_of_hasOwner _ _ _ ho1', List.append_nil]
    constructor
    · simp [List.filter_append, statusCalls_filter_write, Call.isDependencyBuildWrite]
    · simp [← hw1]

theorem discoveryTasks_congr (s s1 : Store) (a b : ArtifactBuild)
    (hs : s1.TaskRuns = s.TaskRuns) (hns : a.Namespace = b.Namespace) (hsp : a.Spec = b.Spec) :
    s1.discoveryTasks a = s.discoveryTasks b := by
  simp [Store.discoveryTasks, hs, hns, hsp]

/-- The owner attach of `handleStateDiscovering` and its second run. -/
theorem discovering_attach (w : World) (abr : ArtifactBuild) (tr : TaskRun)
    (recent : DependencyBuild)
    (hfaults : w.faults = [])
    (hstored : w.store.artifactBuild abr.Namespace abr.Name = some abr)
    (htask : mostRecent TaskRun.CreationTimestamp (w.store.discoveryTasks abr) = some tr)
    (hdone : tr.Status.CompletionTime ≠ none)
    (htag : (withResults abr tr).Status.SCMInfo.Tag ≠ "")
    (hsel : mostRecent DependencyBuild.CreationTimestamp
      (w.store.lookup abr.Namespace (depIdOf (withResults abr tr))) = some recent) :
    ((handleStateDiscovering w abr).2.callsSince w.calls.length).filter
        Call.isDependencyBuildCreate = [] ∧
    ((handleStateDiscovering w abr).2.callsSince w.calls.length).filter
        Call.isDependencyBuildWrite =
      (if hasOwner abr recent then []
       else [.UpdateDependencyBuild (attached abr recent)]) ∧
    (handleStateDiscovering w abr).2.store.DependencyBuilds =
      (if hasOwner abr recent then w.store.DependencyBuilds
       else (w.store.putDependencyBuild (attached abr recent)).DependencyBuilds) ∧
    (hasOwner abr recent = true ∨
      ∃ d, (handleStateDiscovering w abr).2.store.dependencyBuild
          recent.Namespace recent.Name = some d ∧
        d.OwnerReferences = upsertOwnerRef (ownerRefOf abr) recent.OwnerReferences) ∧
    ∃ abr1, (handleStateDiscovering w abr).2.store.artifactBuild abr.Namespace abr.Name
        = some abr1 ∧
      ((handleStateDiscovering (handleStateDiscovering w abr).2 abr1).2.callsSince
          (handleStateDiscovering w abr).2.calls.length).filter
          Call.isDependencyBuildWrite = [] ∧
      (handleStateDiscovering (handleStateDiscovering w abr).2 abr1).2.store.DependencyBuilds =
        (handleStateDiscovering w abr).2.store.DependencyBuilds := by
  obtain ⟨hn, hns, hu, hsp, _⟩ := withResults_meta abr tr
  have hmem := (lookup_mem _ _ _ _ (mem_of_mostRecent _ _ _ hsel)).1
  rw [handleStateDiscovering_existing w abr tr recent hfaults hstored htask hdone htag hsel]
  simp only [callsSince_after, after_store]
  refine ⟨?_, ?_, ?_, ?_, ?_⟩
  · simp [List.filter_append, attachCalls_filter_create, Call.isDependencyBuildCreate]
  · simp only [List.filter_append, attachCalls_filter_write]
    simp [Call.isDependencyBuildWrite, attachCalls]
  · rw [putArtifactBuildStatus_DependencyBuilds]
    unfold attachStore
    split_ifs <;> rfl
  · rcases dependencyBuild_attachStore w.store abr recent hmem with h | ⟨d, h1, h2⟩
    · exact Or.inl h
    · exact Or.inr ⟨d, h1, h2⟩
  · have h1 := artifactBuild_putArtifactBuildStatus (attachStore w.store abr recent)
      ((withResults abr tr).setState (discoveringState recent.Status.State)) abr
      abr.Namespace abr.Name hns hn (by rw [attachStore_artifactBuild]; exact hstored)
    refine ⟨_, h1, ?_⟩
    obtain ⟨r1, hr1, ho1⟩ := selected_after_attach w.store abr.Namespace
      (depIdOf (withResults abr tr)) abr recent hsel
    generalize habr1 : ({ abr with Status :=
      ((withResults abr tr).setState (discoveringState recent.Status.State)).Status }
        : ArtifactBuild) = abr1 at *
    have hns1 : abr1.Namespace = abr.Namespace := by rw [← habr1]
    have hn1 : abr1.Name = abr.Name := by rw [← habr1]
    have hu1 : abr1.UID = abr.UID := by rw [← habr1]
    have hsp1 : abr1.Spec = abr.Spec := by rw [← habr1]
    have hscm1 : abr1.Status.SCMInfo = (withResults abr tr).Status.SCMInfo := by
      rw [← habr1]; rfl
    have hscm2 := withResults_scm_idem abr abr1 tr hscm1
    generalize hw1 : w.after
      ([Call.ListTaskRuns abr.Namespace ArtifactBuildIdLabel (ABRLabelForGAV abr.Spec.GAV),
            Call.ListDependencyBuilds abr.Namespace DependencyBuildIdLabel
              (depIdOf (withResults abr tr))] ++
          attachCalls abr recent ++
        [Call.StatusUpdateArtifactBuild
            ((withResults abr tr).setState (discoveringState recent.Status.State))])
      ((attachStore w.store abr recent).putArtifactBuildStatus
        ((withResults abr tr).setState (discoveringState recent.Status.State))) = w1 at *
    have hf1 : w1.faults = [] := by rw [← hw1]; exact hfaults
    have hst1 : w1.store.artifactBuild abr1.Namespace abr1.Name = some abr1 := by
      rw [hns1, hn1, ← hw1]; exact h1
    have htask1 : mostRecent TaskRun.CreationTimestamp (w1.store.discoveryTasks abr1)
        = some tr := by
      rw [discoveryTasks_congr w.store w1.store abr1 abr (by rw [← hw1]; simp) hns1 hsp1]
      exact htask
    have htag1 : (withResults abr1 tr).Status.SCMInfo.Tag ≠ "" := by rw [hscm2]; exact htag
    have hlook : w1.store.lookup abr1.Namespace (depIdOf (withResults abr1 tr)) =
        (attachStore w.store abr recent).lookup abr.Namespace
          (depIdOf (withResults abr tr)) := by
      rw [hns1, depIdOf_congr _ _ hscm2, ← hw1]
      simp only [after_store, putArtifactBuildStatus_lookup]
    have ho1' : hasOwner abr1 r1 = true := by rw [hasOwner_congr abr1 abr r1 hu1]; exact ho1
    rw [handleStateDiscovering_existing w1 abr1 tr r1 hf1 hst1 htask1 hdone htag1
      (by rw [hlook]; exact hr1)]
    simp only [callsSince_after, after_store, attachCalls_of_hasOwner _ _ ho1',
      attachStore_of_hasOwner _ _ _ ho1', List.append_nil]
    constructor
    · simp [List.filter_append, Call.isDependencyBuildWrite]
    · simp [← hw1]

/-- C2: for either handler and a non-empty lookup (store calls succeeding), no
`DependencyBuild` is created; the `ArtifactBuild` is put among the owner references of the
selected build, by one update, exactly when no owner reference has its UID; and a second
run of the handler on the resulting store, for the `ArtifactBuild` as stored, issues no
`DependencyBuild` write and leaves the stored builds as they are. -/
theorem attach_owner_idempotent (h : Handler) (w : World) (abr : ArtifactBuild)
    (recent : DependencyBuild)
    (hfaults : w.faults = [])
    (hstored : w.store.artifactBuild abr.Namespace abr.Name = some abr)
    (hsel : h.selected w abr = some recent) :
    ((h.run w abr).2.callsSince w.calls.length).filter Call.isDependencyBuildCreate = [] ∧
    ((h.run w abr).2.callsSince w.calls.length).filter Call.isDependencyBuildWrite =
      (if hasOwner abr recent then []
       else [.UpdateDependencyBuild (attached abr recent)]) ∧
    (h.run w abr).2.store.DependencyBuilds =
      (if hasOwner abr recent then w.store.DependencyBuilds
       else (w.store.putDependencyBuild (attached abr recent)).DependencyBuilds) ∧
    (hasOwner abr recent = true ∨
      ∃ d, (h.run w abr).2.store.dependencyBuild recent.Namespace recent.Name = some d ∧
        d.OwnerReferences = upsertOwnerRef (ownerRefOf abr) recent.OwnerReferences) ∧
    ownerRefOf abr ∈ upsertOwnerRef (ownerRefOf abr) recent.OwnerReferences ∧
    ∃ abr1, (h.run w abr).2.store.artifactBuild abr.Namespace abr.Name = some abr1 ∧
      ((h.run (h.run w abr).2 abr1).2.callsSince (h.run w abr).2.calls.length).filter
          Call.isDependencyBuildWrite = [] ∧
      (h.run (h.run w abr).2 abr1).2.store.DependencyBuilds =
        (h.run w abr).2.store.DependencyBuilds := by
  cases h with
  | building =>
    have hsel' : mostRecent DependencyBuild.CreationTimestamp
        (w.store.lookup abr.Namespace (depIdOf abr)) = some recent := hsel
    obtain ⟨h1, h2, h3, h4, h5⟩ := building_attach w abr recent hfaults hstored hsel'
    exact ⟨h1, h2, h3, h4, mem_upsertOwnerRef _ _, h5⟩
  | discovering =>
    unfold Handler.selected Handler.atLookup at hsel
    cases htask : mostRecent TaskRun.CreationTimestamp (w.store.discoveryTasks abr) with
    | none => simp [htask] at hsel
    | some tr =>
      simp only [htask] at hsel
      by_cases hdone : tr.Status.CompletionTime = none
      · simp [hdone] at hsel
      · by_cases htag : (withResults abr tr).Status.SCMInfo.Tag = ""
        · simp [hdone, htag] at hsel
        · simp only [if_neg hdone, if_neg htag, (withResults_meta abr tr).2.1] at hsel
          obtain ⟨h1, h2, h3, h4, h5⟩ :=
            discovering_attach w abr tr recent hfaults hstored htask hdone htag hsel
          exact ⟨h1, h2, h3, h4, mem_upsertOwnerRef _ _, h5⟩

theorem attach_owner_idempotent_witness :
    ((Handler.discovering.run sharedWorld exampleAbr).2.callsSince
        sharedWorld.calls.length).filter Call.isDependencyBuildCreate = [] ∧
    ((Handler.discovering.run sharedWorld exampleAbr).2.callsSince
        sharedWorld.calls.length).filter Call.isDependencyBuildWrite =
      (if hasOwner exampleAbr exampleBuild then []
       else [.UpdateDependencyBuild (attached exampleAbr exampleBuild)]) ∧
    (Handler.discovering.run sharedWorld exampleAbr).2.store.DependencyBuilds =
      (if hasOwner exampleAbr exampleBuild then sharedWorld.store.DependencyBuilds
       else (sharedWorld.store.putDependencyBuild
         (attached exampleAbr exampleBuild)).DependencyBuilds) ∧
    (hasOwner exampleAbr exampleBuild = true ∨
      ∃ d, (Handler.discovering.run sharedWorld exampleAbr).2.store.dependencyBuild
          exampleBuild.Namespace exampleBuild.Name = some d ∧
        d.OwnerReferences =
          upsertOwnerRef (ownerRefOf exampleAbr) exampleBuild.OwnerReferences) ∧
    ownerRefOf exampleAbr ∈
      upsertOwnerRef (ownerRefOf exampleAbr) exampleBuild.OwnerReferences ∧
    ∃ abr1, (Handler.discovering.run sharedWorld exampleAbr).2.store.artifactBuild
        exampleAbr.Namespace exampleAbr.Name = some abr1 ∧
      ((Handler.discovering.run (Handler.discovering.run sharedWorld exampleAbr).2
          abr1).2.callsSince
          (Handler.discovering.run sharedWorld exampleAbr).2.calls.length).filter
          Call.isDependencyBuildWrite = [] ∧
      (Handler.discovering.run (Handler.discovering.run sharedWorld exampleAbr).2
          abr1).2.store.DependencyBuilds =
        (Handler.discovering.run sharedWorld exampleAbr).2.store.DependencyBuilds :=
  attach_owner_idempotent Handler.discovering sharedWorld exampleAbr exampleBuild
    (by decide) (by decide) (by decide!)

/-- C3 (evaluation at the failing input): the selected build is `Contaminated`;
`handleStateDiscovering` leaves the `ArtifactBuild` in `Building`, because its `switch`
compares the build state with the annotation prefix `DependencyBuildContaminatedBy`;
`handleStateBuilding`, on the same build, sets `Failed`. -/
theorem discovering_contaminated_gives_building :
    Handler.discovering.selected contaminatedWorld exampleAbr = some contaminatedBuild ∧
    contaminatedBuild.Status.State = DependencyBuildStateContaminated ∧
    (handleStateDiscovering contaminatedWorld exampleAbr).1 = .ok {} ∧
    (handleStateDiscovering contaminatedWorld exampleAbr).2.store.stateOf "ns"
        "bar.1.2.3-2db6de0c" = some ArtifactBuildStateBuilding ∧
    Handler.building.selected contaminatedBuildingWorld buildingAbr = some contaminatedBuild ∧
    (handleStateBuilding contaminatedBuildingWorld buildingAbr).2.store.stateOf "ns"
        "bar.1.2.3-2db6de0c" = some ArtifactBuildStateFailed ∧
    DependencyBuildStateContaminated ≠ DependencyBuildContaminatedBy := by
  decide!

theorem stateOf_putStateIf (s : Store) (abr : ArtifactBuild) (st : Option String)
    (hstored : s.artifactBuild abr.Namespace abr.Name = some abr) :
    (s.putStateIf abr st).stateOf abr.Namespace abr.Name = some (st.getD abr.Status.State) := by
  unfold Store.stateOf
  cases st with
  | none => simp [Store.putStateIf, hstored]
  | some x =>
    have := artifactBuild_putArtifactBuildStatus s (abr.setState x) abr abr.Namespace abr.Name
      rfl rfl hstored
    simp only [Store.putStateIf]
    rw [this]
    rfl

/-- C4: an `ArtifactBuild` in state `Building` whose lookup finds a build (store calls
succeeding): `handleStateBuilding` returns without error and the stored state mirrors the
selected build: `Complete` for `Complete`, `Failed` for `Contaminated` or `Failed`;
for any other build state it stays `Building` and no status update of the `ArtifactBuild`
is issued. -/
theorem building_mirrors_build_state (w : World) (abr : ArtifactBuild)
    (recent : DependencyBuild)
    (hfaults : w.faults = [])
    (hstored : w.store.artifactBuild abr.Namespace abr.Name = some abr)
    (hstate : abr.Status.State = ArtifactBuildStateBuilding)
    (hsel : Handler.building.selected w abr = some recent) :
    (handleStateBuilding w abr).1 = .ok {} ∧
    (handleStateBuilding w abr).2.store.stateOf abr.Namespace abr.Name =
      some (if recent.Status.State = DependencyBuildStateComplete then
              ArtifactBuildStateComplete
            else if recent.Status.State = DependencyBuildStateContaminated ∨
                recent.Status.State = DependencyBuildStateFailed then
              ArtifactBuildStateFailed
            else ArtifactBuildStateBuilding) ∧
    ((handleStateBuilding w abr).2.callsSince w.calls.length).filter
        Call.isArtifactBuildStatusUpdate =
      (if recent.Status.State = DependencyBuildStateComplete then
         [.StatusUpdateArtifactBuild (abr.setState ArtifactBuildStateComplete)]
       else if recent.Status.State = DependencyBuildStateContaminated ∨
           recent.Status.State = DependencyBuildStateFailed then
         [.StatusUpdateArtifactBuild (abr.setState ArtifactBuildStateFailed)]
       else []) := by
  have hsel' : mostRecent DependencyBuild.CreationTimestamp
      (w.store.lookup abr.Namespace (depIdOf abr)) = some recent := hsel
  rw [handleStateBuilding_existing w abr recent hfaults hstored hsel']
  refine ⟨rfl, ?_, ?_⟩
  · rw [after_store, stateOf_putStateIf _ _ _
      (by rw [attachStore_artifactBuild]; exact hstored)]
    unfold buildingState
    split_ifs <;> simp [hstate]
  · rw [callsSince_after]
    have hatt : (attachCalls abr recent).filter Call.isArtifactBuildStatusUpdate = [] := by
      unfold attachCalls
      split_ifs <;> simp [Call.isArtifactBuildStatusUpdate]
    simp only [List.filter_append, hatt, List.append_nil]
    unfold buildingState
    split_ifs <;> simp [statusCalls, Call.isArtifactBuildStatusUpdate]

theorem building_mirrors_build_state_witness :
    (handleStateBuilding completeBuildingWorld buildingAbr).1 = .ok {} ∧
    (handleStateBuilding completeBuildingWorld buildingAbr).2.store.stateOf
        buildingAbr.Namespace buildingAbr.Name =
      some (if exampleBuild.Status.State = DependencyBuildStateComplete then
              ArtifactBuildStateComplete
            else if exampleBuild.Status.State = DependencyBuildStateContaminated ∨
                exampleBuild.Status.State = DependencyBuildStateFailed then
              ArtifactBuildStateFailed
            else ArtifactBuildStateBuilding) ∧
    ((handleStateBuilding completeBuildingWorld buildingAbr).2.callsSince
        completeBuildingWorld.calls.length).filter Call.isArtifactBuildStatusUpdate =
      (if exampleBuild.Status.State = DependencyBuildStateComplete then
         [.StatusUpdateArtifactBuild (buildingAbr.setState ArtifactBuildStateComplete)]
       else if exampleBuild.Status.State = DependencyBuildStateContaminated ∨
           exampleBuild.Status.State = DependencyBuildStateFailed then
         [.StatusUpdateArtifactBuild (buildingAbr.setState ArtifactBuildStateFailed)]
       else []) :=
  building_mirrors_build_state completeBuildingWorld buildingAbr exampleBuild
    (by decide) (by decide) (by decide) (by decide!)

/-- C5 (evaluation at the failing input): the lookup returns `[laterBuild, earlierBuild]`.
Both handlers select the same build, but it is the earlier one, the last of the list: the
`ArtifactBuild` becomes an owner of `earlierBuild` and takes its state (`Failed`), while
`laterBuild` (`Complete`) is left as it is. -/
theorem race_selects_last_listed :
    raceWorld.store.lookup "ns" (depIdOf buildingAbr) = [laterBuild, earlierBuild] ∧
    earlierBuild.CreationTimestamp < laterBuild.CreationTimestamp ∧
    Handler.building.selected raceWorld buildingAbr = some earlierBuild ∧
    Handler.discovering.selected raceDiscoveringWorld exampleAbr = some earlierBuild ∧
    (handleStateBuilding raceWorld buildingAbr).2.store.DependencyBuilds =
      [laterBuild, attached buildingAbr earlierBuild] ∧
    (handleStateBuilding raceWorld buildingAbr).2.store.stateOf "ns" "bar.1.2.3-2db6de0c" =
      some ArtifactBuildStateFailed ∧
    (handleStateDiscovering raceDiscoveringWorld exampleAbr).2.store.DependencyBuilds =
      [laterBuild, attached exampleAbr earlierBuild] ∧
    (handleStateDiscovering raceDiscoveringWorld exampleAbr).2.store.stateOf "ns"
        "bar.1.2.3-2db6de0c" = some ArtifactBuildStateFailed := by
  decide!

/-- The inner loop of `handleStateComplete` keeps the entries different from `value`. -/
theorem newContaminates_eq_filter (contaminants : List String) (value : String) :
    newContaminates contaminants value = contaminants.filter fun c => c ≠ value := by
  unfold newContaminates
  induction contaminants using List.reverseRecOn with
  | nil => rfl
  | append_singleton l c ih =>
    rw [List.foldl_append, ih]
    by_cases h : c = value <;> simp [List.filter_append, h]

/-- C6 (evaluation at the failing input): `completeAbr` is named `a` and its annotation
names the contaminated build `db1`, whose contaminants are `a` and `b`. After
`handleStateComplete` the stored list is still `a`, `b`: the loop drops the entries equal
to the annotation value, the name of the build, not those equal to the name of the
`ArtifactBuild`. With `db1` among the contaminants, that entry is the one dropped. -/
theorem complete_keeps_own_name :
    completeAbr.Name = "a" ∧
    cleanupWorld.store.contaminantsOf "ns" "db1" = some ["a", "b"] ∧
    (handleStateComplete cleanupWorld completeAbr).1 = .ok {} ∧
    (handleStateComplete cleanupWorld completeAbr).2.calls =
      [.GetDependencyBuild "ns" "db1", .StatusUpdateDependencyBuild db1] ∧
    (handleStateComplete cleanupWorld completeAbr).2.store.contaminantsOf "ns" "db1" =
      some ["a", "b"] ∧
    (handleStateComplete cleanupSelfWorld completeAbr).2.store.contaminantsOf "ns" "db1" =
      some ["a", "b"] := by
  decide!

/-- A `Get` writes nothing: the store is kept and one call, a read, is recorded. -/
theorem getDependencyBuild_frame (w : World) (ns name : String) :
    (getDependencyBuild w ns name).2.store = w.store ∧
    (getDependencyBuild w ns name).2.calls = w.calls ++ [.GetDependencyBuild ns name] ∧
    (getDependencyBuild w ns name).2.events = w.events := by
  unfold getDependencyBuild World.issue
  cases hf : w.faults with
  | nil =>
    simp only
    cases w.store.dependencyBuild ns name <;> simp
  | cons f rest =>
    cases f
    · simp only
      cases w.store.dependencyBuild ns name <;> simp
    · simp

/-- A `Get` that returns an object returns the stored one. -/
theorem getDependencyBuild_ok (w : World) (ns name : String) (db : DependencyBuild)
    (h : (getDependencyBuild w ns name).1 = .ok db) :
    w.store.dependencyBuild ns name = some db := by
  unfold getDependencyBuild World.issue at h
  cases hf : w.faults with
  | nil =>
    simp only [hf] at h
    cases hd : w.store.dependencyBuild ns name with
    | none => simp [hd] at h
    | some d => simpa [hd] using h
  | cons f rest =>
    cases f
    · simp only [hf] at h
      cases hd : w.store.dependencyBuild ns name with
      | none => simp [hd] at h
      | some d => simpa [hd] using h
    · simp [hf] at h

/-- One annotation that is skipped: the loop goes on in a world with the same store and
no further write. -/
theorem complete_skip_step (w : World) (abr : ArtifactBuild) (key value : String)
    (rest : List (String × String))
    (hskip : stringsHasPrefix key DependencyBuildContaminatedBy = false ∨
      (∃ err, (getDependencyBuild w abr.Namespace value).1 = .error err) ∨
      (∃ db, (getDependencyBuild w abr.Namespace value).1 = .ok db ∧
        db.Status.State ≠ DependencyBuildStateContaminated)) :
    ∃ w1, handleStateCompleteLoop abr w ((key, value) :: rest) =
        handleStateCompleteLoop abr w1 rest ∧
      w1.store = w.store ∧
      ∃ cs, w1.calls = w.calls ++ cs ∧ cs.filter Call.isWrite = [] := by
  obtain ⟨hs, hc, _⟩ := getDependencyBuild_frame w abr.Namespace value
  by_cases hp : stringsHasPrefix key DependencyBuildContaminatedBy = true
  · rcases hskip with h | ⟨err, h⟩ | ⟨db, h, hst⟩
    · rw [hp] at h; cases h
    · refine ⟨(getDependencyBuild w abr.Namespace value).2.Eventf EventTypeNormal
        "CannotGetDependencyBuild", ?_, by simpa using hs,
        [.GetDependencyBuild abr.Namespace value], by simpa using hc, by simp [Call.isWrite]⟩
      rw [handleStateCompleteLoop, if_pos hp]
      generalize getDependencyBuild w abr.Namespace value = g at h
      obtain ⟨g1, g2⟩ := g
      simp only at h
      subst h
      rfl
    · refine ⟨(getDependencyBuild w abr.Namespace value).2, ?_, hs,
        [.GetDependencyBuild abr.Namespace value], hc, by simp [Call.isWrite]⟩
      rw [handleStateCompleteLoop, if_pos hp]
      generalize getDependencyBuild w abr.Namespace value = g at h
      obtain ⟨g1, g2⟩ := g
      simp only at h
      subst h
      simp only [hst, ne_eq, not_false_eq_true, if_true]
  · refine ⟨w, ?_, rfl, [], by simp, rfl⟩
    rw [handleStateCompleteLoop, if_neg hp]

/-- The loop of `handleStateComplete` over annotations none of which names a stored
contaminated build: no error, the store is kept, no write is issued. -/
theorem complete_loop_quiet (abr : ArtifactBuild) (anns : List (String × String)) (w : World)
    (hnone : ∀ key value, (key, value) ∈ anns →
      stringsHasPrefix key DependencyBuildContaminatedBy = true →
      ∀ db, w.store.dependencyBuild abr.Namespace value = some db →
        db.Status.State ≠ DependencyBuildStateContaminated) :
    (handleStateCompleteLoop abr w anns).1 = .ok {} ∧
    (handleStateCompleteLoop abr w anns).2.store = w.store ∧
    ∃ cs, (handleStateCompleteLoop abr w anns).2.calls = w.calls ++ cs ∧
      cs.filter Call.isWrite = [] := by
  induction anns generalizing w with
  | nil => exact ⟨rfl, rfl, [], by simp [handleStateCompleteLoop], rfl⟩
  | cons kv rest ih =>
    obtain ⟨key, value⟩ := kv
    have hskip : stringsHasPrefix key DependencyBuildContaminatedBy = false ∨
        (∃ err, (getDependencyBuild w abr.Namespace value).1 = .error err) ∨
        (∃ db, (getDependencyBuild w abr.Namespace value).1 = .ok db ∧
          db.Status.State ≠ DependencyBuildStateContaminated) := by
      by_cases hp : stringsHasPrefix key DependencyBuildContaminatedBy = true
      · right
        cases hg : (getDependencyBuild w abr.Namespace value).1 with
        | error err => exact Or.inl ⟨err, rfl⟩
        | ok db =>
          exact Or.inr ⟨db, rfl, hnone key value (by simp) hp db
            (getDependencyBuild_ok w _ _ db hg)⟩
      · left
        simpa using hp
    obtain ⟨w1, hstep, hstore, cs, hcalls, hcs⟩ :=
      complete_skip_step w abr key value rest hskip
    obtain ⟨h1, h2, cs2, h3, h4⟩ := ih w1 (by
      intro k v hmem hp db hdb
      rw [hstore] at hdb
      exact hnone k v (List.mem_cons_of_mem _ hmem) hp db hdb)
    rw [hstep]
    refine ⟨h1, h2.trans hstore, cs ++ cs2, ?_, ?_⟩
    · rw [h3, hcalls, List.append_assoc]
    · rw [List.filter_append, hcs, h4]; rfl

/-- C7: `handleStateComplete` issues no store write for an annotation whose key lacks the
contamination prefix, whose build cannot be fetched, or whose fetched build is not
`Contaminated`: the loop goes on with the remaining annotations in a world with the same
store and no further write. If no annotation with the prefix names a stored build that
is `Contaminated`, the handler returns no error and no requeue, leaves the store as it is
and issues no write, whatever store calls fail. -/
theorem complete_skips_without_write (w : World) (abr : ArtifactBuild) :
    (∀ (key value : String) (rest : List (String × String)),
      (stringsHasPrefix key DependencyBuildContaminatedBy = false ∨
        (∃ err, (getDependencyBuild w abr.Namespace value).1 = .error err) ∨
        (∃ db, (getDependencyBuild w abr.Namespace value).1 = .ok db ∧
          db.Status.State ≠ DependencyBuildStateContaminated)) →
      ∃ w1, handleStateCompleteLoop abr w ((key, value) :: rest) =
          handleStateCompleteLoop abr w1 rest ∧
        w1.store = w.store ∧
        ∃ cs, w1.calls = w.calls ++ cs ∧ cs.filter Call.isWrite = []) ∧
    ((∀ key value, (key, value) ∈ abr.Annotations →
        stringsHasPrefix key DependencyBuildContaminatedBy = true →
        ∀ db, w.store.dependencyBuild abr.Namespace value = some db →
          db.Status.State ≠ DependencyBuildStateContaminated) →
      (handleStateComplete w abr).1 = .ok { RequeueAfter := 0 } ∧
      (handleStateComplete w abr).2.store = w.store ∧
      ((handleStateComplete w abr).2.callsSince w.calls.length).filter Call.isWrite = []) := by
  refine ⟨fun key value rest hskip => complete_skip_step w abr key value rest hskip, ?_⟩
  intro hnone
  obtain ⟨h1, h2, cs, h3, h4⟩ := complete_loop_quiet abr abr.Annotations w hnone
  refine ⟨h1, h2, ?_⟩
  unfold handleStateComplete World.callsSince
  rw [h3]
  simpa using h4

/-- No annotation of `quietAbr` with the prefix names a stored contaminated build. -/
theorem quietAbr_names_no_contaminated :
    ∀ key value, (key, value) ∈ quietAbr.Annotations →
      stringsHasPrefix key DependencyBuildContaminatedBy = true →
      ∀ db, quietWorld.store.dependencyBuild quietAbr.Namespace value = some db →
        db.Status.State ≠ DependencyBuildStateContaminated := by
  intro key value hmem hp db hdb
  simp only [quietAbr, List.mem_cons, Prod.mk.injEq, List.mem_singleton, List.mem_nil_iff,
    or_false] at hmem
  rcases hmem with ⟨hk, _⟩ | ⟨_, hv⟩ | ⟨_, hv⟩
  · subst hk
    exact absurd hp (by decide)
  · subst hv
    have : quietWorld.store.dependencyBuild quietAbr.Namespace "gone" = none := by decide
    rw [this] at hdb
    cases hdb
  · subst hv
    have : quietWorld.store.dependencyBuild quietAbr.Namespace "db2" = some db2 := by decide
    rw [this] at hdb
    cases hdb
    decide

theorem complete_skips_without_write_witness :
    ((handleStateComplete quietWorld quietAbr).1 = .ok { RequeueAfter := 0 } ∧
      (handleStateComplete quietWorld quietAbr).2.store = quietWorld.store ∧
      ((handleStateComplete quietWorld quietAbr).2.callsSince
        quietWorld.calls.length).filter Call.isWrite = []) ∧
    quietWorld.store.dependencyBuild "ns" "db1" = some db1 ∧
    db1.Status.State = DependencyBuildStateContaminated :=
  ⟨(complete_skips_without_write quietWorld quietAbr).2 quietAbr_names_no_contaminated,
   by decide, by decide⟩

theorem foldl_last_of_none {α β : Type} (p : β → Prop) [DecidablePred p] (v : β → α)
    (rs : List β) (x : α) (h : ∀ r ∈ rs, ¬ p r) :
    rs.foldl (fun acc r => if p r then v r else acc) x = x := by
  induction rs generalizing x with
  | nil => rfl
  | cons r rs ih =>
    simp only [List.foldl_cons, h r (by simp), if_false]
    exact ih x (fun r' hr' => h r' (List.mem_cons_of_mem _ hr'))

/-- A field all of whose results carry the value `c`, with at least one result, ends
with `c`. -/
theorem foldl_last_const {α β : Type} (p : β → Prop) [DecidablePred p] (v : β → α)
    (rs : List β) (x c : α) (hex : ∃ r ∈ rs, p r) (hall : ∀ r ∈ rs, p r → v r = c) :
    rs.foldl (fun acc r => if p r then v r else acc) x = c := by
  induction rs generalizing x with
  | nil => simp at hex
  | cons r rs ih =>
    simp only [List.foldl_cons]
    by_cases hrest : ∃ r' ∈ rs, p r'
    · exact ih _ hrest (fun r' hr' => hall r' (List.mem_cons_of_mem _ hr'))
    · have hr : p r := by
        obtain ⟨r', hr', hp'⟩ := hex
        rcases List.mem_cons.1 hr' with h | h
        · rw [← h]; exact hp'
        · exact absurd ⟨r', h, hp'⟩ hrest
      rw [foldl_last_of_none p v rs _ (fun r' hr' hp' => hrest ⟨r', hr', hp'⟩)]
      simp [hr, hall r (by simp) hr]

/-- The run of `handleStateDiscovering` when the tag read off the task is empty. -/
theorem handleStateDiscovering_missing (w : World) (abr : ArtifactBuild) (tr : TaskRun)
    (hfaults : w.faults = [])
    (hstored : w.store.artifactBuild abr.Namespace abr.Name = some abr)
    (htask : mostRecent TaskRun.CreationTimestamp (w.store.discoveryTasks abr) = some tr)
    (hdone : tr.Status.CompletionTime ≠ none)
    (htag : (withResults abr tr).Status.SCMInfo.Tag = "") :
    handleStateDiscovering w abr =
      (.ok {}, (w.Eventf EventTypeWarning "MissingTag").after
        [.ListTaskRuns abr.Namespace ArtifactBuildIdLabel (ABRLabelForGAV abr.Spec.GAV),
         .StatusUpdateArtifactBuild ((withResults abr tr).setState ArtifactBuildStateMissing)]
        (w.store.putArtifactBuildStatus
          ((withResults abr tr).setState ArtifactBuildStateMissing))) := by
  obtain ⟨hn, hns, hu, hsp, ha⟩ := withResults_meta abr tr
  have hhas : w.store.hasArtifactBuild abr.Namespace abr.Name = true :=
    hasArtifactBuild_of_stored _ _ _ _ hstored
  generalize hx : withResults abr tr = abr' at *
  have hres : List.foldl applyResult abr tr.Status.TaskRunResults = abr' := hx
  simp only [handleStateDiscovering, listTaskRuns_of_no_faults w abr hfaults, htask, if_neg hdone,
    hres, if_pos htag]
  rw [statusUpdateArtifactBuild_of_no_faults _ _ (by simpa using hfaults)
    (by simpa [ArtifactBuild.setState, hn, hns] using hhas)]
  simp [World.after, World.logged, World.Eventf]

/-- C8: the selected discovery task has completed and its result `scm-tag` is the empty
string (store calls succeeding): `handleStateDiscovering` returns without error, the
stored state is `Missing`, and the handler issues one task lookup and one status update
of the `ArtifactBuild`: no lookup, create or update of a `DependencyBuild`. -/
theorem empty_tag_gives_missing (w : World) (abr : ArtifactBuild) (tr : TaskRun)
    (hfaults : w.faults = [])
    (hstored : w.store.artifactBuild abr.Namespace abr.Name = some abr)
    (htask : mostRecent TaskRun.CreationTimestamp (w.store.discoveryTasks abr) = some tr)
    (hdone : tr.Status.CompletionTime ≠ none)
    (hres : ∃ r ∈ tr.Status.TaskRunResults, r.Name = TaskResultScmTag)
    (hempty : ∀ r ∈ tr.Status.TaskRunResults, r.Name = TaskResultScmTag → r.Value = "") :
    (handleStateDiscovering w abr).1 = .ok {} ∧
    (handleStateDiscovering w abr).2.store.stateOf abr.Namespace abr.Name =
      some ArtifactBuildStateMissing ∧
    (handleStateDiscovering w abr).2.callsSince w.calls.length =
      [.ListTaskRuns abr.Namespace ArtifactBuildIdLabel (ABRLabelForGAV abr.Spec.GAV),
       .StatusUpdateArtifactBuild ((withResults abr tr).setState ArtifactBuildStateMissing)] ∧
    ((handleStateDiscovering w abr).2.callsSince w.calls.length).filter
      Call.isDependencyBuildLookup = [] ∧
    ((handleStateDiscovering w abr).2.callsSince w.calls.length).filter
      Call.isDependencyBuildCreate = [] ∧
    ((handleStateDiscovering w abr).2.callsSince w.calls.length).filter
      Call.isDependencyBuildUpdate = [] ∧
    (handleStateDiscovering w abr).2.store.DependencyBuilds = w.store.DependencyBuilds := by
  obtain ⟨hn, hns, _, _, _⟩ := withResults_meta abr tr
  have htag : (withResults abr tr).Status.SCMInfo.Tag = "" := by
    rw [(withResults_scm abr tr).2.1]
    exact foldl_last_const _ _ _ _ _ hres hempty
  rw [handleStateDiscovering_missing w abr tr hfaults hstored htask hdone htag]
  have hcalls : ((w.Eventf EventTypeWarning "MissingTag").after
      [.ListTaskRuns abr.Namespace ArtifactBuildIdLabel (ABRLabelForGAV abr.Spec.GAV),
       .StatusUpdateArtifactBuild ((withResults abr tr).setState ArtifactBuildStateMissing)]
      (w.store.putArtifactBuildStatus
        ((withResults abr tr).setState ArtifactBuildStateMissing))).callsSince w.calls.length
      = [.ListTaskRuns abr.Namespace ArtifactBuildIdLabel (ABRLabelForGAV abr.Spec.GAV),
         .StatusUpdateArtifactBuild
           ((withResults abr tr).setState ArtifactBuildStateMissing)] := by
    simp [World.callsSince]
  refine ⟨rfl, ?_, hcalls, ?_, ?_, ?_, rfl⟩
  · unfold Store.stateOf
    rw [after_store, artifactBuild_putArtifactBuildStatus w.store
      ((withResults abr tr).setState ArtifactBuildStateMissing) abr abr.Namespace abr.Name
      hns hn hstored]
    rfl
  · rw [hcalls]; rfl
  · rw [hcalls]; rfl
  · rw [hcalls]; rfl

theorem empty_tag_gives_missing_witness :
    (handleStateDiscovering untaggedWorld exampleAbr).1 = .ok {} ∧
    (handleStateDiscovering untaggedWorld exampleAbr).2.store.stateOf
      exampleAbr.Namespace exampleAbr.Name = some ArtifactBuildStateMissing ∧
    (handleStateDiscovering untaggedWorld exampleAbr).2.callsSince untaggedWorld.calls.length =
      [.ListTaskRuns exampleAbr.Namespace ArtifactBuildIdLabel
         (ABRLabelForGAV exampleAbr.Spec.GAV),
       .StatusUpdateArtifactBuild
         ((withResults exampleAbr untaggedTask).setState ArtifactBuildStateMissing)] ∧
    ((handleStateDiscovering untaggedWorld exampleAbr).2.callsSince
      untaggedWorld.calls.length).filter Call.isDependencyBuildLookup = [] ∧
    ((handleStateDiscovering untaggedWorld exampleAbr).2.callsSince
      untaggedWorld.calls.length).filter Call.isDependencyBuildCreate = [] ∧
    ((handleStateDiscovering untaggedWorld exampleAbr).2.callsSince
      untaggedWorld.calls.length).filter Call.isDependencyBuildUpdate = [] ∧
    (handleStateDiscovering untaggedWorld exampleAbr).2.store.DependencyBuilds =
      untaggedWorld.store.DependencyBuilds :=
  empty_tag_gives_missing untaggedWorld exampleAbr untaggedTask
    (by decide) (by decide) (by decide!) (by decide) (by decide) (by decide)

/-- The run of `handleStateBuilding` when the lookup finds no build. -/
theorem handleStateBuilding_orphan (w : World) (abr : ArtifactBuild)
    (hfaults : w.faults = [])
    (hstored : w.store.artifactBuild abr.Namespace abr.Name = some abr)
    (hnone : w.store.lookup abr.Namespace (depIdOf abr) = []) :
    handleStateBuilding w abr =
      (.ok {}, (w.Eventf EventTypeWarning "MissingDependencyBuild").after
        [.ListDependencyBuilds abr.Namespace DependencyBuildIdLabel (depIdOf abr),
         .StatusUpdateArtifactBuild (abr.setState ArtifactBuildStateNew)]
        (w.store.putArtifactBuildStatus (abr.setState ArtifactBuildStateNew))) := by
  have hhas : w.store.hasArtifactBuild abr.Namespace abr.Name = true :=
    hasArtifactBuild_of_stored _ _ _ _ hstored
  simp only [handleStateBuilding, listDependencyBuilds_of_no_faults _ _ _ hfaults, hnone,
    List.length_nil, if_true]
  rw [statusUpdateArtifactBuild_of_no_faults _ _ (by simpa using hfaults)
    (by simpa [ArtifactBuild.setState] using hhas)]
  simp [World.after, World.logged, World.Eventf]

/-- C9: an `ArtifactBuild` in state `Building` whose lookup for
`hashString(SCMURL + Tag + Path)` of its stored `SCMInfo` returns no build (store calls
succeeding): `handleStateBuilding` returns without error, the stored state is `New`, and
no `DependencyBuild` is created or updated. -/
theorem building_without_build_gives_new (w : World) (abr : ArtifactBuild)
    (hfaults : w.faults = [])
    (hstored : w.store.artifactBuild abr.Namespace abr.Name = some abr)
    (hstate : abr.Status.State = ArtifactBuildStateBuilding)
    (hnone : w.store.lookup abr.Namespace
      (hashString (abr.Status.SCMInfo.SCMURL ++ abr.Status.SCMInfo.Tag ++
        abr.Status.SCMInfo.Path)) = []) :
    (handleStateBuilding w abr).1 = .ok {} ∧
    w.store.stateOf abr.Namespace abr.Name = some ArtifactBuildStateBuilding ∧
    (handleStateBuilding w abr).2.store.stateOf abr.Namespace abr.Name =
      some ArtifactBuildStateNew ∧
    (handleStateBuilding w abr).2.callsSince w.calls.length =
      [.ListDependencyBuilds abr.Namespace DependencyBuildIdLabel
         (hashString (abr.Status.SCMInfo.SCMURL ++ abr.Status.SCMInfo.Tag ++
           abr.Status.SCMInfo.Path)),
       .StatusUpdateArtifactBuild (abr.setState ArtifactBuildStateNew)] ∧
    ((handleStateBuilding w abr).2.callsSince w.calls.length).filter
      Call.isDependencyBuildWrite = [] ∧
    (handleStateBuilding w abr).2.store.DependencyBuilds = w.store.DependencyBuilds := by
  rw [handleStateBuilding_orphan w abr hfaults hstored hnone]
  have hcalls : ((w.Eventf EventTypeWarning "MissingDependencyBuild").after
      [.ListDependencyBuilds abr.Namespace DependencyBuildIdLabel (depIdOf abr),
       .StatusUpdateArtifactBuild (abr.setState ArtifactBuildStateNew)]
      (w.store.putArtifactBuildStatus (abr.setState ArtifactBuildStateNew))).callsSince
        w.calls.length
      = [.ListDependencyBuilds abr.Namespace DependencyBuildIdLabel (depIdOf abr),
         .StatusUpdateArtifactBuild (abr.setState ArtifactBuildStateNew)] := by
    simp [World.callsSince]
  refine ⟨rfl, ?_, ?_, hcalls, ?_, rfl⟩
  · simp [Store.stateOf, hstored, hstate]
  · unfold Store.stateOf
    rw [after_store, artifactBuild_putArtifactBuildStatus w.store
      (abr.setState ArtifactBuildStateNew) abr abr.Namespace abr.Name rfl rfl hstored]
    rfl
  · rw [hcalls]; rfl

theorem building_without_build_gives_new_witness :
    (handleStateBuilding orphanWorld buildingAbr).1 = .ok {} ∧
    orphanWorld.store.stateOf buildingAbr.Namespace buildingAbr.Name =
      some ArtifactBuildStateBuilding ∧
    (handleStateBuilding orphanWorld buildingAbr).2.store.stateOf
      buildingAbr.Namespace buildingAbr.Name = some ArtifactBuildStateNew ∧
    (handleStateBuilding orphanWorld buildingAbr).2.callsSince orphanWorld.calls.length =
      [.ListDependencyBuilds buildingAbr.Namespace DependencyBuildIdLabel
         (hashString (buildingAbr.Status.SCMInfo.SCMURL ++ buildingAbr.Status.SCMInfo.Tag ++
           buildingAbr.Status.SCMInfo.Path)),
       .StatusUpdateArtifactBuild (buildingAbr.setState ArtifactBuildStateNew)] ∧
    ((handleStateBuilding orphanWorld buildingAbr).2.callsSince
      orphanWorld.calls.length).filter Call.isDependencyBuildWrite = [] ∧
    (handleStateBuilding orphanWorld buildingAbr).2.store.DependencyBuilds =
      orphanWorld.store.DependencyBuilds :=
  building_without_build_gives_new orphanWorld buildingAbr
    (by decide) (by decide) (by decide) (by decide)

theorem stringsIndex_nonneg_of_mem (sep : Char) (l : List Char) (h : sep ∈ l) :
    0 ≤ stringsIndex sep l := by
  induction l with
  | nil => simp at h
  | cons c rest ih =>
    unfold stringsIndex
    by_cases hc : c = sep
    · simp [hc]
    · have hrest : sep ∈ rest := by
        rcases List.mem_cons.1 h with h1 | h1
        · exact absurd h1.symm hc
        · exact h1
      have := ih hrest
      rw [if_neg hc, if_neg (by omega)]
      omega

/-- The slice `gav[strings.Index(gav, ":")+1:]` is the substring after the first colon. -/
theorem drop_stringsIndex (l : List Char) (h : ':' ∈ l) :
    l.drop (stringsIndex ':' l + 1).toNat = afterFirstColon l := by
  induction l with
  | nil => simp at h
  | cons c rest ih =>
    unfold stringsIndex afterFirstColon
    by_cases hc : c = ':'
    · simp [hc]
    · have hrest : ':' ∈ rest := by
        rcases List.mem_cons.1 h with h1 | h1
        · exact absurd h1.symm hc
        · exact h1
      have hnn := stringsIndex_nonneg_of_mem ':' rest hrest
      rw [if_neg hc, if_neg hc, if_neg (by omega)]
      have : (stringsIndex ':' rest + 1 + 1).toNat = (stringsIndex ':' rest + 1).toNat + 1 := by
        omega
      rw [this, List.drop_succ_cons]
      exact ih hrest

theorem foldl_nameStep_append (u : UnicodeTables) (l : List Char) (acc : List Char)
    (ld : Bool) :
    l.foldl (nameStep u) (acc, ld) =
      (acc ++ (l.foldl (nameStep u) ([], ld)).1, (l.foldl (nameStep u) ([], ld)).2) := by
  induction l generalizing acc ld with
  | nil => simp
  | cons c rest ih =>
    simp only [List.foldl_cons]
    rw [ih (nameStep u (acc, ld) c).1 (nameStep u (acc, ld) c).2,
      ih (nameStep u ([], ld) c).1 (nameStep u ([], ld) c).2]
    unfold nameStep
    by_cases h : (IsLetter u c || IsDigit u c) = true
    · simp [h]
    · cases ld <;> simp [h]

theorem sanitizeFrom_nil (u : UnicodeTables) (ld : Bool) : sanitizeFrom u ld [] = [] := rfl

theorem sanitizeFrom_cons_alnum (u : UnicodeTables) (ld : Bool) (c : Char) (rest : List Char)
    (h : isAlnum u c = true) :
    sanitizeFrom u ld (c :: rest) = c :: sanitizeFrom u false rest := by
  unfold sanitizeFrom
  rw [List.foldl_cons, foldl_nameStep_append]
  unfold isAlnum at h
  simp [nameStep, h]

theorem sanitizeFrom_cons_other (u : UnicodeTables) (ld : Bool) (c : Char) (rest : List Char)
    (h : isAlnum u c = false) :
    sanitizeFrom u ld (c :: rest) =
      (if ld then [] else ['.']) ++ sanitizeFrom u true rest := by
  unfold sanitizeFrom
  rw [List.foldl_cons, foldl_nameStep_append]
  unfold isAlnum at h
  cases ld <;> simp [nameStep, h]

theorem splitBy_loop_append {α : Type} (R : α → α → Bool) (l : List α) (a : α) (g : List α)
    (gs : List (List α)) :
    List.splitBy.loop R l a g gs = gs.reverse ++ List.splitBy.loop R l a g [] := by
  induction l generalizing a g gs with
  | nil => simp [List.splitBy.loop]
  | cons b l ih =>
    simp only [List.splitBy.loop]
    cases R a b
    · rw [ih b [] ((a :: g).reverse :: gs), ih b [] [(a :: g).reverse]]
      simp
    · exact ih b (a :: g) gs

/-- What `replaceRuns` does with one run whose characters are all of one kind. -/
theorem replaceRun_uniform (u : UnicodeTables) (run : List Char) (k : Bool)
    (hne : run ≠ []) (hall : ∀ x ∈ run, isAlnum u x = k) :
    replaceRun u run = if k then run else ['.'] := by
  cases run with
  | nil => exact absurd rfl hne
  | cons c rest =>
    unfold replaceRun
    simp only
    rw [hall c (by simp)]

/-- The runs of `ag :: g` reversed followed by `l`, with dots for the runs that are neither
letters nor digits, against the loop of `CreateABRName`. -/
theorem replaceRuns_loop (u : UnicodeTables) (l : List Char) (ag : Char) (g : List Char)
    (hall : ∀ x ∈ g, isAlnum u x = isAlnum u ag) :
    (List.splitBy.loop (fun a b => isAlnum u a == isAlnum u b) l ag g []).flatMap
      (replaceRun u) =
    if isAlnum u ag then g.reverse ++ [ag] ++ sanitizeFrom u false l
    else ['.'] ++ sanitizeFrom u true l := by
  induction l generalizing ag g with
  | nil =>
    simp only [List.splitBy.loop, List.reverse_nil, List.nil_append, List.reverse_cons,
      List.flatMap_cons, List.flatMap_nil, List.append_nil, sanitizeFrom_nil]
    rw [← List.reverse_cons]
    rw [replaceRun_uniform u (ag :: g).reverse (isAlnum u ag) (by simp)
      (by
        intro x hx
        rw [List.mem_reverse, List.mem_cons] at hx
        rcases hx with h | h
        · rw [h]
        · exact hall x h)]
  | cons a as ih =>
    simp only [List.splitBy.loop]
    by_cases hR : isAlnum u ag = isAlnum u a
    · have hR' : (isAlnum u ag == isAlnum u a) = true := by simp [hR]
      rw [hR']
      simp only
      rw [ih a (ag :: g) (by
        intro x hx
        rw [List.mem_cons] at hx
        rcases hx with h | h
        · rw [h, hR]
        · rw [hall x h, hR])]
      cases hk : isAlnum u a
      · rw [hk] at hR
        simp [hR, sanitizeFrom_cons_other u true a as hk]
      · rw [hk] at hR
        simp [hR, sanitizeFrom_cons_alnum u false a as hk]
    · have hR' : (isAlnum u ag == isAlnum u a) = false := by simp [hR]
      rw [hR']
      simp only
      rw [splitBy_loop_append, List.flatMap_append, ih a [] (by simp)]
      simp only [List.reverse_cons, List.reverse_nil, List.nil_append, List.flatMap_cons,
        List.flatMap_nil, List.append_nil]
      rw [replaceRun_uniform u (g.reverse ++ [ag]) (isAlnum u ag) (by simp)
        (by
          intro x hx
          rw [List.mem_append, List.mem_reverse, List.mem_singleton] at hx
          rcases hx with h | h
          · exact hall x h
          · rw [h])]
      cases hk : isAlnum u a
      · have hag : isAlnum u ag = true := by
          cases hg : isAlnum u ag
          · rw [hg, hk] at hR; exact absurd rfl hR
          · rfl
        simp [hag, sanitizeFrom_cons_other u false a as hk]
      · have hag : isAlnum u ag = false := by
          cases hg : isAlnum u ag
          · rfl
          · rw [hg, hk] at hR; exact absurd rfl hR
        simp [hag, sanitizeFrom_cons_alnum u true a as hk]

/-- The loop of `CreateABRName` replaces every maximal run of characters that are
neither letters nor digits by one dot. -/
theorem sanitizeFrom_eq_replaceRuns (u : UnicodeTables) (s : List Char) :
    sanitizeFrom u false s = replaceRuns u s := by
  unfold replaceRuns maximalRuns
  cases s with
  | nil => rfl
  | cons a as =>
    simp only [List.splitBy]
    rw [replaceRuns_loop u as a [] (by simp)]
    cases hk : isAlnum u a
    · simp [sanitizeFrom_cons_other u false a as hk]
    · simp [sanitizeFrom_cons_alnum u false a as hk]

theorem hexDigit_cases (n : Nat) :
    hexDigit n ∈ ['0', '1', '2', '3', '4', '5', '6', '7', '8', '9', 'a', 'b', 'c', 'd', 'e', 'f'] := by
  unfold hexDigit
  by_cases h : n < 16
  · interval_cases n <;> decide
  · rw [List.getD_eq_default _ _ (by simpa using h)]
    decide

theorem toLower_hexDigit (u : UnicodeTables) (n : Nat) : ToLower u (hexDigit n) = hexDigit n := by
  have h := hexDigit_cases n
  simp only [List.mem_cons, List.mem_singleton, List.mem_nil_iff, or_false] at h
  rcases h with h | h | h | h | h | h | h | h | h | h | h | h | h | h | h | h <;>
    (rw [h]; rfl)

theorem isLowerHex_hexDigit (n : Nat) : isLowerHex (hexDigit n) = true := by
  have h := hexDigit_cases n
  simp only [List.mem_cons, List.mem_singleton, List.mem_nil_iff, or_false] at h
  rcases h with h | h | h | h | h | h | h | h | h | h | h | h | h | h | h | h <;>
    (rw [h]; decide)

theorem mem_hexEncodeToString (bs : List Nat) (c : Char) (h : c ∈ (hexEncodeToString bs).data) :
    ∃ n, c = hexDigit n := by
  unfold hexEncodeToString at h
  simp only [List.mem_flatMap, hexByte, List.mem_cons, List.mem_singleton, List.mem_nil_iff,
    or_false] at h
  obtain ⟨b, _, hb | hb⟩ := h
  · exact ⟨_, hb⟩
  · exact ⟨_, hb⟩

theorem length_beBytes (k n : Nat) : (beBytes k n).length = k := by
  induction k with
  | zero => rfl
  | succ k ih => simp [beBytes, ih]

theorem length_hexEncodeToString (bs : List Nat) :
    (hexEncodeToString bs).data.length = 2 * bs.length := by
  unfold hexEncodeToString
  induction bs with
  | nil => rfl
  | cons b bs ih =>
    simp only [List.flatMap_cons, List.length_append, List.length_cons, ih, hexByte,
      List.length_nil]
    omega

theorem length_sha1Sum (bytes : List Nat) : (sha1Sum bytes).length = 20 := by
  simp [sha1Sum, length_beBytes]

/-- The hash part of a name: eight lower-case hexadecimal digits. -/
theorem hashPart_spec (gav : String) :
    (hashPart gav).length = 8 ∧ (∀ c ∈ hashPart gav, isLowerHex c = true) ∧
      ∀ u : UnicodeTables, (hashPart gav).map (ToLower u) = hashPart gav := by
  have hmem : ∀ c ∈ hashPart gav, ∃ n, c = hexDigit n := fun c hc =>
    mem_hexEncodeToString _ c (List.mem_of_mem_take hc)
  have hfix : ∀ u : UnicodeTables, (hashPart gav).map (ToLower u) = hashPart gav := by
    intro u
    conv_rhs => rw [← List.map_id (hashPart gav)]
    apply List.map_congr_left
    intro c hc
    obtain ⟨n, hn⟩ := hmem c hc
    rw [hn, toLower_hexDigit]
    rfl
  refine ⟨?_, ?_, hfix⟩
  · unfold hashPart
    rw [List.length_take, length_hexEncodeToString, length_sha1Sum]
    rfl
  · intro c hc
    obtain ⟨n, hn⟩ := hmem c hc
    rw [hn]
    exact isLowerHex_hexDigit n

theorem isAlnum_dot (u : UnicodeTables) : isAlnum u '.' = false := by
  rfl

/-- The loop of `CreateABRName` writes no two dots in a row, and no dot first when
`lastDot` is set. -/
theorem sanitizeFrom_dots (u : UnicodeTables) (s : List Char) (ld : Bool) :
    hasTwoDots (sanitizeFrom u ld s) = false ∧
      (ld = true → (sanitizeFrom u ld s).head? ≠ some '.') := by
  induction s generalizing ld with
  | nil => simp [sanitizeFrom_nil, hasTwoDots]
  | cons c rest ih =>
    cases hk : isAlnum u c
    · rw [sanitizeFrom_cons_other u ld c rest hk]
      obtain ⟨h1, h2⟩ := ih true
      cases ld
      · refine ⟨?_, by simp⟩
        simp only [Bool.false_eq_true, if_false, List.singleton_append]
        cases hx : sanitizeFrom u true rest with
        | nil => simp [hasTwoDots]
        | cons x xs =>
          rw [hx] at h1 h2
          have hxd : x ≠ '.' := by
            intro h
            apply h2 rfl
            simp [h]
          simp [hasTwoDots, hxd, h1]
      · simpa using ⟨h1, h2 rfl⟩
    · rw [sanitizeFrom_cons_alnum u ld c rest hk]
      have hc : c ≠ '.' := by
        intro h
        rw [h, isAlnum_dot] at hk
        cases hk
      obtain ⟨h1, _⟩ := ih false
      refine ⟨?_, by simp [hc]⟩
      cases hx : sanitizeFrom u false rest with
      | nil => simp [hasTwoDots]
      | cons x xs =>
        rw [hx] at h1
        simp [hasTwoDots, hc, h1]

/-- The name `CreateABRName` returns, for every input: the loop output lower-cased, a
dash, the hash part. -/
theorem CreateABRName_eq (u : UnicodeTables) (gav : String) :
    CreateABRName u gav =
      ⟨(sanitizeFrom u false (gav.data.drop (stringsIndex ':' gav.data + 1).toNat)).map
        (ToLower u) ++ ['-'] ++ hashPart gav⟩ := by
  unfold CreateABRName stringsToLower
  simp only [List.map_append, List.map_cons, List.map_nil]
  have hdash : ToLower u '-' = '-' := rfl
  have hhash := (hashPart_spec gav).2.2 u
  unfold hashPart at hhash ⊢
  rw [hhash, hdash]
  rfl

/-- C10: for every `gav` with a colon, `CreateABRName` returns the name the specification
describes: the substring after the first colon with every maximal run of characters that
are neither letters nor digits replaced by one dot, lower-cased, then a dash and the first
eight hexadecimal digits of the SHA-1 digest of the whole `gav`. The sanitized part has no
two dots in a row, the hash part is eight lower-case hexadecimal digits, and
`org.foo:bar:1.2.3` gives `bar.1.2.3-2db6de0c`. -/
theorem CreateABRName_refines_spec (u : UnicodeTables) (gav : String)
    (hcolon : ':' ∈ gav.data) :
    CreateABRName u gav = generateResourceName u gav ∧
    hasTwoDots (replaceRuns u (afterFirstColon gav.data)) = false ∧
    (hashPart gav).length = 8 ∧
    (∀ c ∈ hashPart gav, isLowerHex c = true) ∧
    CreateABRName u "org.foo:bar:1.2.3" = "bar.1.2.3-2db6de0c" := by
  refine ⟨?_, ?_, (hashPart_spec gav).1, (hashPart_spec gav).2.1, ?_⟩
  · rw [CreateABRName_eq, drop_stringsIndex gav.data hcolon, sanitizeFrom_eq_replaceRuns]
    rfl
  · rw [← sanitizeFrom_eq_replaceRuns]
    exact (sanitizeFrom_dots u _ false).1
  · have h1 : hashPart "org.foo:bar:1.2.3" = "2db6de0c".data := by decide!
    rw [CreateABRName_eq, h1]
    rfl

theorem CreateABRName_refines_spec_witness :
    CreateABRName noTables "org.foo:bar:1.2.3" =
      generateResourceName noTables "org.foo:bar:1.2.3" ∧
    hasTwoDots (replaceRuns noTables (afterFirstColon "org.foo:bar:1.2.3".data)) = false ∧
    (hashPart "org.foo:bar:1.2.3").length = 8 ∧
    (∀ c ∈ hashPart "org.foo:bar:1.2.3", isLowerHex c = true) ∧
    CreateABRName noTables "org.foo:bar:1.2.3" = "bar.1.2.3-2db6de0c" :=
  CreateABRName_refines_spec noTables "org.foo:bar:1.2.3" (by decide)

theorem mostRecent_isSome_of_ne_nil {α : Type} (ts : α → Nat) (items : List α)
    (h : items ≠ []) : ∃ x, mostRecent ts items = some x := by
  rw [mostRecent_eq_getLast?]
  cases hx : items.getLast? with
  | none => exact absurd (List.getLast?_eq_none_iff.1 hx) h
  | some x => exact ⟨x, rfl⟩

/-- The lookup `handleStateBuilding` issues, whatever it returns. -/
theorem building_lookup_call (w : World) (abr : ArtifactBuild)
    (hfaults : w.faults = [])
    (hstored : w.store.artifactBuild abr.Namespace abr.Name = some abr) :
    ((handleStateBuilding w abr).2.callsSince w.calls.length).filter
      Call.isDependencyBuildLookup =
      [.ListDependencyBuilds abr.Namespace DependencyBuildIdLabel (depIdOf abr)] := by
  by_cases hnone : w.store.lookup abr.Namespace (depIdOf abr) = []
  · rw [handleStateBuilding_orphan w abr hfaults hstored hnone]
    simp [World.callsSince, Call.isDependencyBuildLookup]
  · obtain ⟨recent, hsel⟩ := mostRecent_isSome_of_ne_nil DependencyBuild.CreationTimestamp _ hnone
    rw [handleStateBuilding_existing w abr recent hfaults hstored hsel, callsSince_after]
    have h1 : (attachCalls abr recent).filter Call.isDependencyBuildLookup = [] := by
      unfold attachCalls
      split_ifs <;> simp [Call.isDependencyBuildLookup]
    have h2 : (statusCalls abr (buildingState recent.Status.State)).filter
        Call.isDependencyBuildLookup = [] := by
      cases buildingState recent.Status.State <;>
        simp [statusCalls, Call.isDependencyBuildLookup]
    simp [List.filter_append, h1, h2, Call.isDependencyBuildLookup]

/-- The lookup `handleStateDiscovering` issues once the task gave a tag, whatever it
returns. -/
theorem discovering_lookup_call (w : World) (abr : ArtifactBuild) (tr : TaskRun)
    (hfaults : w.faults = [])
    (hstored : w.store.artifactBuild abr.Namespace abr.Name = some abr)
    (htask : mostRecent TaskRun.CreationTimestamp (w.store.discoveryTasks abr) = some tr)
    (hdone : tr.Status.CompletionTime ≠ none)
    (htag : (withResults abr tr).Status.SCMInfo.Tag ≠ "") :
    ((handleStateDiscovering w abr).2.callsSince w.calls.length).filter
      Call.isDependencyBuildLookup =
      [.ListDependencyBuilds abr.Namespace DependencyBuildIdLabel
        (depIdOf (withResults abr tr))] := by
  by_cases hnone : w.store.lookup abr.Namespace (depIdOf (withResults abr tr)) = []
  · rw [handleStateDiscovering_create w abr tr hfaults hstored htask hdone htag hnone]
    simp [World.callsSince, Call.isDependencyBuildLookup]
  · obtain ⟨recent, hsel⟩ := mostRecent_isSome_of_ne_nil DependencyBuild.CreationTimestamp _ hnone
    rw [handleStateDiscovering_existing w abr tr recent hfaults hstored htask hdone htag hsel,
      callsSince_after]
    have h1 : (attachCalls abr recent).filter Call.isDependencyBuildLookup = [] := by
      unfold attachCalls
      split_ifs <;> simp [Call.isDependencyBuildLookup]
    simp [List.filter_append, h1, Call.isDependencyBuildLookup]

/-- C12: the source-identity key is `hashString` of the plain concatenation
`SCMURL ++ Tag ++ Path`. `handleStateDiscovering` (for the `SCMInfo` the task results give)
and `handleStateBuilding` (for the stored `SCMInfo`) issue their lookup with that key, the
same key for the same `SCMInfo`; triples with equal concatenation have equal keys, as the
two resolutions of `https://example/repo` at `v1` and the triples `ab,c` and `a,bc`; and
`ABRLabelForGAV` is `hashString`. -/
theorem source_identity_key_shared (w1 w2 : World) (abr1 abr2 : ArtifactBuild) (tr : TaskRun)
    (u1 t1 p1 u2 t2 p2 g : String)
    (hfaults1 : w1.faults = [])
    (hstored1 : w1.store.artifactBuild abr1.Namespace abr1.Name = some abr1)
    (htask : mostRecent TaskRun.CreationTimestamp (w1.store.discoveryTasks abr1) = some tr)
    (hdone : tr.Status.CompletionTime ≠ none)
    (htag : (withResults abr1 tr).Status.SCMInfo.Tag ≠ "")
    (hfaults2 : w2.faults = [])
    (hstored2 : w2.store.artifactBuild abr2.Namespace abr2.Name = some abr2)
    (hsame : (withResults abr1 tr).Status.SCMInfo = abr2.Status.SCMInfo)
    (hcat : u1 ++ t1 ++ p1 = u2 ++ t2 ++ p2) :
    ((handleStateDiscovering w1 abr1).2.callsSince w1.calls.length).filter
      Call.isDependencyBuildLookup =
      [.ListDependencyBuilds abr1.Namespace DependencyBuildIdLabel
        (hashString (abr2.Status.SCMInfo.SCMURL ++ abr2.Status.SCMInfo.Tag ++
          abr2.Status.SCMInfo.Path))] ∧
    ((handleStateBuilding w2 abr2).2.callsSince w2.calls.length).filter
      Call.isDependencyBuildLookup =
      [.ListDependencyBuilds abr2.Namespace DependencyBuildIdLabel
        (hashString (abr2.Status.SCMInfo.SCMURL ++ abr2.Status.SCMInfo.Tag ++
          abr2.Status.SCMInfo.Path))] ∧
    hashString (u1 ++ t1 ++ p1) = hashString (u2 ++ t2 ++ p2) ∧
    hashString ("https://example/repo" ++ "v1" ++ "") = hashString "https://example/repov1" ∧
    hashString ("ab" ++ "c" ++ "") = hashString ("a" ++ "bc" ++ "") ∧
    ABRLabelForGAV g = hashString g := by
  refine ⟨?_, ?_, by rw [hcat], rfl, rfl, rfl⟩
  · rw [discovering_lookup_call w1 abr1 tr hfaults1 hstored1 htask hdone htag,
      depIdOf_congr (withResults abr1 tr) abr2 hsame]
    rfl
  · rw [building_lookup_call w2 abr2 hfaults2 hstored2]
    rfl

theorem source_identity_key_shared_witness :
    ((handleStateDiscovering sharedWorld exampleAbr).2.callsSince
      sharedWorld.calls.length).filter Call.isDependencyBuildLookup =
      [.ListDependencyBuilds exampleAbr.Namespace DependencyBuildIdLabel
        (hashString (buildingAbr.Status.SCMInfo.SCMURL ++ buildingAbr.Status.SCMInfo.Tag ++
          buildingAbr.Status.SCMInfo.Path))] ∧
    ((handleStateBuilding completeBuildingWorld buildingAbr).2.callsSince
      completeBuildingWorld.calls.length).filter Call.isDependencyBuildLookup =
      [.ListDependencyBuilds buildingAbr.Namespace DependencyBuildIdLabel
        (hashString (buildingAbr.Status.SCMInfo.SCMURL ++ buildingAbr.Status.SCMInfo.Tag ++
          buildingAbr.Status.SCMInfo.Path))] ∧
    hashString ("ab" ++ "c" ++ "") = hashString ("a" ++ "bc" ++ "") ∧
    hashString ("https://example/repo" ++ "v1" ++ "") = hashString "https://example/repov1" ∧
    hashString ("ab" ++ "c" ++ "") = hashString ("a" ++ "bc" ++ "") ∧
    ABRLabelForGAV "org.foo:bar:1.2.3" = hashString "org.foo:bar:1.2.3" :=
  source_identity_key_shared sharedWorld completeBuildingWorld exampleAbr buildingAbr
    exampleTask "ab" "c" "" "a" "bc" "" "org.foo:bar:1.2.3"
    (by decide) (by decide) (by decide!) (by decide) (by decide)
    (by decide) (by decide) (by decide) (by decide)

/-- Below 128 the tables are not consulted. -/
theorem ascii_table_free (u : UnicodeTables) (c : Char) (h : c.toNat ≤ 127) :
    isAlnum u c = isAlnum noTables c ∧ ToLower u c = ToLower noTables c := by
  unfold isAlnum IsLetter IsDigit ToLower
  have h255 : c.toNat ≤ 255 := by omega
  simp only [h255, h, if_true]
  exact ⟨trivial, trivial⟩

/-- An ASCII letter or digit is lower-cased to a lower-case ASCII letter or digit. -/
theorem toLower_ascii_alnum (u : UnicodeTables) (c : Char) (h : c.toNat ≤ 127)
    (ha : isAlnum u c = true) : isLowerAlnum (ToLower u c) = true := by
  rw [(ascii_table_free u c h).2]
  rw [(ascii_table_free u c h).1] at ha
  have hc : c = Char.ofNat c.toNat := (Char.ofNat_toNat c).symm
  generalize c.toNat = n at h hc
  subst hc
  revert ha
  interval_cases n <;> decide

theorem isLowerAlnum_of_isLowerHex (c : Char) (h : isLowerHex c = true) :
    isLowerAlnum c = true := by
  unfold isLowerHex at h
  unfold isLowerAlnum
  simp only [Bool.or_eq_true, Bool.and_eq_true, decide_eq_true_eq] at h ⊢
  omega

/-- The loop of `CreateABRName` writes dots and the letters and digits of its input. -/
theorem mem_sanitizeFrom (u : UnicodeTables) (s : List Char) (ld : Bool) (x : Char)
    (h : x ∈ sanitizeFrom u ld s) : x = '.' ∨ (x ∈ s ∧ isAlnum u x = true) := by
  induction s generalizing ld with
  | nil => simp [sanitizeFrom_nil] at h
  | cons c rest ih =>
    cases hk : isAlnum u c
    · rw [sanitizeFrom_cons_other u ld c rest hk, List.mem_append] at h
      rcases h with h | h
      · left
        cases ld <;> simp at h
        exact h
      · rcases ih true h with h1 | ⟨h1, h2⟩
        · exact Or.inl h1
        · exact Or.inr ⟨List.mem_cons_of_mem _ h1, h2⟩
    · rw [sanitizeFrom_cons_alnum u ld c rest hk, List.mem_cons] at h
      rcases h with h | h
      · right
        rw [h]
        exact ⟨by simp, hk⟩
      · rcases ih false h with h1 | ⟨h1, h2⟩
        · exact Or.inl h1
        · exact Or.inr ⟨List.mem_cons_of_mem _ h1, h2⟩

/-- The characters of a generated name, for every input. -/
theorem CreateABRName_data (u : UnicodeTables) (gav : String) :
    (CreateABRName u gav).data =
      (sanitizeFrom u false (namePartOf gav)).map (ToLower u) ++ ['-'] ++ hashPart gav := by
  rw [CreateABRName_eq]
  rfl

/-- Every generated name ends with a lower-case ASCII letter or digit. -/
theorem CreateABRName_endsAlnum (u : UnicodeTables) (gav : String) :
    endsAlnum (CreateABRName u gav).data = true := by
  obtain ⟨hlen, hhex, _⟩ := hashPart_spec gav
  rw [CreateABRName_data]
  unfold endsAlnum
  have hne : hashPart gav ≠ [] := by
    intro h
    rw [h] at hlen
    cases hlen
  rw [List.getLast?_append_of_ne_nil _ hne]
  cases hx : (hashPart gav).getLast? with
  | none => exact absurd (List.getLast?_eq_none_iff.1 hx) hne
  | some c =>
    exact isLowerAlnum_of_isLowerHex c (hhex c (List.mem_of_getLast?_eq_some hx))

/-- C11 (counterexample): `CreateABRName` is not store-name-safe for every input. The
empty string gives a name that begins with a dash, a name part that begins with a dash
gives a name that begins with a dot, an empty name part gives a name that begins with a
dash, and a letter outside ASCII stays in the name. -/
theorem CreateABRName_unsafe_inputs :
    CreateABRName noTables "" = "-da39a3ee" ∧
    storeNameSafe (CreateABRName noTables "").data = false ∧
    CreateABRName noTables "org.foo:-bar" = ".bar-b1c48e19" ∧
    storeNameSafe (CreateABRName noTables "org.foo:-bar").data = false ∧
    CreateABRName noTables "org.foo:" = "-728620c7" ∧
    storeNameSafe (CreateABRName noTables "org.foo:").data = false ∧
    CreateABRName noTables "org.foo:café:1" = "café.1-cdb85be9" ∧
    storeNameSafe (CreateABRName noTables "org.foo:café:1").data = false ∧
    ¬ (∀ (u : UnicodeTables) (gav : String), storeNameSafe (CreateABRName u gav).data = true) := by
  refine ⟨by decide!, by decide!, by decide!, by decide!, by decide!, by decide!, by decide!,
    by decide!, ?_⟩
  intro h
  have h1 := h noTables ""
  have h2 : storeNameSafe (CreateABRName noTables "").data = false := by decide!
  rw [h2] at h1
  cases h1

/-- C11 (amended): when the part of `gav` after its first colon (the whole `gav` without a
colon) begins with a letter or digit and all its letters and digits are ASCII, the name
is store-name-safe: only lower-case ASCII letters, digits, dots and dashes, beginning
and ending with a letter or digit. For every `gav` the name ends with a dash and eight
lower-case hexadecimal digits, so it ends with a letter or digit. -/
theorem CreateABRName_safe_of_ascii (u : UnicodeTables) (gav : String) (c : Char)
    (rest : List Char)
    (hfirst : namePartOf gav = c :: rest)
    (hc : isAlnum u c = true)
    (hascii : ∀ x ∈ namePartOf gav, isAlnum u x = true → x.toNat ≤ 127) :
    storeNameSafe (CreateABRName u gav).data = true ∧
    (∀ (u1 : UnicodeTables) (gav1 : String),
      endsAlnum (CreateABRName u1 gav1).data = true ∧
      ∃ name, (CreateABRName u1 gav1).data = name ++ ['-'] ++ hashPart gav1 ∧
        (hashPart gav1).length = 8 ∧ ∀ x ∈ hashPart gav1, isLowerHex x = true) := by
  constructor
  · unfold storeNameSafe
    rw [Bool.and_eq_true, Bool.and_eq_true]
    refine ⟨⟨?_, ?_⟩, CreateABRName_endsAlnum u gav⟩
    · rw [CreateABRName_data, List.all_eq_true]
      intro x hx
      rw [List.mem_append, List.mem_append, List.mem_map] at hx
      rcases hx with (⟨y, hy, hxy⟩ | hx) | hx
      · rcases mem_sanitizeFrom u _ _ y hy with h | ⟨h1, h2⟩
        · rw [← hxy, h]
          rfl
        · have := toLower_ascii_alnum u y (hascii y h1 h2) h2
          rw [← hxy]
          simp [isNameChar, this]
      · rw [List.mem_singleton] at hx
        rw [hx]
        rfl
      · have := isLowerAlnum_of_isLowerHex x ((hashPart_spec gav).2.1 x hx)
        simp [isNameChar, this]
    · rw [CreateABRName_data, hfirst, sanitizeFrom_cons_alnum u false c rest hc]
      unfold beginsAlnum
      simp only [List.map_cons, List.cons_append, List.head?_cons]
      exact toLower_ascii_alnum u c (hascii c (by rw [hfirst]; simp) hc) hc
  · intro u1 gav1
    exact ⟨CreateABRName_endsAlnum u1 gav1, _, CreateABRName_data u1 gav1,
      (hashPart_spec gav1).1, (hashPart_spec gav1).2.1⟩

theorem CreateABRName_safe_of_ascii_witness :
    storeNameSafe (CreateABRName noTables "org.foo:Bar_baz:1.0-SNAPSHOT").data = true ∧
    CreateABRName noTables "org.foo:Bar_baz:1.0-SNAPSHOT" = "bar.baz.1.0.snapshot-ecce9253" :=
  ⟨(CreateABRName_safe_of_ascii noTables "org.foo:Bar_baz:1.0-SNAPSHOT" 'B'
      "ar_baz:1.0-SNAPSHOT".data (by decide) (by decide) (by decide)).1, by decide!⟩

theorem issue_spec (w : World) (c : Call) :
    (w.issue c).2.calls = w.calls ++ [c] ∧ (w.issue c).2.store = w.store ∧
    (w.issue c).2.faults = w.faults.tail ∧ (w.issue c).2.events = w.events ∧
    ((w.issue c).1 = true ↔ w.faults.head? = some true) := by
  unfold World.issue
  cases w.faults with
  | nil => simp
  | cons f rest => simp

theorem listTaskRuns_step (w : World) (ns label value : String) :
    StepSpec w (.ListTaskRuns ns label value) (listTaskRuns w ns label value) := by
  obtain ⟨h1, h2, h3, _, h5⟩ := issue_spec w (.ListTaskRuns ns label value)
  unfold StepSpec listTaskRuns
  rcases hi : w.issue (.ListTaskRuns ns label value) with ⟨f, w2⟩
  rw [hi] at h1 h2 h3 h5
  cases f
  · refine ⟨h1, Or.inr ⟨?_, by simp, by simpa [Store.apply] using h2, h3⟩⟩
    intro h; simpa using h5.2 h
  · exact ⟨h1, Or.inl ⟨h5.1 rfl, rfl, h2⟩⟩

theorem listDependencyBuilds_step (w : World) (ns label value : String) :
    StepSpec w (.ListDependencyBuilds ns label value) (listDependencyBuilds w ns label value) := by
  obtain ⟨h1, h2, h3, _, h5⟩ := issue_spec w (.ListDependencyBuilds ns label value)
  unfold StepSpec listDependencyBuilds
  rcases hi : w.issue (.ListDependencyBuilds ns label value) with ⟨f, w2⟩
  rw [hi] at h1 h2 h3 h5
  cases f
  · refine ⟨h1, Or.inr ⟨?_, by simp, by simpa [Store.apply] using h2, h3⟩⟩
    intro h; simpa using h5.2 h
  · exact ⟨h1, Or.inl ⟨h5.1 rfl, rfl, h2⟩⟩

theorem getArtifactBuild_step (w : World) (ns name : String) :
    StepSpec w (.GetArtifactBuild ns name) (getArtifactBuild w ns name) := by
  obtain ⟨h1, h2, h3, _, h5⟩ := issue_spec w (.GetArtifactBuild ns name)
  unfold StepSpec getArtifactBuild
  rcases hi : w.issue (.GetArtifactBuild ns name) with ⟨f, w2⟩
  rw [hi] at h1 h2 h3 h5
  cases f
  · have hnf : w.faults.head? ≠ some true := by
      intro h; simpa using h5.2 h
    simp only
    cases w2.store.artifactBuild ns name with
    | none => exact ⟨h1, Or.inr ⟨hnf, by simp, by simpa [Store.apply] using h2, h3⟩⟩
    | some a => exact ⟨h1, Or.inr ⟨hnf, by simp, by simpa [Store.apply] using h2, h3⟩⟩
  · exact ⟨h1, Or.inl ⟨h5.1 rfl, rfl, h2⟩⟩

theorem getDependencyBuild_step (w : World) (ns name : String) :
    StepSpec w (.GetDependencyBuild ns name) (getDependencyBuild w ns name) := by
  obtain ⟨h1, h2, h3, _, h5⟩ := issue_spec w (.GetDependencyBuild ns name)
  unfold StepSpec getDependencyBuild
  rcases hi : w.issue (.GetDependencyBuild ns name) with ⟨f, w2⟩
  rw [hi] at h1 h2 h3 h5
  cases f
  · have hnf : w.faults.head? ≠ some true := by
      intro h; simpa using h5.2 h
    simp only
    cases w2.store.dependencyBuild ns name with
    | none => exact ⟨h1, Or.inr ⟨hnf, by simp, by simpa [Store.apply] using h2, h3⟩⟩
    | some a => exact ⟨h1, Or.inr ⟨hnf, by simp, by simpa [Store.apply] using h2, h3⟩⟩
  · exact ⟨h1, Or.inl ⟨h5.1 rfl, rfl, h2⟩⟩

theorem statusUpdateArtifactBuild_step (w : World) (abr : ArtifactBuild) :
    StepSpec w (.StatusUpdateArtifactBuild abr) (statusUpdateArtifactBuild w abr) := by
  obtain ⟨h1, h2, h3, _, h5⟩ := issue_spec w (.StatusUpdateArtifactBuild abr)
  unfold StepSpec statusUpdateArtifactBuild
  rcases hi : w.issue (.StatusUpdateArtifactBuild abr) with ⟨f, w2⟩
  rw [hi] at h1 h2 h3 h5
  cases f
  · have hnf : w.faults.head? ≠ some true := by
      intro h; simpa using h5.2 h
    simp only at h1 h2 h3 ⊢
    by_cases hh : w2.store.hasArtifactBuild abr.Namespace abr.Name = true
    · rw [if_pos hh]
      rw [h2] at hh
      exact ⟨h1, Or.inr ⟨hnf, by simp, by simp [Store.apply, hh, h2], h3⟩⟩
    · rw [if_neg hh]
      rw [h2] at hh
      exact ⟨h1, Or.inr ⟨hnf, by simp, by simp [Store.apply, hh, h2], h3⟩⟩
  · exact ⟨h1, Or.inl ⟨h5.1 rfl, rfl, h2⟩⟩

theorem statusUpdateDependencyBuild_step (w : World) (db : DependencyBuild) :
    StepSpec w (.StatusUpdateDependencyBuild db) (statusUpdateDependencyBuild w db) := by
  obtain ⟨h1, h2, h3, _, h5⟩ := issue_spec w (.StatusUpdateDependencyBuild db)
  unfold StepSpec statusUpdateDependencyBuild
  rcases hi : w.issue (.StatusUpdateDependencyBuild db) with ⟨f, w2⟩
  rw [hi] at h1 h2 h3 h5
  cases f
  · have hnf : w.faults.head? ≠ some true := by
      intro h; simpa using h5.2 h
    simp only at h1 h2 h3 ⊢
    by_cases hh : w2.store.hasDependencyBuild db.Namespace db.Name = true
    · rw [if_pos hh]
      rw [h2] at hh
      exact ⟨h1, Or.inr ⟨hnf, by simp, by simp [Store.apply, hh, h2], h3⟩⟩
    · rw [if_neg hh]
      rw [h2] at hh
      exact ⟨h1, Or.inr ⟨hnf, by simp, by simp [Store.apply, hh, h2], h3⟩⟩
  · exact ⟨h1, Or.inl ⟨h5.1 rfl, rfl, h2⟩⟩

theorem updateDependencyBuild_step (w : World) (db : DependencyBuild) :
    StepSpec w (.UpdateDependencyBuild db) (updateDependencyBuild w db) := by
  obtain ⟨h1, h2, h3, _, h5⟩ := issue_spec w (.UpdateDependencyBuild db)
  unfold StepSpec updateDependencyBuild
  rcases hi : w.issue (.UpdateDependencyBuild db) with ⟨f, w2⟩
  rw [hi] at h1 h2 h3 h5
  cases f
  · have hnf : w.faults.head? ≠ some true := by
      intro h; simpa using h5.2 h
    simp only at h1 h2 h3 ⊢
    by_cases hh : w2.store.hasDependencyBuild db.Namespace db.Name = true
    · rw [if_pos hh]
      rw [h2] at hh
      exact ⟨h1, Or.inr ⟨hnf, by simp, by simp [Store.apply, hh, h2], h3⟩⟩
    · rw [if_neg hh]
      rw [h2] at hh
      exact ⟨h1, Or.inr ⟨hnf, by simp, by simp [Store.apply, hh, h2], h3⟩⟩
  · exact ⟨h1, Or.inl ⟨h5.1 rfl, rfl, h2⟩⟩

theorem createDependencyBuild_step (w : World) (db : DependencyBuild) :
    StepSpec w (.CreateDependencyBuild db) (createDependencyBuild w db) := by
  obtain ⟨h1, h2, h3, _, h5⟩ := issue_spec w (.CreateDependencyBuild db)
  unfold StepSpec createDependencyBuild
  rcases hi : w.issue (.CreateDependencyBuild db) with ⟨f, w2⟩
  rw [hi] at h1 h2 h3 h5
  cases f
  · have h2' : w2.store = w.store := h2
    refine ⟨h1, Or.inr ⟨?_, by simp, by simp [Store.apply, h2'], h3⟩⟩
    intro h; simpa using h5.2 h
  · exact ⟨h1, Or.inl ⟨h5.1 rfl, rfl, h2⟩⟩

theorem createTaskRun_step (w : World) (tr : TaskRun) :
    StepSpec w (.CreateTaskRun tr) (createTaskRun w tr) := by
  obtain ⟨h1, h2, h3, _, h5⟩ := issue_spec w (.CreateTaskRun tr)
  unfold StepSpec createTaskRun
  rcases hi : w.issue (.CreateTaskRun tr) with ⟨f, w2⟩
  rw [hi] at h1 h2 h3 h5
  cases f
  · have h2' : w2.store = w.store := h2
    refine ⟨h1, Or.inr ⟨?_, by simp, by simp [Store.apply, h2'], h3⟩⟩
    intro h; simpa using h5.2 h
  · exact ⟨h1, Or.inl ⟨h5.1 rfl, rfl, h2⟩⟩

theorem reached_refl (P : Call → Prop) (w : World) : Reached P w w :=
  ⟨[], by simp, by simp, rfl, by simp, by simp⟩

theorem reached_eventf (P : Call → Prop) (w w1 : World) (a b : String)
    (h : Reached P w w1) : Reached P w (w1.Eventf a b) := h

theorem applyAll_append (s : Store) (cs : List Call) (c : Call) :
    s.applyAll (cs ++ [c]) = (s.applyAll cs).apply c := by
  simp [Store.applyAll, List.foldl_append]

theorem not_mem_take_succ (l : List Bool) (n : Nat) (h1 : true ∉ l.take n)
    (h2 : (l.drop n).head? ≠ some true) : true ∉ l.take (n + 1) := by
  rw [List.take_succ, List.mem_append]
  rintro (h | h)
  · exact h1 h
  · rw [List.head?_drop] at h2
    cases hx : l[n]? with
    | none => simp [hx] at h
    | some b =>
      rw [hx] at h h2
      simp at h
      rw [← h] at h2
      exact h2 rfl

/-- A call that ran extends the reached world. -/
theorem reached_step {α : Type} (P : Call → Prop) (w w1 w2 : World) (c : Call) (a : α)
    (h : Reached P w w1) (hs : StepSpec w1 c ((.ok a : Except Err α), w2)) (hp : P c) :
    Reached P w w2 := by
  obtain ⟨cs, h1, h2, h3, h4, h5⟩ := h
  obtain ⟨s1, s2⟩ := hs
  rcases s2 with ⟨_, he, _⟩ | ⟨hnf, _, hst, hfl⟩
  · cases he
  · refine ⟨cs ++ [c], ?_, ?_, ?_, ?_, ?_⟩
    · simp only at s1; rw [s1, h1, List.append_assoc]
    · simp only at hfl; rw [hfl, h2, List.tail_drop]; simp
    · simp only at hst; rw [hst, h3, applyAll_append]
    · rw [List.length_append, List.length_singleton]
      exact not_mem_take_succ _ _ h4 (by rw [← h2]; exact hnf)
    · intro x hx
      rw [List.mem_append, List.mem_singleton] at hx
      rcases hx with hx | hx
      · exact h5 x hx
      · rw [hx]; exact hp

/-- A call that returned an error ends the run. -/
theorem stopped_error {α : Type} (P : Call → Prop) (w w1 w2 : World) (c : Call) (e : Err)
    (h : Reached P w w1) (hs : StepSpec w1 c ((.error e : Except Err α), w2)) (hp : P c) :
    Stopped P w (.error e, w2) := by
  obtain ⟨cs, h1, h2, h3, h4, h5⟩ := h
  obtain ⟨s1, s2⟩ := hs
  have hP : ∀ x ∈ cs ++ [c], P x := by
    intro x hx
    rw [List.mem_append, List.mem_singleton] at hx
    rcases hx with hx | hx
    · exact h5 x hx
    · rw [hx]; exact hp
  refine ⟨cs ++ [c], by simp only at s1; rw [s1, h1, List.append_assoc], hP, ?_⟩
  rcases s2 with ⟨hf, he, hst⟩ | ⟨hnf, hne, hst, _⟩
  · right
    refine ⟨cs, c, rfl, h4, ?_, ?_, ?_⟩
    · rw [h2, List.head?_drop] at hf
      rw [List.get?_eq_getElem?]
      exact hf
    · simp only at he
      cases he
      rfl
    · simp only at hst; rw [hst, h3]
  · left
    refine ⟨?_, ?_, ?_⟩
    · rw [List.length_append, List.length_singleton]
      exact not_mem_take_succ _ _ h4 (by rw [← h2]; exact hnf)
    · simp only at hne ⊢
      intro h
      apply hne
      cases h
      rfl
    · simp only at hst; rw [hst, h3, applyAll_append]

/-- A return without a further call ends the run. -/
theorem stopped_return (P : Call → Prop) (w w1 : World) (r : Except Err Result)
    (h : Reached P w w1) (hr : r ≠ .error .transient) : Stopped P w (r, w1) := by
  obtain ⟨cs, h1, _, h3, h4, h5⟩ := h
  exact ⟨cs, h1, h5, Or.inl ⟨h4, hr, h3⟩⟩

theorem stopped_mono (P Q : Call → Prop) (w : World) (out : Except Err Result × World)
    (hPQ : ∀ c, P c → Q c) (h : Stopped P w out) : Stopped Q w out := by
  obtain ⟨cs, h1, h2, h3⟩ := h
  exact ⟨cs, h1, fun c hc => hPQ c (h2 c hc), h3⟩

theorem setOwnerReference_error (abr : ArtifactBuild) (objNs : String)
    (owners : List OwnerReference) (e : Err)
    (h : SetOwnerReference abr objNs owners = .error e) : e = .invalidOwner := by
  unfold SetOwnerReference validateOwner at h
  split_ifs at h <;> simp at h <;> exact h.symm

/-- The owner attach under any fault script: it goes on in a reached world with the
status of the build as read, or the run stops. -/
theorem attachOwner_spec (P : Call → Prop) (w w1 : World) (abr : ArtifactBuild)
    (recent : DependencyBuild) (h : Reached P w w1)
    (hP : ∀ db, P (.UpdateDependencyBuild db)) :
    (∃ r w2, attachOwner w1 abr recent = (.ok r, w2) ∧ Reached P w w2 ∧
      r.Status = recent.Status) ∨
    (∃ e w2, attachOwner w1 abr recent = (.error e, w2) ∧
      Stopped P w ((.error e : Except Err Result), w2)) := by
  unfold attachOwner
  by_cases hf : (recent.OwnerReferences.any fun owner => owner.UID == abr.UID) = true
  · left
    exact ⟨recent, w1, by simp [hf], h, rfl⟩
  · have hf' : (recent.OwnerReferences.any fun owner => owner.UID == abr.UID) = false := by
      simpa using hf
    simp only [hf', Bool.not_false, if_true]
    cases hso : SetOwnerReference abr recent.Namespace recent.OwnerReferences with
    | error e =>
      right
      refine ⟨e, w1, rfl, stopped_return P w w1 _ h ?_⟩
      rw [setOwnerReference_error _ _ _ _ hso]
      simp
    | ok owners =>
      simp only
      have hs := updateDependencyBuild_step w1 { recent with OwnerReferences := owners }
      rcases hu : updateDependencyBuild w1 { recent with OwnerReferences := owners }
        with ⟨r, w2⟩
      rw [hu] at hs
      cases r with
      | error e =>
        right
        exact ⟨e, w2, rfl, stopped_error P w w1 w2 _ e h hs (hP _)⟩
      | ok u =>
        left
        exact ⟨_, w2, rfl, reached_step P w w1 w2 _ u h hs (hP _), rfl⟩

/-- The calls allowed by `allowsStates`: a status update of an `ArtifactBuild` sets one
of the listed states. -/
theorem allowsStates_of_not_status (states : List String) (c : Call)
    (h : Call.isArtifactBuildStatusUpdate c = false) : allowsStates states c := by
  intro a ha
  rw [ha] at h
  cases h

theorem allowsStates_setState (states : List String) (abr : ArtifactBuild) (st : String)
    (h : st ∈ states) : allowsStates states (.StatusUpdateArtifactBuild (abr.setState st)) := by
  intro a ha
  cases ha
  exact h

/-- The run of `handleStateBuilding` under any fault script. -/
theorem handleStateBuilding_stopped (w : World) (abr : ArtifactBuild) :
    Stopped (allowsStates [ArtifactBuildStateNew, ArtifactBuildStateComplete,
      ArtifactBuildStateFailed]) w (handleStateBuilding w abr) := by
  have hP0 : ∀ c, Call.isArtifactBuildStatusUpdate c = false →
      allowsStates [ArtifactBuildStateNew, ArtifactBuildStateComplete,
        ArtifactBuildStateFailed] c := fun c hc => allowsStates_of_not_status _ c hc
  have hPs : ∀ st, st ∈ [ArtifactBuildStateNew, ArtifactBuildStateComplete,
      ArtifactBuildStateFailed] →
      allowsStates [ArtifactBuildStateNew, ArtifactBuildStateComplete,
        ArtifactBuildStateFailed] (.StatusUpdateArtifactBuild (abr.setState st)) :=
    fun st hst => allowsStates_setState _ abr st hst
  unfold handleStateBuilding
  simp only
  have hs1 := listDependencyBuilds_step w abr.Namespace DependencyBuildIdLabel (depIdOf abr)
  rcases h1 : listDependencyBuilds w abr.Namespace DependencyBuildIdLabel (depIdOf abr)
    with ⟨r1, w1⟩
  rw [h1] at hs1
  cases r1 with
  | error e => exact stopped_error _ w w w1 _ e (reached_refl _ w) hs1 (hP0 _ rfl)
  | ok list =>
    have hr1 := reached_step _ w w w1 _ list (reached_refl _ w) hs1 (hP0 _ rfl)
    simp only
    split_ifs with hlen
    · have hs2 := statusUpdateArtifactBuild_step
        (w1.Eventf EventTypeWarning "MissingDependencyBuild")
        (abr.setState ArtifactBuildStateNew)
      rcases h2 : statusUpdateArtifactBuild
        (w1.Eventf EventTypeWarning "MissingDependencyBuild")
        (abr.setState ArtifactBuildStateNew) with ⟨r2, w2⟩
      rw [h2] at hs2
      cases r2 with
      | error e =>
        exact stopped_error _ w _ w2 _ e (reached_eventf _ w w1 _ _ hr1) hs2
          (hPs _ (by simp))
      | ok u =>
        exact stopped_return _ w w2 _
          (reached_step _ w _ w2 _ u (reached_eventf _ w w1 _ _ hr1) hs2 (hPs _ (by simp)))
          (by simp)
    · cases hm : mostRecent DependencyBuild.CreationTimestamp list with
      | none => exact stopped_return _ w w1 _ hr1 (by simp)
      | some recent =>
        simp only
        rcases attachOwner_spec _ w w1 abr recent hr1 (fun db => hP0 _ rfl) with
          ⟨r, w2, ha, hr2, hst⟩ | ⟨e, w2, ha, hstop⟩
        · rw [ha]
          simp only [hst]
          split_ifs
          · have hs3 := statusUpdateArtifactBuild_step w2
              (abr.setState ArtifactBuildStateComplete)
            rcases h3 : statusUpdateArtifactBuild w2
              (abr.setState ArtifactBuildStateComplete) with ⟨r3, w3⟩
            rw [h3] at hs3
            cases r3 with
            | error e => exact stopped_error _ w w2 w3 _ e hr2 hs3 (hPs _ (by simp))
            | ok u =>
              exact stopped_return _ w w3 _
                (reached_step _ w w2 w3 _ u hr2 hs3 (hPs _ (by simp))) (by simp)
          · have hs3 := statusUpdateArtifactBuild_step w2
              (abr.setState ArtifactBuildStateFailed)
            rcases h3 : statusUpdateArtifactBuild w2
              (abr.setState ArtifactBuildStateFailed) with ⟨r3, w3⟩
            rw [h3] at hs3
            cases r3 with
            | error e => exact stopped_error _ w w2 w3 _ e hr2 hs3 (hPs _ (by simp))
            | ok u =>
              exact stopped_return _ w w3 _
                (reached_step _ w w2 w3 _ u hr2 hs3 (hPs _ (by simp))) (by simp)
          · exact stopped_return _ w w2 _ hr2 (by simp)
        · rw [ha]
          exact hstop

/-- A failing store call, given by the equation of its outcome. -/
theorem stopped_of_error {α : Type} (P : Call → Prop) (w w1 w2 : World) (c : Call) (e : Err)
    (op : Except Err α × World) (hr : Reached P w w1) (heq : op = (.error e, w2))
    (hs : StepSpec w1 c op) (hp : P c) : Stopped P w (.error e, w2) := by
  subst heq
  exact stopped_error P w w1 w2 c e hr hs hp

/-- A store call that returns, given by the equation of its outcome. -/
theorem reached_of_ok {α : Type} (P : Call → Prop) (w w1 w2 : World) (c : Call) (a : α)
    (op : Except Err α × World) (hr : Reached P w w1) (heq : op = (.ok a, w2))
    (hs : StepSpec w1 c op) (hp : P c) : Reached P w w2 := by
  subst heq
  exact reached_step P w w1 w2 c a hr hs hp

/-- The run of `handleStateNew` under any fault script. -/
theorem handleStateNew_stopped (w : World) (abr : ArtifactBuild) :
    Stopped (allowsStates [ArtifactBuildStateDiscovering]) w (handleStateNew w abr) := by
  have hP0 : ∀ c, Call.isArtifactBuildStatusUpdate c = false →
      allowsStates [ArtifactBuildStateDiscovering] c :=
    fun c hc => allowsStates_of_not_status _ c hc
  unfold handleStateNew
  simp only
  cases hso : SetOwnerReference abr abr.Namespace [] with
  | error e =>
    simp only
    refine stopped_return _ w w _ (reached_refl _ w) ?_
    rw [setOwnerReference_error _ _ _ _ hso]
    simp
  | ok owners =>
    simp only
    have hp1 := allowsStates_setState [ArtifactBuildStateDiscovering] abr
      ArtifactBuildStateDiscovering (by simp)
    split
    · next e w1 heq =>
      exact stopped_of_error _ w w w1 _ e _ (reached_refl _ w) heq
        (statusUpdateArtifactBuild_step w _) hp1
    · next u w1 heq =>
      have hr1 := reached_of_ok _ w w w1 _ u _ (reached_refl _ w) heq
        (statusUpdateArtifactBuild_step w _) hp1
      split
      · next e w2 heq2 =>
        exact stopped_of_error _ w w1 w2 _ e _ hr1 heq2 (createTaskRun_step w1 _) (hP0 _ rfl)
      · next u2 w2 heq2 =>
        exact stopped_return _ w w2 _
          (reached_of_ok _ w w1 w2 _ u2 _ hr1 heq2 (createTaskRun_step w1 _) (hP0 _ rfl))
          (by simp)
theorem setState_state (abr : ArtifactBuild) (st : String) :
    (abr.setState st).Status.State = st := rfl

/-- The run of `handleStateDiscovering` under any fault script. -/
theorem handleStateDiscovering_stopped (w : World) (abr : ArtifactBuild) :
    Stopped (allowsStates [ArtifactBuildStateMissing, ArtifactBuildStateBuilding,
      ArtifactBuildStateComplete, ArtifactBuildStateFailed]) w
      (handleStateDiscovering w abr) := by
  have hP0 : ∀ c, Call.isArtifactBuildStatusUpdate c = false →
      allowsStates [ArtifactBuildStateMissing, ArtifactBuildStateBuilding,
        ArtifactBuildStateComplete, ArtifactBuildStateFailed] c :=
    fun c hc => allowsStates_of_not_status _ c hc
  have hPs : ∀ (a : ArtifactBuild) (st : String),
      st ∈ [ArtifactBuildStateMissing, ArtifactBuildStateBuilding,
        ArtifactBuildStateComplete, ArtifactBuildStateFailed] →
      allowsStates [ArtifactBuildStateMissing, ArtifactBuildStateBuilding,
        ArtifactBuildStateComplete, ArtifactBuildStateFailed]
        (.StatusUpdateArtifactBuild (a.setState st)) :=
    fun a st hst => allowsStates_setState _ a st hst
  unfold handleStateDiscovering
  simp only
  split
  · next e w1 heq =>
    exact stopped_of_error _ w w w1 _ e _ (reached_refl _ w) heq
      (listTaskRuns_step w _ _ _) (hP0 _ rfl)
  · next trl w1 heq =>
    have hr1 := reached_of_ok _ w w w1 _ trl _ (reached_refl _ w) heq
      (listTaskRuns_step w _ _ _) (hP0 _ rfl)
    split
    · exact stopped_return _ w _ _ (reached_eventf _ w w1 _ _ hr1) (by simp)
    · next tr htr =>
      split_ifs with hct htag
      · exact stopped_return _ w _ _ hr1 (by simp)
      · split
        · next e w2 heq2 =>
          exact stopped_of_error _ w _ w2 _ e _ (reached_eventf _ w w1 _ _ hr1) heq2
            (statusUpdateArtifactBuild_step _ _) (hPs _ _ (by simp))
        · next u w2 heq2 =>
          exact stopped_return _ w w2 _
            (reached_of_ok _ w _ w2 _ u _ (reached_eventf _ w w1 _ _ hr1) heq2
              (statusUpdateArtifactBuild_step _ _) (hPs _ _ (by simp))) (by simp)
      · split
        · next e w2 heq2 =>
          exact stopped_of_error _ w w1 w2 _ e _ hr1 heq2
            (listDependencyBuilds_step w1 _ _ _) (hP0 _ rfl)
        · next list w2 heq2 =>
          have hr2 := reached_of_ok _ w w1 w2 _ list _ hr1 heq2
            (listDependencyBuilds_step w1 _ _ _) (hP0 _ rfl)
          split_ifs with hlen
          · split
            · next e hso =>
              refine stopped_return _ w w2 _ hr2 ?_
              rw [setOwnerReference_error _ _ _ _ hso]
              simp
            · next owners hso =>
              split
              · next e w3 heq3 =>
                exact stopped_of_error _ w w2 w3 _ e _ hr2 heq3
                  (statusUpdateArtifactBuild_step _ _) (hPs _ _ (by simp))
              · next u w3 heq3 =>
                have hr3 := reached_of_ok _ w w2 w3 _ u _ hr2 heq3
                  (statusUpdateArtifactBuild_step _ _) (hPs _ _ (by simp))
                split
                · next e w4 heq4 =>
                  exact stopped_of_error _ w w3 w4 _ e _ hr3 heq4
                    (createDependencyBuild_step _ _) (hP0 _ rfl)
                · next u4 w4 heq4 =>
                  exact stopped_return _ w w4 _
                    (reached_of_ok _ w w3 w4 _ u4 _ hr3 heq4
                      (createDependencyBuild_step _ _) (hP0 _ rfl)) (by simp)
          · split
            · exact stopped_return _ w w2 _ hr2 (by simp)
            · next recent hrecent =>
              rcases attachOwner_spec _ w w2
                  ((List.foldl applyResult abr tr.Status.TaskRunResults).setState
                    ArtifactBuildStateBuilding) recent hr2 (fun db => hP0 _ rfl) with
                ⟨r, w3, ha, hr3, hst⟩ | ⟨e, w3, ha, hstop⟩
              · rw [ha]
                simp only [hst]
                have hp : allowsStates [ArtifactBuildStateMissing, ArtifactBuildStateBuilding,
                    ArtifactBuildStateComplete, ArtifactBuildStateFailed]
                    (.StatusUpdateArtifactBuild
                      (if recent.Status.State = DependencyBuildStateComplete then
                        ((List.foldl applyResult abr tr.Status.TaskRunResults).setState
                          ArtifactBuildStateBuilding).setState ArtifactBuildStateComplete
                      else if recent.Status.State = DependencyBuildContaminatedBy ∨
                          recent.Status.State = DependencyBuildStateFailed then
                        ((List.foldl applyResult abr tr.Status.TaskRunResults).setState
                          ArtifactBuildStateBuilding).setState ArtifactBuildStateFailed
                      else (List.foldl applyResult abr tr.Status.TaskRunResults).setState
                          ArtifactBuildStateBuilding)) := by
                  split_ifs
                  · exact hPs _ _ (by simp)
                  · exact hPs _ _ (by simp)
                  · exact hPs _ _ (by simp)
                split
                · next e w4 heq4 =>
                  exact stopped_of_error _ w w3 w4 _ e _ hr3 heq4
                    (statusUpdateArtifactBuild_step _ _) hp
                · next u4 w4 heq4 =>
                  exact stopped_return _ w w4 _
                    (reached_of_ok _ w w3 w4 _ u4 _ hr3 heq4
                      (statusUpdateArtifactBuild_step _ _) hp) (by simp)
              · rw [ha]
                exact hstop

theorem find?_map_of_fix {α : Type} (p : α → Bool) (f : α → α) (l : List α)
    (h1 : ∀ x, p (f x) = p x) (h2 : ∀ x, p x = true → f x = x) :
    (l.map f).find? p = l.find? p := by
  induction l with
  | nil => rfl
  | cons x xs ih =>
    simp only [List.map_cons, List.find?_cons, h1]
    cases hp : p x with
    | true => simp only [h2 x hp]
    | false => exact ih

/-- Only a status update of an `ArtifactBuild` changes the stored `ArtifactBuild`s. -/
theorem apply_artifactBuilds (s : Store) (c : Call)
    (hc : c.isArtifactBuildStatusUpdate = false) :
    (s.apply c).ArtifactBuilds = s.ArtifactBuilds := by
  cases c with
  | StatusUpdateArtifactBuild a => cases hc
  | StatusUpdateDependencyBuild db =>
    simp only [Store.apply]
    split_ifs <;> rfl
  | UpdateDependencyBuild db =>
    simp only [Store.apply]
    split_ifs <;> rfl
  | _ => rfl

theorem stepSpec_artifactBuilds {α : Type} (w1 : World) (c : Call)
    (out : Except Err α × World) (hs : StepSpec w1 c out)
    (hc : c.isArtifactBuildStatusUpdate = false) :
    out.2.store.ArtifactBuilds = w1.store.ArtifactBuilds := by
  rcases hs with ⟨_, ⟨_, _, h⟩ | ⟨_, _, h, _⟩⟩
  · rw [h]
  · rw [h, apply_artifactBuilds w1.store c hc]

/-- A call that is no write leaves the store as it is. -/
theorem apply_of_no_write (s : Store) (c : Call) (hc : c.isWrite = false) : s.apply c = s := by
  cases c <;> first | rfl | cases hc

theorem applyAll_of_no_write (s : Store) (cs : List Call) (h : ∀ c ∈ cs, c.isWrite = false) :
    s.applyAll cs = s := by
  unfold Store.applyAll
  induction cs generalizing s with
  | nil => rfl
  | cons c cs ih =>
    simp only [List.foldl_cons]
    rw [apply_of_no_write s c (h c (by simp))]
    exact ih s fun c hc => h c (by simp [hc])

theorem artifactBuild_congr (s t : Store) (ns name : String)
    (h : t.ArtifactBuilds = s.ArtifactBuilds) :
    t.artifactBuild ns name = s.artifactBuild ns name := by
  unfold Store.artifactBuild
  rw [h]

/-- One call that sets only the listed states: the stored `ArtifactBuild` of a namespace
and name is still stored, in its state or in one of the listed states. -/
theorem apply_artifactBuild (states : List String) (s : Store) (c : Call)
    (hc : allowsStates states c) (ns name : String) (a : ArtifactBuild)
    (h : s.artifactBuild ns name = some a) :
    ∃ b, (s.apply c).artifactBuild ns name = some b ∧
      (b.Status.State = a.Status.State ∨ b.Status.State ∈ states) := by
  by_cases hst : c.isArtifactBuildStatusUpdate = false
  · exact ⟨a, by rw [artifactBuild_congr s _ ns name (apply_artifactBuilds s c hst), h],
      Or.inl rfl⟩
  · cases c with
    | StatusUpdateArtifactBuild abr =>
      simp only [Store.apply]
      split_ifs with hhas
      · by_cases hkey : abr.Namespace = ns ∧ abr.Name = name
        · exact ⟨_, artifactBuild_putArtifactBuildStatus s abr a ns name hkey.1 hkey.2 h,
            Or.inr (hc abr rfl)⟩
        · refine ⟨a, ?_, Or.inl rfl⟩
          rw [← h]
          unfold Store.artifactBuild Store.putArtifactBuildStatus
          simp only
          apply find?_map_of_fix
          · intro x
            split_ifs <;> rfl
          · intro x hx
            have hx2 : ¬ ((x.Namespace == abr.Namespace && x.Name == abr.Name) = true) := by
              intro hx2
              simp only [Bool.and_eq_true, beq_iff_eq] at hx hx2
              exact hkey ⟨hx2.1.symm.trans hx.1, hx2.2.symm.trans hx.2⟩
            simp only [hx2, if_false]
            rfl
      · exact ⟨a, h, Or.inl rfl⟩
    | _ => exact absurd rfl hst

/-- Calls that set only the listed states: the stored `ArtifactBuild` of a namespace and
name is still stored, in its state or in one of the listed states. -/
theorem applyAll_artifactBuild (states : List String) (cs : List Call) (s : Store)
    (hcs : ∀ c ∈ cs, allowsStates states c) (ns name : String) (a : ArtifactBuild)
    (h : s.artifactBuild ns name = some a) :
    ∃ b, (s.applyAll cs).artifactBuild ns name = some b ∧
      (b.Status.State = a.Status.State ∨ b.Status.State ∈ states) := by
  unfold Store.applyAll
  induction cs generalizing s a with
  | nil => exact ⟨a, h, Or.inl rfl⟩
  | cons c cs ih =>
    simp only [List.foldl_cons]
    obtain ⟨a1, h1, hs1⟩ := apply_artifactBuild states s c (hcs c (by simp)) ns name a h
    obtain ⟨b, hb, hsb⟩ := ih (s.apply c) (fun c hc => hcs c (by simp [hc])) a1 h1
    refine ⟨b, hb, ?_⟩
    rcases hsb with hsb | hsb
    · rcases hs1 with hs1 | hs1
      · exact Or.inl (hsb.trans hs1)
      · exact Or.inr (hsb ▸ hs1)
    · exact Or.inr hsb

/-- The store a stopped run leaves: the replay of calls that all satisfy `P`. -/
theorem stopped_store (P : Call → Prop) (w : World) (out : Except Err Result × World)
    (h : Stopped P w out) : ∃ cs, (∀ c ∈ cs, P c) ∧ out.2.store = w.store.applyAll cs := by
  rcases h with ⟨cs, _, hP, ⟨_, _, hs⟩ | ⟨cs0, c, hcs, _, _, _, hs⟩⟩
  · exact ⟨cs, hP, hs⟩
  · exact ⟨cs0, fun c hc => hP c (by simp [hcs, hc]), hs⟩

/-- The three handlers under any fault script. -/
theorem stateHandler_stopped (h : StateHandler) (w : World) (abr : ArtifactBuild) :
    Stopped (allowsStates h.targets) w (h.run w abr) := by
  cases h with
  | new => exact handleStateNew_stopped w abr
  | discovering => exact handleStateDiscovering_stopped w abr
  | building => exact handleStateBuilding_stopped w abr

/-- The read of a stored `ArtifactBuild`: the scripted fault, or the object. The store is
kept and the call recorded. -/
theorem getArtifactBuild_cases (w : World) (ns name : String) (abr : ArtifactBuild)
    (hget : w.store.artifactBuild ns name = some abr) :
    ∃ w1, w1.store = w.store ∧ w1.calls = w.calls ++ [.GetArtifactBuild ns name] ∧
      (getArtifactBuild w ns name = (.error .transient, w1) ∨
       getArtifactBuild w ns name = (.ok abr, w1)) := by
  cases hf : w.faults with
  | nil =>
    refine ⟨{ w with calls := w.calls ++ [.GetArtifactBuild ns name] }, rfl, rfl, Or.inr ?_⟩
    simp [getArtifactBuild, World.issue, hf, hget]
  | cons f rest =>
    refine ⟨{ w with calls := w.calls ++ [.GetArtifactBuild ns name], faults := rest },
      rfl, rfl, ?_⟩
    cases f with
    | true => exact Or.inl (by simp [getArtifactBuild, World.issue, hf])
    | false => exact Or.inr (by simp [getArtifactBuild, World.issue, hf, hget])

theorem artifactBuilds_of_step {α : Type} (w1 : World) (c : Call)
    (op out : Except Err α × World) (heq : op = out) (hs : StepSpec w1 c op)
    (hc : c.isArtifactBuildStatusUpdate = false) :
    out.2.store.ArtifactBuilds = w1.store.ArtifactBuilds := by
  subst heq
  exact stepSpec_artifactBuilds w1 c op hs hc

/-- The loop of `handleStateComplete` writes no `ArtifactBuild`, under any fault script. -/
theorem complete_loop_artifactBuilds (abr : ArtifactBuild) (anns : List (String × String))
    (w : World) :
    (handleStateCompleteLoop abr w anns).2.store.ArtifactBuilds = w.store.ArtifactBuilds := by
  induction anns generalizing w with
  | nil => rfl
  | cons kv rest ih =>
    obtain ⟨key, value⟩ := kv
    unfold handleStateCompleteLoop
    split_ifs with hpre
    · split
      · next e w1 heq =>
        have hs := getDependencyBuild_step w abr.Namespace value
        rw [heq] at hs
        rw [ih]
        exact stepSpec_artifactBuilds w _ _ hs rfl
      · next db w1 heq =>
        have hs := getDependencyBuild_step w abr.Namespace value
        rw [heq] at hs
        have h1 : w1.store.ArtifactBuilds = w.store.ArtifactBuilds :=
          stepSpec_artifactBuilds w _ _ hs rfl
        split_ifs with hst
        · rw [ih, h1]
        · simp only
          split
          · next e w2 heq2 =>
            exact (artifactBuilds_of_step w1 _ _ _ heq2
              (statusUpdateDependencyBuild_step w1 _) rfl).trans h1
          · next u w2 heq2 =>
            rw [ih]
            exact (artifactBuilds_of_step w1 _ _ _ heq2
              (statusUpdateDependencyBuild_step w1 _) rfl).trans h1
    · exact ih w

/-- One `Reconcile` of a stored `ArtifactBuild`, under any fault script: the object is
still stored, in its state or in a state its handler may write. -/
theorem reconcile_state (w : World) (ns name : String) (abr : ArtifactBuild)
    (hget : w.store.artifactBuild ns name = some abr) :
    ∃ b, (Reconcile w ns name).2.store.artifactBuild ns name = some b ∧
      (b.Status.State = abr.Status.State ∨
       ((abr.Status.State = ArtifactBuildStateNew ∨ abr.Status.State = "") ∧
          b.Status.State ∈ StateHandler.new.targets) ∨
       (abr.Status.State = ArtifactBuildStateDiscovering ∧
          b.Status.State ∈ StateHandler.discovering.targets) ∨
       (abr.Status.State = ArtifactBuildStateBuilding ∧
          b.Status.State ∈ StateHandler.building.targets)) := by
  obtain ⟨w1, hstore, _, hcase | hcase⟩ := getArtifactBuild_cases w ns name abr hget
  · refine ⟨abr, ?_, Or.inl rfl⟩
    unfold Reconcile
    rw [hcase]
    simp only [reduceCtorEq, if_false]
    rw [hstore, hget]
  · have hget1 : w1.store.artifactBuild ns name = some abr := by rw [hstore, hget]
    have key : ∀ (h : StateHandler),
        ∃ b, (h.run w1 abr).2.store.artifactBuild ns name = some b ∧
          (b.Status.State = abr.Status.State ∨ b.Status.State ∈ h.targets) := by
      intro h
      obtain ⟨cs, hP, hs⟩ := stopped_store _ w1 _ (stateHandler_stopped h w1 abr)
      rw [hs]
      exact applyAll_artifactBuild h.targets cs w1.store hP ns name abr hget1
    unfold Reconcile
    rw [hcase]
    simp only
    split_ifs with hnew hdisc hcomp hbuild
    · obtain ⟨b, hb, hst⟩ := key .new
      exact ⟨b, hb, hst.imp id fun h => Or.inl ⟨hnew, h⟩⟩
    · obtain ⟨b, hb, hst⟩ := key .discovering
      exact ⟨b, hb, hst.imp id fun h => Or.inr (Or.inl ⟨hdisc, h⟩)⟩
    · refine ⟨abr, ?_, Or.inl rfl⟩
      unfold handleStateComplete
      rw [artifactBuild_congr w1.store _ ns name
        (complete_loop_artifactBuilds abr abr.Annotations w1)]
      exact hget1
    · obtain ⟨b, hb, hst⟩ := key .building
      exact ⟨b, hb, hst.imp id fun h => Or.inr (Or.inr ⟨hbuild, h⟩)⟩
    · exact ⟨abr, hget1, Or.inl rfl⟩
/-- One `Reconcile` of a stored `ArtifactBuild` in the state failed or missing, under any
fault script: the read is the only call and the store is kept. -/
theorem reconcile_inert (w : World) (ns name : String) (abr : ArtifactBuild)
    (hget : w.store.artifactBuild ns name = some abr)
    (hst : abr.Status.State ∈ [ArtifactBuildStateFailed, ArtifactBuildStateMissing]) :
    (Reconcile w ns name).2.store = w.store ∧
    (Reconcile w ns name).2.calls = w.calls ++ [.GetArtifactBuild ns name] := by
  obtain ⟨w1, hstore, hcalls, hcase | hcase⟩ := getArtifactBuild_cases w ns name abr hget
  · unfold Reconcile
    rw [hcase]
    simp only [reduceCtorEq, if_false]
    exact ⟨hstore, hcalls⟩
  · have h1 : ¬ (abr.Status.State = ArtifactBuildStateNew ∨ abr.Status.State = "") := by
      simp only [List.mem_cons, List.mem_singleton, List.not_mem_nil, or_false] at hst
      rcases hst with h | h <;> rw [h] <;> decide
    have h2 : ¬ abr.Status.State = ArtifactBuildStateDiscovering := by
      simp only [List.mem_cons, List.mem_singleton, List.not_mem_nil, or_false] at hst
      rcases hst with h | h <;> rw [h] <;> decide
    have h3 : ¬ abr.Status.State = ArtifactBuildStateComplete := by
      simp only [List.mem_cons, List.mem_singleton, List.not_mem_nil, or_false] at hst
      rcases hst with h | h <;> rw [h] <;> decide
    have h4 : ¬ abr.Status.State = ArtifactBuildStateBuilding := by
      simp only [List.mem_cons, List.mem_singleton, List.not_mem_nil, or_false] at hst
      rcases hst with h | h <;> rw [h] <;> decide
    unfold Reconcile
    rw [hcase]
    simp only [h1, h2, h3, h4, if_false]
    exact ⟨hstore, hcalls⟩

/-- One `Reconcile` of a stored `ArtifactBuild` in the state complete, under any fault
script: no `ArtifactBuild` is written. -/
theorem reconcile_complete (w : World) (ns name : String) (abr : ArtifactBuild)
    (hget : w.store.artifactBuild ns name = some abr)
    (hst : abr.Status.State = ArtifactBuildStateComplete) :
    (Reconcile w ns name).2.store.ArtifactBuilds = w.store.ArtifactBuilds := by
  obtain ⟨w1, hstore, _, hcase | hcase⟩ := getArtifactBuild_cases w ns name abr hget
  · unfold Reconcile
    rw [hcase]
    simp only [reduceCtorEq, if_false]
    rw [hstore]
  · have h1 : ¬ (abr.Status.State = ArtifactBuildStateNew ∨ abr.Status.State = "") := by
      rw [hst]
      decide
    have h2 : ¬ abr.Status.State = ArtifactBuildStateDiscovering := by
      rw [hst]
      decide
    unfold Reconcile
    rw [hcase]
    simp only
    rw [if_neg h1, if_neg h2, if_pos hst]
    unfold handleStateComplete
    rw [complete_loop_artifactBuilds, hstore]

/-- C13: terminal states are never left. For every world (store and script of failing
store calls) and every stored `ArtifactBuild`, one `Reconcile` of it: in the state
complete, failed or missing no `ArtifactBuild` is written, so the stored object (its
state, SCM information and message) is kept; in the state failed or missing the store is
kept and no call is a write; and if the state afterwards is earlier in the order of the
states than the state before, the state before is building and the state afterwards is
new. -/
theorem terminal_states_never_left (w : World) (ns name : String) (abr : ArtifactBuild)
    (hget : w.store.artifactBuild ns name = some abr) :
    (abr.Status.State ∈ [ArtifactBuildStateComplete, ArtifactBuildStateFailed,
        ArtifactBuildStateMissing] →
      (Reconcile w ns name).2.store.ArtifactBuilds = w.store.ArtifactBuilds ∧
      (Reconcile w ns name).2.store.artifactBuild ns name = some abr) ∧
    (abr.Status.State ∈ [ArtifactBuildStateFailed, ArtifactBuildStateMissing] →
      (Reconcile w ns name).2.store = w.store ∧
      ∀ c ∈ (Reconcile w ns name).2.callsSince w.calls.length, c.isWrite = false) ∧
    (∀ b, (Reconcile w ns name).2.store.artifactBuild ns name = some b →
      stateRank b.Status.State < stateRank abr.Status.State →
      abr.Status.State = ArtifactBuildStateBuilding ∧
        b.Status.State = ArtifactBuildStateNew) := by
  refine ⟨fun hst => ?_, fun hst => ?_, fun b hb hlt => ?_⟩
  · have hbuilds : (Reconcile w ns name).2.store.ArtifactBuilds = w.store.ArtifactBuilds := by
      simp only [List.mem_cons, List.mem_singleton, List.not_mem_nil, or_false] at hst
      rcases hst with h | h | h
      · exact reconcile_complete w ns name abr hget h
      · rw [(reconcile_inert w ns name abr hget (by simp [h])).1]
      · rw [(reconcile_inert w ns name abr hget (by simp [h])).1]
    exact ⟨hbuilds, by rw [artifactBuild_congr w.store _ ns name hbuilds, hget]⟩
  · obtain ⟨hstore, hcalls⟩ := reconcile_inert w ns name abr hget hst
    refine ⟨hstore, fun c hc => ?_⟩
    unfold World.callsSince at hc
    rw [hcalls, List.drop_left] at hc
    rw [List.mem_singleton.mp hc]
    rfl
  · obtain ⟨b1, hb1, hcase⟩ := reconcile_state w ns name abr hget
    rw [hb] at hb1
    cases hb1
    rcases hcase with h | ⟨h, ht⟩ | ⟨h, ht⟩ | ⟨h, ht⟩
    · rw [h] at hlt
      exact absurd hlt (lt_irrefl _)
    · simp only [StateHandler.targets, List.mem_singleton] at ht
      rw [ht] at hlt
      rcases h with h | h <;> rw [h] at hlt <;> exact absurd hlt (by decide)
    · simp only [StateHandler.targets, List.mem_cons, List.mem_singleton, List.not_mem_nil,
        or_false] at ht
      rw [h] at hlt
      rcases ht with ht | ht | ht | ht <;> rw [ht] at hlt <;> exact absurd hlt (by decide)
    · simp only [StateHandler.targets, List.mem_cons, List.mem_singleton, List.not_mem_nil,
        or_false] at ht
      rw [h] at hlt
      rcases ht with ht | ht | ht
      · exact ⟨h, ht⟩
      · rw [ht] at hlt
        exact absurd hlt (by decide)
      · rw [ht] at hlt
        exact absurd hlt (by decide)

theorem terminal_states_never_left_witness :
    cleanupWorld.store.artifactBuild "ns" "a" = some completeAbr ∧
    ((completeAbr.Status.State ∈ [ArtifactBuildStateComplete, ArtifactBuildStateFailed,
        ArtifactBuildStateMissing] →
      (Reconcile cleanupWorld "ns" "a").2.store.ArtifactBuilds =
        cleanupWorld.store.ArtifactBuilds ∧
      (Reconcile cleanupWorld "ns" "a").2.store.artifactBuild "ns" "a" = some completeAbr) ∧
    (completeAbr.Status.State ∈ [ArtifactBuildStateFailed, ArtifactBuildStateMissing] →
      (Reconcile cleanupWorld "ns" "a").2.store = cleanupWorld.store ∧
      ∀ c ∈ (Reconcile cleanupWorld "ns" "a").2.callsSince cleanupWorld.calls.length,
        c.isWrite = false) ∧
    (∀ b, (Reconcile cleanupWorld "ns" "a").2.store.artifactBuild "ns" "a" = some b →
      stateRank b.Status.State < stateRank completeAbr.Status.State →
      completeAbr.Status.State = ArtifactBuildStateBuilding ∧
        b.Status.State = ArtifactBuildStateNew)) :=
  ⟨by decide!, terminal_states_never_left cleanupWorld "ns" "a" completeAbr (by decide!)⟩

/-- C14 (counterexample): a failing store call does not leave the store as it was.
`handleStateNew` on `newAbr` with the task create failing returns the transient error
and the stored state has become discovering; `handleStateDiscovering` on `exampleAbr`
with the status update failing returns the transient error and the build has the
`ArtifactBuild` as a new owner; `handleStateComplete` with the lookup of the build
failing returns no error at all. -/
theorem transient_failure_keeps_earlier_writes :
    ((handleStateNew failingCreateWorld newAbr).1 = .error .transient ∧
      failingCreateWorld.store.stateOf "ns" "bar.1.2.3-2db6de0c" =
        some ArtifactBuildStateNew ∧
      (handleStateNew failingCreateWorld newAbr).2.store.stateOf "ns" "bar.1.2.3-2db6de0c" =
        some ArtifactBuildStateDiscovering ∧
      (handleStateNew failingCreateWorld newAbr).2.store ≠ failingCreateWorld.store) ∧
    ((handleStateDiscovering failingStatusWorld exampleAbr).1 = .error .transient ∧
      failingStatusWorld.store.ownersOf "ns" "baz.1.0-1234abcd-0" = some [otherOwner] ∧
      (handleStateDiscovering failingStatusWorld exampleAbr).2.store.ownersOf
        "ns" "baz.1.0-1234abcd-0" = some [otherOwner, ownerRefOf exampleAbr] ∧
      (handleStateDiscovering failingStatusWorld exampleAbr).2.store ≠
        failingStatusWorld.store) ∧
    (failingGetWorld.faults = [true] ∧
      (handleStateComplete failingGetWorld completeAbr).2.callsSince 0 =
        [.GetDependencyBuild "ns" "db1"] ∧
      (handleStateComplete failingGetWorld completeAbr).1 = .ok {}) := by
  decide!

/-- C14 (amended): for `handleStateNew`, `handleStateDiscovering` and
`handleStateBuilding`, under every script of failing store calls: when one of the store
calls the handler issues fails with the transient error, the handler returns that error,
the failing call is the last call it issues and the first that fails, and the store is
the one the calls before it produced. The store is as it was before the run when none of
the calls before the failing one is a write. -/
theorem transient_failure_stops_run (h : StateHandler) (w : World) (abr : ArtifactBuild)
    (hfail : true ∈ w.faults.take ((h.run w abr).2.callsSince w.calls.length).length) :
    (h.run w abr).1 = .error .transient ∧
    w.faults.get? (((h.run w abr).2.callsSince w.calls.length).length - 1) = some true ∧
    true ∉ w.faults.take (((h.run w abr).2.callsSince w.calls.length).length - 1) ∧
    (h.run w abr).2.store =
      w.store.applyAll ((h.run w abr).2.callsSince w.calls.length).dropLast ∧
    ((∀ c ∈ ((h.run w abr).2.callsSince w.calls.length).dropLast, c.isWrite = false) →
      (h.run w abr).2.store = w.store) := by
  obtain ⟨cs, hcalls, _, hcase⟩ := stateHandler_stopped h w abr
  have hsince : (h.run w abr).2.callsSince w.calls.length = cs := by
    unfold World.callsSince
    rw [hcalls, List.drop_left]
  rw [hsince] at hfail ⊢
  rcases hcase with ⟨hno, _, _⟩ | ⟨cs0, c, hcs, hno, hget, herr, hstore⟩
  · exact absurd hfail hno
  · subst hcs
    have hlen : (cs0 ++ [c]).length - 1 = cs0.length := by simp
    rw [hlen, List.dropLast_concat]
    refine ⟨herr, hget, hno, hstore, fun hw => ?_⟩
    rw [hstore, applyAll_of_no_write w.store cs0 hw]

theorem transient_failure_stops_run_witness :
    true ∈ failingCreateWorld.faults.take
      ((StateHandler.new.run failingCreateWorld newAbr).2.callsSince
        failingCreateWorld.calls.length).length ∧
    ((StateHandler.new.run failingCreateWorld newAbr).1 = .error .transient ∧
     failingCreateWorld.faults.get?
       (((StateHandler.new.run failingCreateWorld newAbr).2.callsSince
         failingCreateWorld.calls.length).length - 1) = some true ∧
     true ∉ failingCreateWorld.faults.take
       (((StateHandler.new.run failingCreateWorld newAbr).2.callsSince
         failingCreateWorld.calls.length).length - 1) ∧
     (StateHandler.new.run failingCreateWorld newAbr).2.store =
       failingCreateWorld.store.applyAll
         ((StateHandler.new.run failingCreateWorld newAbr).2.callsSince
           failingCreateWorld.calls.length).dropLast ∧
     ((∀ c ∈ ((StateHandler.new.run failingCreateWorld newAbr).2.callsSince
         failingCreateWorld.calls.length).dropLast, c.isWrite = false) →
       (StateHandler.new.run failingCreateWorld newAbr).2.store =
         failingCreateWorld.store)) :=
  ⟨by decide!, transient_failure_stops_run .new failingCreateWorld newAbr (by decide!)⟩

end Artifactbuild
